import Mathlib

/-!
Shallow embedding of the wasi-glk display/io adapter (src/src/wasi-glk/wasi_glk.c).

Modelling conventions:
* C pointers to windows / streams / file references are modelled by their
  numeric `id` field; a `NULL` handle is `none`.  Pointer writes become
  updates of the (unique) list entry with that id.
* `glui32` counters are `Nat` values kept below 2^32; the post-increment
  `counter++` is modelled as `(c + 1) % 4294967296`, the wrap of the
  32-bit counter.
* Caller-owned byte buffers (line-input buffers and memory-stream buffers)
  live in `GlkState.mem`, a list of byte lists indexed by a buffer id;
  a `char *` into caller memory is the buffer id.  Unicode caller buffers
  live in `GlkState.memUni`.
* `stdin` is the queue of results of successive `fgets` calls: each entry
  is the raw byte list fgets stored (normally ending in a newline byte).
  An empty queue models end-of-input.  `fopen`-backed file streams are
  modelled by `GlkState.files`; no operation of the model opens one
  (`glk_stream_open_file` calls the host `fopen`, outside this source),
  but the file branches of the stream primitives are embedded faithfully.
* JSON output frames are the `Frame` inductive; `render` produces the
  exact byte sequence of the single-line JSON text that `json_flush`
  writes (one frame per flushed line, braces written via \x7b / \x7d).
-/

/-- Wrap modulus of a 32-bit unsigned counter. -/
def U32 : Nat := 4294967296

/-- Return keycode sentinel. Modelled from the spec: the fixed Glk API header
(glk.h, not part of src/) defines `keycode_Return` as 0xfffffffa. -/
def keycode_Return : Nat := 4294967290

/-- Text-mode usage bit. Modelled from the spec: the fixed Glk API header
defines `fileusage_TextMode` as 0x100. -/
def fileusage_TextMode : Nat := 256

/-- Largest special keycode offset. Modelled from the spec: glk.h defines
`keycode_MAXVAL` as 28. -/
def keycode_MAXVAL : Nat := 28

/-- Gestalt result constant `gestalt_CharOutput_CannotPrint` (value 0 in glk.h). -/
def gestalt_CharOutput_CannotPrint : Nat := 0

/-- Gestalt result constant `gestalt_CharOutput_ExactPrint` (value 2 in glk.h). -/
def gestalt_CharOutput_ExactPrint : Nat := 2

/-- Decimal digits of a natural number, as ASCII bytes (printf "%u"). -/
def natDigits (n : Nat) : List Nat :=
  if h : n < 10 then [48 + n]
  else natDigits (n / 10) ++ [48 + n % 10]
decreasing_by
  exact Nat.div_lt_self (by omega) (by omega)

/-- Lower-case hex digit byte for a value below 16 (printf "%04x" digits). -/
def hexDigit (n : Nat) : Nat :=
  if n < 10 then 48 + n else 87 + n

/-- Bytes of a string literal (ASCII payloads of the fixed JSON skeletons). -/
def strBytes (s : String) : List Nat :=
  s.toList.map Char.toNat

/-- JSON escape of one byte, as in `json_append_escaped_string`. -/
def escByte (c : Nat) : List Nat :=
  if c = 34 then [92, 34]
  else if c = 92 then [92, 92]
  else if c = 10 then [92, 110]
  else if c = 13 then [92, 114]
  else if c = 9 then [92, 116]
  else if c < 32 then [92, 117, 48, 48, hexDigit (c / 16), hexDigit (c % 16)]
  else [c]

/-- JSON escaping of a C string: a quote, the escaped bytes up to the first
NUL (the `while (*s)` loop), and a closing quote. -/
def jsonEscapeBytes (s : List Nat) : List Nat :=
  [34] ++ (s.takeWhile (fun c => c != 0)).flatMap escByte ++ [34]

/-- One flushed JSON output frame (one line on standard output). -/
inductive Frame where
  | initF
  | updateCreate (id win wintype : Nat)
  | updateClear (id : Nat)
  | updateText (id : Nat) (text : List Nat)
  | inputReq (gen id : Nat) (line : Bool)
  | filerefPrompt (usage fmode : Nat)
  | exitF
deriving DecidableEq, Repr

/-- Exact byte sequence of the single JSON line written for a frame. -/
def render : Frame → List Nat
  | .initF =>
      strBytes "\x7b\"type\":\"init\",\"version\":\"0.7.6\",\"support\":[\"unicode\",\"hyperlinks\",\"datetime\"]\x7d"
  | .updateCreate i wn wt =>
      strBytes "\x7b\"type\":\"update\",\"content\":[\x7b\"id\":" ++ natDigits i ++
      strBytes ",\"win\":" ++ natDigits wn ++
      strBytes ",\"op\":\"create\",\"wintype\":" ++ natDigits wt ++ strBytes "\x7d]\x7d"
  | .updateClear i =>
      strBytes "\x7b\"type\":\"update\",\"content\":[\x7b\"id\":" ++ natDigits i ++
      strBytes ",\"op\":\"clear\"\x7d]\x7d"
  | .updateText i t =>
      strBytes "\x7b\"type\":\"update\",\"content\":[\x7b\"id\":" ++ natDigits i ++
      strBytes ",\"text\":" ++ jsonEscapeBytes t ++ strBytes "\x7d]\x7d"
  | .inputReq g i line =>
      strBytes "\x7b\"type\":\"input\",\"gen\":" ++ natDigits g ++
      strBytes ",\"windows\":[\x7b\"id\":" ++ natDigits i ++
      (if line then strBytes ",\"type\":\"line\"\x7d]\x7d" else strBytes ",\"type\":\"char\"\x7d]\x7d")
  | .filerefPrompt u f =>
      strBytes "\x7b\"type\":\"fileref_prompt\",\"usage\":" ++ natDigits u ++
      strBytes ",\"fmode\":" ++ natDigits f ++ strBytes "\x7d"
  | .exitF => strBytes "\x7b\"type\":\"exit\"\x7d"

/-- Event type of an `event_t` (evtype_None / evtype_CharInput / evtype_LineInput;
the numeric evtype values live in the fixed API header glk.h). -/
inductive EvType where
  | evNone
  | evCharInput
  | evLineInput
deriving DecidableEq, Repr

/-- The `event_t` record filled in by `glk_select`. -/
structure GlkEvent where
  etype : EvType
  win : Option Nat
  val1 : Nat
  val2 : Nat
deriving DecidableEq, Repr

/-- Event record fully zeroed, as at the top of `glk_select`. -/
def noneEvent : GlkEvent := ⟨.evNone, none, 0, 0⟩

/-- Seek mode selector (seekmode_Start / seekmode_Current / seekmode_End;
any other numeric value behaves as Start in the source, which only compares
against Current and End). -/
inductive Seekmode where
  | start
  | current
  | seekEnd
deriving DecidableEq, Repr

/-- File mode selector (filemode_Write / Read / ReadWrite / WriteAppend, plus
any other numeric value). -/
inductive Filemode where
  | write
  | read
  | readWrite
  | writeAppend
  | other
deriving DecidableEq, Repr

/-- Gestalt selector (the named gestalt_* case labels of the source's switch,
plus a default case for every other numeric selector). -/
inductive GestaltSel where
  | version
  | charInput
  | lineInput
  | charOutput
  | unicode
  | unicodeNorm
  | timer
  | graphics
  | drawImage
  | graphicsTransparency
  | graphicsCharInput
  | drawImageScale
  | sound
  | soundVolume
  | soundNotify
  | soundMusic
  | sound2
  | hyperlinks
  | hyperlinkInput
  | mouseInput
  | dateTime
  | lineInputEcho
  | lineTerminators
  | lineTerminatorKey
  | resourceStream
  | other (sel : Nat)
deriving DecidableEq, Repr

/-- A `glk_window_struct`.  Pointer fields hold ids; the caller's line
buffers hold ids into `GlkState.mem` / `GlkState.memUni`. -/
structure Window where
  id : Nat
  rock : Nat
  type : Nat
  char_request : Bool
  line_request : Bool
  char_request_uni : Bool
  line_request_uni : Bool
  line_buffer : Option Nat
  line_buffer_uni : Option Nat
  line_buflen : Nat
  str : Option Nat
  echostr : Option Nat
  parent : Option Nat
  child1 : Option Nat
  child2 : Option Nat
deriving DecidableEq, Repr

/-- A buffered file handle (contents and position) backing a file stream. -/
structure FileH where
  data : List Nat
  pos : Nat
deriving DecidableEq, Repr

/-- A `glk_stream_struct`.  `type` is 0 = window, 1 = memory, 2 = file;
`buf` is the borrowed caller buffer id of a byte memory stream, `buf_uni`
the caller buffer id of a unicode memory stream, `file` a handle id into
`GlkState.files`, `win` the owning window id of a window stream. -/
structure Strm where
  id : Nat
  rock : Nat
  type : Nat
  readable : Bool
  writable : Bool
  buf : Option Nat
  buf_uni : Option Nat
  buflen : Nat
  bufptr : Nat
  is_unicode : Bool
  file : Option Nat
  win : Option Nat
  readcount : Nat
  writecount : Nat
deriving DecidableEq, Repr

/-- A `glk_fileref_struct`. -/
structure Fileref where
  id : Nat
  rock : Nat
  filename : List Nat
  usage : Nat
  textmode : Bool
deriving DecidableEq, Repr

/-- The process-wide mutable state of the adapter: the three intrusive
object lists (head = most recently created), the root window, the current
output stream slot, the three id counters, caller memory, modelled files,
and the queue of pending standard-input lines. -/
structure GlkState where
  rootwin : Option Nat
  windows : List Window
  streams : List Strm
  currentstr : Option Nat
  filerefs : List Fileref
  winCounter : Nat
  strCounter : Nat
  frefCounter : Nat
  mem : List (List Nat)
  memUni : List (List Nat)
  files : List FileH
  stdin : List (List Nat)
deriving DecidableEq, Repr

/-- Fresh process state: empty registries, id counters at 1, caller memory
and the pending standard-input lines given by the environment. -/
def initState (bufs ubufs stdinL : List (List Nat)) : GlkState :=
  { rootwin := none, windows := [], streams := [], currentstr := none, filerefs := []
    winCounter := 1, strCounter := 1, frefCounter := 1
    mem := bufs, memUni := ubufs, files := [], stdin := stdinL }

/-- Update (through its id) the window a C pointer designates. -/
def updWindow (st : GlkState) (k : Nat) (f : Window → Window) : GlkState :=
  { st with windows := st.windows.map (fun w => if w.id == k then f w else w) }

/-- Update (through its id) the stream a C pointer designates. -/
def updStream (st : GlkState) (k : Nat) (f : Strm → Strm) : GlkState :=
  { st with streams := st.streams.map (fun s => if s.id == k then f s else s) }

/-- Dereference a window handle (`NULL` or an id not in the list gives none). -/
def lookupWindow (st : GlkState) (wid : Option Nat) : Option Window :=
  match wid with
  | none => none
  | some i => st.windows.find? (fun w => w.id == i)

/-- Dereference a stream handle. -/
def lookupStream (st : GlkState) (sid : Option Nat) : Option Strm :=
  match sid with
  | none => none
  | some k => st.streams.find? (fun s => s.id == k)

/-- Dereference a file reference handle. -/
def lookupFileref (st : GlkState) (fid : Option Nat) : Option Fileref :=
  match fid with
  | none => none
  | some k => st.filerefs.find? (fun f => f.id == k)

/-- The fgets result as a C string with its trailing newline stripped:
bytes up to the first NUL (strlen), minus one final newline byte if present. -/
def stripNL (raw : List Nat) : List Nat :=
  let input := raw.takeWhile (fun c => c != 0)
  if input.getLast? = some 10 then input.dropLast else input

/-- Exit frame plus process termination (`glk_exit`). -/
def glk_exit : List Frame × Bool :=
  ([Frame.exitF], true)

/-- Allocate a zero-initialised stream record, assign the next stream id,
and insert it at the head of the stream list (`gli_stream_new`). -/
def gli_stream_new (st : GlkState) (ty : Nat) (readable writable : Bool) (rock : Nat) :
    GlkState × Nat :=
  let sid := st.strCounter
  let s : Strm :=
    { id := sid, rock := rock, type := ty, readable := readable, writable := writable
      buf := none, buf_uni := none, buflen := 0, bufptr := 0, is_unicode := false
      file := none, win := none, readcount := 0, writecount := 0 }
  ({ st with streams := s :: st.streams, strCounter := (st.strCounter + 1) % U32 }, sid)

/-- Open the write-only window stream of a window; the fresh stream is the
head of the list, and its `win` back-reference is set (`gli_stream_open_window`). -/
def gli_stream_open_window (st : GlkState) (wid : Nat) : GlkState × Nat :=
  let r := gli_stream_new st 0 false true 0
  let st2 :=
    { r.1 with streams :=
        match r.1.streams with
        | s :: rest => { s with win := some wid } :: rest
        | [] => [] }
  (st2, r.2)

/-- Open a window: allocate the record, assign the next window id, insert it
at the head of the window list, create its owned window stream, set the root
window if absent, and flush one creation frame (`glk_window_open`; the
split/method/size arguments are ignored by the source). -/
def glk_window_open (st : GlkState) (split : Option Nat) (method size wintype rock : Nat) :
    GlkState × Nat × List Frame :=
  let _ := split
  let _ := method
  let _ := size
  let wid := st.winCounter
  let w : Window :=
    { id := wid, rock := rock, type := wintype
      char_request := false, line_request := false
      char_request_uni := false, line_request_uni := false
      line_buffer := none, line_buffer_uni := none, line_buflen := 0
      str := none, echostr := none, parent := none, child1 := none, child2 := none }
  let st1 := { st with windows := w :: st.windows, winCounter := (st.winCounter + 1) % U32 }
  let r := gli_stream_open_window st1 wid
  let st3 :=
    { r.1 with windows :=
        match r.1.windows with
        | w0 :: rest => { w0 with str := some r.2 } :: rest
        | [] => [] }
  let st4 :=
    match st3.rootwin with
    | none => { st3 with rootwin := some wid }
    | some _ => st3
  (st4, wid, [Frame.updateCreate wid wid wintype])

/-- Close a stream: report its counters, clear the current-stream slot if it
points here, unlink it and free it (`glk_stream_close`; closing a file stream
also fcloses the handle, which leaves the modelled file contents in place). -/
def glk_stream_close (st : GlkState) (sid : Option Nat) : GlkState × Option (Nat × Nat) :=
  match sid with
  | none => (st, none)
  | some k =>
    match st.streams.find? (fun s => s.id == k) with
    | none => (st, none)
    | some s =>
      let res := (s.readcount, s.writecount)
      let st1 := if st.currentstr = some k then { st with currentstr := none } else st
      ({ st1 with streams := st1.streams.eraseP (fun s => s.id == k) }, some res)

/-- Close a window (`glk_window_close`).  The source guards only against
`NULL` (`if (!win) return;`): a `NULL` handle is a no-op, modeled by the
`none` argument.  A non-`NULL` handle is dereferenced unconditionally — the
function performs no magic-number or registry-membership test — so a handle
whose window was already closed points into freed memory and the call has no
defined result (a use-after-free followed by a second `free`); that path is
modeled as `none` in the result.  On a live handle: report the owned stream's
counters, null the stream's window back-reference, close the owned stream,
unlink the window, clear the root-window slot if it points here, and free
the window. -/
def glk_window_close (st : GlkState) (wid : Option Nat) :
    Option (GlkState × Option (Nat × Nat)) :=
  match wid with
  | none => some (st, none)
  | some i =>
    match st.windows.find? (fun w => w.id == i) with
    | none => none
    | some w =>
      let res :=
        match w.str with
        | some sid =>
          match st.streams.find? (fun s => s.id == sid) with
          | some s => (s.readcount, s.writecount)
          | none => (0, 0)
        | none => (0, 0)
      let st1 :=
        match w.str with
        | some sid => (glk_stream_close (updStream st sid (fun s => { s with win := none })) (some sid)).1
        | none => st
      let st2 := { st1 with windows := st1.windows.eraseP (fun w => w.id == i) }
      let st3 := if st2.rootwin = some i then { st2 with rootwin := none } else st2
      some (st3, some res)

/-- Clear a window: flush one clear frame naming it (`glk_window_clear`);
the state is untouched. -/
def glk_window_clear (st : GlkState) (wid : Option Nat) : List Frame :=
  match lookupWindow st wid with
  | none => []
  | some w => [Frame.updateClear w.id]

/-- Window iteration: `NULL` starts at the list head, otherwise the entry
after the given one (`glk_window_iterate`). -/
def nextAfterWin : List Window → Nat → Option Nat
  | [], _ => none
  | w :: rest, i => if w.id == i then rest.head?.map (fun w => w.id) else nextAfterWin rest i

/-- Window iteration entry point. -/
def glk_window_iterate (st : GlkState) (wid : Option Nat) : Option Nat :=
  match wid with
  | none => st.windows.head?.map (fun w => w.id)
  | some i => nextAfterWin st.windows i

/-- Stream iteration helper: the list entry after the one with id `i`. -/
def nextAfterStr : List Strm → Nat → Option Nat
  | [], _ => none
  | s :: rest, i => if s.id == i then rest.head?.map (fun s => s.id) else nextAfterStr rest i

/-- Stream iteration: `NULL` starts at the list head, otherwise the entry
after the given one (`glk_stream_iterate`). -/
def glk_stream_iterate (st : GlkState) (sid : Option Nat) : Option Nat :=
  match sid with
  | none => st.streams.head?.map (fun s => s.id)
  | some k => nextAfterStr st.streams k

/-- Open a memory stream over a borrowed caller buffer (`glk_stream_open_memory`). -/
def glk_stream_open_memory (st : GlkState) (bid : Option Nat) (buflen : Nat)
    (fmode : Filemode) (rock : Nat) : GlkState × Nat :=
  let readable := fmode == Filemode.read || fmode == Filemode.readWrite
  let writable := fmode == Filemode.write || fmode == Filemode.readWrite
  let r := gli_stream_new st 1 readable writable rock
  let st2 :=
    { r.1 with streams :=
        match r.1.streams with
        | s :: rest =>
          { s with buf := bid, buflen := buflen, bufptr := 0, is_unicode := false } :: rest
        | [] => [] }
  (st2, r.2)

/-- Set the current output stream slot (`glk_stream_set_current`). -/
def glk_stream_set_current (st : GlkState) (sid : Option Nat) : GlkState :=
  { st with currentstr := sid }

/-- Set the current output stream to a window's stream (`glk_set_window`). -/
def glk_set_window (st : GlkState) (wid : Option Nat) : GlkState :=
  match lookupWindow st wid with
  | some w => { st with currentstr := w.str }
  | none => { st with currentstr := none }

/-- fputc on a modelled file handle: overwrite at the position (zero-filling
any gap a past-end seek left) and advance. -/
def fputcF (f : FileH) (c : Nat) : FileH :=
  { data :=
      if f.pos < f.data.length then f.data.set f.pos c
      else f.data ++ List.replicate (f.pos - f.data.length) 0 ++ [c]
    pos := f.pos + 1 }

/-- fgetc on a modelled file handle: the byte at the position, or -1 at end. -/
def fgetcF (f : FileH) : FileH × Int :=
  if f.pos < f.data.length then ({ f with pos := f.pos + 1 }, Int.ofNat (f.data.getD f.pos 0))
  else (f, -1)

/-- fseek on a modelled file handle (whence 0 = SET, 1 = CUR, 2 = END);
a negative target fails and leaves the position unchanged. -/
def fseekF (f : FileH) (pos : Int) (whence : Nat) : FileH :=
  let target : Int :=
    if whence = 1 then (f.pos : Int) + pos
    else if whence = 2 then (f.data.length : Int) + pos
    else pos
  if target < 0 then f else { f with pos := target.toNat }

/-- Seek a stream (`glk_stream_set_position`).  File streams delegate to
fseek; memory streams add the signed offset with 32-bit unsigned wrap
(`glui32` += `glsi32`) and then clamp any pointer above the length down to
the length. -/
def glk_stream_set_position (st : GlkState) (sid : Option Nat) (pos : Int)
    (mode : Seekmode) : GlkState :=
  match sid with
  | none => st
  | some k =>
    match st.streams.find? (fun s => s.id == k) with
    | none => st
    | some s =>
      if s.type == 2 then
        match s.file with
        | some fid =>
          let whence : Nat :=
            match mode with
            | .current => 1
            | .seekEnd => 2
            | .start => 0
          let f := st.files.getD fid { data := [], pos := 0 }
          { st with files := st.files.set fid (fseekF f pos whence) }
        | none => st
      else if s.type == 1 then
        let target : Int :=
          match mode with
          | .current => (s.bufptr : Int) + pos
          | .seekEnd => (s.buflen : Int) + pos
          | .start => pos
        let np := (target % (4294967296 : Int)).toNat
        let np := if np > s.buflen then s.buflen else np
        updStream st k (fun s => { s with bufptr := np })
      else st

/-- Report a stream's position (`glk_stream_get_position`). -/
def glk_stream_get_position (st : GlkState) (sid : Option Nat) : Nat :=
  match sid with
  | none => 0
  | some k =>
    match st.streams.find? (fun s => s.id == k) with
    | none => 0
    | some s =>
      if s.type == 2 then
        match s.file with
        | some fid => (st.files.getD fid { data := [], pos := 0 }).pos
        | none => 0
      else if s.type == 1 then s.bufptr
      else 0

/-- Write one byte to a stream (`gli_put_char_to_stream`): a no-op for a
missing or read-only stream; otherwise the write counter always increments,
a window stream flushes one text frame, a memory stream stores the byte only
while the pointer is below the length, and a file stream fputcs it. -/
def gli_put_char_to_stream (st : GlkState) (sid : Option Nat) (ch : Nat) :
    GlkState × List Frame :=
  let c := ch % 256
  match sid with
  | none => (st, [])
  | some k =>
    match st.streams.find? (fun s => s.id == k) with
    | none => (st, [])
    | some s =>
      if !s.writable then (st, [])
      else
        let st1 := updStream st k (fun s => { s with writecount := s.writecount + 1 })
        if s.type == 0 then
          match s.win with
          | some wid => (st1, [Frame.updateText wid [c]])
          | none => (st1, [])
        else if s.type == 1 then
          match s.buf with
          | some bid =>
            if s.bufptr < s.buflen then
              let old := st1.mem.getD bid []
              ({ updStream st1 k (fun s => { s with bufptr := s.bufptr + 1 }) with
                  mem := st1.mem.set bid (old.set s.bufptr c) }, [])
            else (st1, [])
          | none => (st1, [])
        else if s.type == 2 then
          match s.file with
          | some fid =>
            let f := st1.files.getD fid { data := [], pos := 0 }
            ({ st1 with files := st1.files.set fid (fputcF f c) }, [])
          | none => (st1, [])
        else (st1, [])

/-- Write one byte to an explicit stream (`glk_put_char_stream`). -/
def glk_put_char_stream (st : GlkState) (sid : Option Nat) (ch : Nat) :
    GlkState × List Frame :=
  gli_put_char_to_stream st sid ch

/-- Byte-by-byte write loop shared by the string and buffer writers. -/
def putList (st : GlkState) (sid : Option Nat) : List Nat → GlkState × List Frame
  | [] => (st, [])
  | c :: cs =>
    let r1 := gli_put_char_to_stream st sid c
    let r2 := putList r1.1 sid cs
    (r2.1, r1.2 ++ r2.2)

/-- Write a NUL-terminated string byte-by-byte (`glk_put_string_stream`). -/
def glk_put_string_stream (st : GlkState) (sid : Option Nat) (s : List Nat) :
    GlkState × List Frame :=
  putList st sid (s.takeWhile (fun c => c != 0))

/-- Write `len` bytes of a buffer byte-by-byte (`glk_put_buffer_stream`). -/
def glk_put_buffer_stream (st : GlkState) (sid : Option Nat) (buf : List Nat) (len : Nat) :
    GlkState × List Frame :=
  putList st sid (buf.take len)

/-- Read one byte from a stream (`glk_get_char_stream`): -1 for a missing or
non-readable stream; otherwise the read counter always increments, a memory
stream yields the byte under the pointer while it is below the length and -1
(without moving the pointer) past it, and a file stream fgetcs. -/
def glk_get_char_stream (st : GlkState) (sid : Option Nat) : GlkState × Int :=
  match sid with
  | none => (st, -1)
  | some k =>
    match st.streams.find? (fun s => s.id == k) with
    | none => (st, -1)
    | some s =>
      if !s.readable then (st, -1)
      else
        let st1 := updStream st k (fun s => { s with readcount := s.readcount + 1 })
        if s.type == 1 then
          match s.buf with
          | some bid =>
            if s.bufptr < s.buflen then
              (updStream st1 k (fun s => { s with bufptr := s.bufptr + 1 }),
               Int.ofNat ((st1.mem.getD bid []).getD s.bufptr 0 % 256))
            else (st1, -1)
          | none => (st1, -1)
        else if s.type == 2 then
          match s.file with
          | some fid =>
            let f := st1.files.getD fid { data := [], pos := 0 }
            let r := fgetcF f
            ({ st1 with files := st1.files.set fid r.1 }, r.2)
          | none => (st1, -1)
        else (st1, -1)

/-- Driver reading `n` successive bytes through `glk_get_char_stream`. -/
def getChars (st : GlkState) (sid : Option Nat) : Nat → GlkState × List Int
  | 0 => (st, [])
  | Nat.succ n =>
    let r1 := glk_get_char_stream st sid
    let r2 := getChars r1.1 sid n
    (r2.1, r1.2 :: r2.2)

/-- Allocate a file reference record (`gli_fileref_new`). -/
def gli_fileref_new (st : GlkState) (filename : List Nat) (usage rock : Nat) :
    GlkState × Nat :=
  let fid := st.frefCounter
  let fr : Fileref :=
    { id := fid, rock := rock, filename := filename, usage := usage
      textmode := (usage &&& fileusage_TextMode) != 0 }
  ({ st with filerefs := fr :: st.filerefs, frefCounter := (st.frefCounter + 1) % U32 }, fid)

/-- Create a file reference by name; a `NULL` name gives `NULL`
(`glk_fileref_create_by_name`). -/
def glk_fileref_create_by_name (st : GlkState) (usage : Nat) (name : Option (List Nat))
    (rock : Nat) : GlkState × Option Nat :=
  match name with
  | none => (st, none)
  | some nm =>
    let r := gli_fileref_new st nm usage rock
    (r.1, some r.2)

/-- Create a file reference with a generated temporary name
(`glk_fileref_create_temp`). -/
def glk_fileref_create_temp (st : GlkState) (usage rock : Nat) : GlkState × Option Nat :=
  let r := gli_fileref_new st (strBytes "/tmp/glktmp_" ++ natDigits st.frefCounter) usage rock
  (r.1, some r.2)

/-- Create a file reference via the prompt protocol: flush one prompt frame,
read one line from standard input for the name; end-of-input gives `NULL`
(`glk_fileref_create_by_prompt`). -/
def glk_fileref_create_by_prompt (st : GlkState) (usage fmode rock : Nat) :
    GlkState × Option Nat × List Frame :=
  let fr := Frame.filerefPrompt usage fmode
  match st.stdin with
  | [] => (st, none, [fr])
  | raw :: rest =>
    let r := gli_fileref_new { st with stdin := rest } (stripNL raw) usage rock
    (r.1, some r.2, [fr])

/-- Destroy a file reference (`glk_fileref_destroy`); the underlying file is
not deleted. -/
def glk_fileref_destroy (st : GlkState) (fid : Option Nat) : GlkState :=
  match fid with
  | none => st
  | some k => { st with filerefs := st.filerefs.eraseP (fun f => f.id == k) }

/-- Fileref iteration helper. -/
def nextAfterFref : List Fileref → Nat → Option Nat
  | [], _ => none
  | f :: rest, i => if f.id == i then rest.head?.map (fun f => f.id) else nextAfterFref rest i

/-- Fileref iteration (`glk_fileref_iterate`). -/
def glk_fileref_iterate (st : GlkState) (fid : Option Nat) : Option Nat :=
  match fid with
  | none => st.filerefs.head?.map (fun f => f.id)
  | some k => nextAfterFref st.filerefs k

/-- Request byte line input on a window (`glk_request_line_event`); the
caller's buffer is borrowed, not copied. -/
def glk_request_line_event (st : GlkState) (wid : Option Nat) (bid : Option Nat)
    (maxlen initlen : Nat) : GlkState :=
  let _ := initlen
  match wid with
  | none => st
  | some i =>
    updWindow st i (fun w => { w with line_request := true, line_buffer := bid, line_buflen := maxlen })

/-- Request byte character input on a window (`glk_request_char_event`). -/
def glk_request_char_event (st : GlkState) (wid : Option Nat) : GlkState :=
  match wid with
  | none => st
  | some i => updWindow st i (fun w => { w with char_request := true })

/-- Request unicode line input (`glk_request_line_event_uni`). -/
def glk_request_line_event_uni (st : GlkState) (wid : Option Nat) (bid : Option Nat)
    (maxlen initlen : Nat) : GlkState :=
  let _ := initlen
  match wid with
  | none => st
  | some i =>
    updWindow st i (fun w => { w with line_request_uni := true, line_buffer_uni := bid, line_buflen := maxlen })

/-- Request unicode character input (`glk_request_char_event_uni`). -/
def glk_request_char_event_uni (st : GlkState) (wid : Option Nat) : GlkState :=
  match wid with
  | none => st
  | some i => updWindow st i (fun w => { w with char_request_uni := true })

/-- Cancel pending line input (`glk_cancel_line_event`); unconditionally
clears the flag and releases the borrowed buffer, and zeroes the event. -/
def glk_cancel_line_event (st : GlkState) (wid : Option Nat) : GlkState × Option GlkEvent :=
  match wid with
  | none => (st, none)
  | some i =>
    (updWindow st i (fun w => { w with line_request := false, line_buffer := none }), some noneEvent)

/-- Cancel pending character input (`glk_cancel_char_event`). -/
def glk_cancel_char_event (st : GlkState) (wid : Option Nat) : GlkState :=
  match wid with
  | none => st
  | some i => updWindow st i (fun w => { w with char_request := false })

/-- A window's pending-input test, as in the scan loop of `glk_select`. -/
def pendingReq (w : Window) : Bool :=
  w.char_request || w.line_request || w.char_request_uni || w.line_request_uni

/-- The blocking event wait (`glk_select`).  Returns the final state, the
filled event record, the flushed frames in order, and whether the process
terminated (end-of-input exits through `glk_exit`). -/
def glk_select (st : GlkState) : GlkState × GlkEvent × List Frame × Bool :=
  match st.windows.findIdx? pendingReq with
  | none => (st, noneEvent, [], false)
  | some i =>
    match st.windows.get? i with
    | none => (st, noneEvent, [], false)
    | some w =>
      let kindLine := w.line_request || w.line_request_uni
      let reqF := Frame.inputReq 1 w.id kindLine
      match st.stdin with
      | [] => (st, noneEvent, [reqF, Frame.exitF], true)
      | raw :: rest =>
        let st1 := { st with stdin := rest }
        let input := stripNL raw
        let len := input.length
        if w.line_request then
          match w.line_buffer with
          | some bid =>
            let lim := (w.line_buflen + (U32 - 1)) % U32
            let copylen := if len > lim then lim else len
            let old := st1.mem.getD bid []
            let newBuf := input.take copylen ++ [0] ++ old.drop (copylen + 1)
            let st2 :=
              { st1 with
                  mem := st1.mem.set bid newBuf
                  windows := st1.windows.set i { w with line_request := false, line_buffer := none } }
            (st2, ⟨.evLineInput, some w.id, copylen, 0⟩, [reqF], false)
          | none =>
            let st2 :=
              { st1 with windows := st1.windows.set i { w with line_request := false, line_buffer := none } }
            (st2, noneEvent, [reqF], false)
        else if w.char_request then
          let v1 := if len > 0 then input.headD 0 % 256 else keycode_Return
          let st2 :=
            { st1 with windows := st1.windows.set i { w with char_request := false } }
          (st2, ⟨.evCharInput, some w.id, v1, 0⟩, [reqF], false)
        else
          (st1, noneEvent, [reqF], false)

/-- The non-blocking poll (`glk_select_poll`): always a zeroed event. -/
def glk_select_poll : GlkEvent := noneEvent

/-- Capability query with an optional result array (`glk_gestalt_ext`).
This is a pure function of selector and argument: the source reads no
global state.  The second component is the value written to `arr[0]`,
when one is written. -/
def glk_gestalt_ext (sel : GestaltSel) (val : Nat) (hasArr : Bool) (arrlen : Nat) :
    Nat × Option Nat :=
  match sel with
  | .version => (0x00000706, none)
  | .charInput =>
    if val ≤ 0x7F ∨ (0xA0 ≤ val ∧ val ≤ 0xFF) then (1, none)
    else if 0x100000000 - keycode_MAXVAL ≤ val then (1, none)
    else (0, none)
  | .lineInput =>
    if val ≤ 0x7F ∨ (0xA0 ≤ val ∧ val ≤ 0xFF) then (1, none) else (0, none)
  | .charOutput =>
    if val ≤ 0x7F ∨ (0xA0 ≤ val ∧ val ≤ 0xFF) then
      (gestalt_CharOutput_ExactPrint, if hasArr ∧ 1 ≤ arrlen then some 1 else none)
    else
      (gestalt_CharOutput_CannotPrint, if hasArr ∧ 1 ≤ arrlen then some 0 else none)
  | .unicode => (1, none)
  | .unicodeNorm => (1, none)
  | .timer => (0, none)
  | .graphics => (0, none)
  | .drawImage => (0, none)
  | .graphicsTransparency => (0, none)
  | .graphicsCharInput => (0, none)
  | .drawImageScale => (0, none)
  | .sound => (0, none)
  | .soundVolume => (0, none)
  | .soundNotify => (0, none)
  | .soundMusic => (0, none)
  | .sound2 => (0, none)
  | .hyperlinks => (1, none)
  | .hyperlinkInput => (1, none)
  | .mouseInput => (0, none)
  | .dateTime => (1, none)
  | .lineInputEcho => (1, none)
  | .lineTerminators => (1, none)
  | .lineTerminatorKey => (0, none)
  | .resourceStream => (1, none)
  | .other _ => (0, none)

/-- Capability query (`glk_gestalt` calls `glk_gestalt_ext` with no array). -/
def glk_gestalt (sel : GestaltSel) (val : Nat) : Nat :=
  (glk_gestalt_ext sel val false 0).1

/-- One adapter call made by the interpreter engine. -/
inductive Op where
  | windowOpen (split : Option Nat) (method size wintype rock : Nat)
  | windowClose (wid : Option Nat)
  | windowClear (wid : Option Nat)
  | streamOpenMemory (bid : Option Nat) (buflen : Nat) (fmode : Filemode) (rock : Nat)
  | streamClose (sid : Option Nat)
  | streamSetPosition (sid : Option Nat) (pos : Int) (mode : Seekmode)
  | streamSetCurrent (sid : Option Nat)
  | setWindow (wid : Option Nat)
  | putChar (sid : Option Nat) (ch : Nat)
  | putString (sid : Option Nat) (s : List Nat)
  | putBuffer (sid : Option Nat) (buf : List Nat) (len : Nat)
  | getChar (sid : Option Nat)
  | requestLineEvent (wid bid : Option Nat) (maxlen initlen : Nat)
  | requestCharEvent (wid : Option Nat)
  | requestLineEventUni (wid bid : Option Nat) (maxlen initlen : Nat)
  | requestCharEventUni (wid : Option Nat)
  | cancelLineEvent (wid : Option Nat)
  | cancelCharEvent (wid : Option Nat)
  | filerefCreateByName (usage : Nat) (name : Option (List Nat)) (rock : Nat)
  | filerefCreateTemp (usage rock : Nat)
  | filerefCreateByPrompt (usage fmode rock : Nat)
  | filerefDestroy (fid : Option Nat)
  | select
  | selectPoll
  | exitCall
deriving DecidableEq, Repr

/-- Effect of one adapter call: next state, flushed frames, termination flag.
A call with no defined result in the source (a window close on a stale,
already-freed handle) is given an arbitrary total placeholder (state kept);
trace-level theorems that involve window closes restrict to sequences whose
destroys all name live objects (`wfCD`), where that placeholder is never
reached. -/
def step (st : GlkState) : Op → GlkState × List Frame × Bool
  | .windowOpen split method size wintype rock =>
    let r := glk_window_open st split method size wintype rock
    (r.1, r.2.2, false)
  | .windowClose wid =>
    ((match glk_window_close st wid with
      | some r => r.1
      | none => st), [], false)
  | .windowClear wid => (st, glk_window_clear st wid, false)
  | .streamOpenMemory bid buflen fmode rock =>
    ((glk_stream_open_memory st bid buflen fmode rock).1, [], false)
  | .streamClose sid => ((glk_stream_close st sid).1, [], false)
  | .streamSetPosition sid pos mode => (glk_stream_set_position st sid pos mode, [], false)
  | .streamSetCurrent sid => (glk_stream_set_current st sid, [], false)
  | .setWindow wid => (glk_set_window st wid, [], false)
  | .putChar sid ch =>
    let r := glk_put_char_stream st sid ch
    (r.1, r.2, false)
  | .putString sid s =>
    let r := glk_put_string_stream st sid s
    (r.1, r.2, false)
  | .putBuffer sid buf len =>
    let r := glk_put_buffer_stream st sid buf len
    (r.1, r.2, false)
  | .getChar sid => ((glk_get_char_stream st sid).1, [], false)
  | .requestLineEvent wid bid maxlen initlen =>
    (glk_request_line_event st wid bid maxlen initlen, [], false)
  | .requestCharEvent wid => (glk_request_char_event st wid, [], false)
  | .requestLineEventUni wid bid maxlen initlen =>
    (glk_request_line_event_uni st wid bid maxlen initlen, [], false)
  | .requestCharEventUni wid => (glk_request_char_event_uni st wid, [], false)
  | .cancelLineEvent wid => ((glk_cancel_line_event st wid).1, [], false)
  | .cancelCharEvent wid => (glk_cancel_char_event st wid, [], false)
  | .filerefCreateByName usage name rock =>
    ((glk_fileref_create_by_name st usage name rock).1, [], false)
  | .filerefCreateTemp usage rock => ((glk_fileref_create_temp st usage rock).1, [], false)
  | .filerefCreateByPrompt usage fmode rock =>
    let r := glk_fileref_create_by_prompt st usage fmode rock
    (r.1, r.2.2, false)
  | .filerefDestroy fid => (glk_fileref_destroy st fid, [], false)
  | .select =>
    let r := glk_select st
    (r.1, r.2.2.1, r.2.2.2)
  | .selectPoll => (st, [], false)
  | .exitCall => (st, glk_exit.1, glk_exit.2)

/-- Run a call sequence; a terminating call (process exit) stops the run. -/
def run (st : GlkState) : List Op → GlkState × List Frame × Bool
  | [] => (st, [], false)
  | op :: ops =>
    let r := step st op
    if r.2.2 then (r.1, r.2.1, true)
    else
      let r2 := run r.1 ops
      (r2.1, r.2.1 ++ r2.2.1, r2.2.2)

/-- State after running a call sequence. -/
def runState (st : GlkState) (ops : List Op) : GlkState := (run st ops).1

/-- Frames flushed while running a call sequence. -/
def runFrames (st : GlkState) (ops : List Op) : List Frame := (run st ops).2.1

/-- Whether running a call sequence terminated the process. -/
def runTerm (st : GlkState) (ops : List Op) : Bool := (run st ops).2.2

/-- Full output of a process execution: `main` flushes the init frame, the
engine (`glk_main`) performs its calls, and if those did not already exit
the process, the shutdown wrapper's `glk_exit` flushes the final exit frame. -/
def processTrace (bufs ubufs stdinL : List (List Nat)) (ops : List Op) : List Frame :=
  Frame.initF ::
    (runFrames (initState bufs ubufs stdinL) ops ++
      if runTerm (initState bufs ubufs stdinL) ops then [] else [Frame.exitF])

/-- Live window ids, in iteration (most-recent-first) order. -/
def winIds (st : GlkState) : List Nat := st.windows.map (fun w => w.id)

/-- Live stream ids, in iteration order. -/
def streamIds (st : GlkState) : List Nat := st.streams.map (fun s => s.id)

/-- Live file reference ids, in iteration order. -/
def frefIds (st : GlkState) : List Nat := st.filerefs.map (fun f => f.id)

/-- Number of window-create calls in a sequence. -/
def countWO (ops : List Op) : Nat :=
  ops.countP (fun op => match op with | .windowOpen _ _ _ _ _ => true | _ => false)

/-- Number of window-destroy calls in a sequence. -/
def countWC (ops : List Op) : Nat :=
  ops.countP (fun op => match op with | .windowClose _ => true | _ => false)

/-- Number of memory-stream-create calls in a sequence. -/
def countMO (ops : List Op) : Nat :=
  ops.countP (fun op => match op with | .streamOpenMemory _ _ _ _ => true | _ => false)

/-- Number of explicit stream-destroy calls in a sequence. -/
def countSC (ops : List Op) : Nat :=
  ops.countP (fun op => match op with | .streamClose _ => true | _ => false)

/-- Number of fileref-create calls (by name or temp) in a sequence. -/
def countFC (ops : List Op) : Nat :=
  ops.countP (fun op => match op with
    | .filerefCreateByName _ name _ => name.isSome
    | .filerefCreateTemp _ _ => true
    | _ => false)

/-- Number of fileref-destroy calls in a sequence. -/
def countFD (ops : List Op) : Nat :=
  ops.countP (fun op => match op with | .filerefDestroy _ => true | _ => false)

/-- A create-or-destroy call sequence in which every destroy targets a live
object of its kind (and explicit stream closes never target a window's owned
stream, which the API reaches only through its window). -/
def wfCD (st : GlkState) : List Op → Bool
  | [] => true
  | op :: ops =>
    let ok :=
      match op with
      | .windowOpen _ _ _ _ _ => true
      | .streamOpenMemory _ _ _ _ => true
      | .filerefCreateByName _ name _ => name.isSome
      | .filerefCreateTemp _ _ => true
      | .windowClose (some i) => st.windows.any (fun w => w.id == i)
      | .streamClose (some k) =>
        match st.streams.find? (fun s => s.id == k) with
        | some s => s.type != 0
        | none => false
      | .filerefDestroy (some k) => st.filerefs.any (fun f => f.id == k)
      | _ => false
    ok && wfCD (step st op).1 ops

/-- Window ids assigned by successive creates along a run. -/
def createdWinIds (st : GlkState) : List Op → List Nat
  | [] => []
  | op :: ops =>
    let here :=
      match op with
      | .windowOpen _ _ _ _ _ => [st.winCounter]
      | _ => []
    let r := step st op
    here ++ (if r.2.2 then [] else createdWinIds r.1 ops)

/-- Stream ids assigned by successive creates (window opens create a stream
too) along a run. -/
def createdStrIds (st : GlkState) : List Op → List Nat
  | [] => []
  | op :: ops =>
    let here :=
      match op with
      | .windowOpen _ _ _ _ _ => [st.strCounter]
      | .streamOpenMemory _ _ _ _ => [st.strCounter]
      | _ => []
    let r := step st op
    here ++ (if r.2.2 then [] else createdStrIds r.1 ops)

/-- Fileref ids assigned by successive creates along a run. -/
def createdFrefIds (st : GlkState) : List Op → List Nat
  | [] => []
  | op :: ops =>
    let here :=
      match op with
      | .filerefCreateByName _ name _ => if name.isSome then [st.frefCounter] else []
      | .filerefCreateTemp _ _ => [st.frefCounter]
      | _ => []
    let r := step st op
    here ++ (if r.2.2 then [] else createdFrefIds r.1 ops)

/-- An id of a destroyed window: assigned at some point (ids 1, 2, ... are
handed out consecutively from 1) but no longer live. -/
def deadWin (st : GlkState) (i : Nat) : Prop :=
  1 ≤ i ∧ i < st.winCounter ∧ i ∉ winIds st

/-- An id of a destroyed stream. -/
def deadStr (st : GlkState) (i : Nat) : Prop :=
  1 ≤ i ∧ i < st.strCounter ∧ i ∉ streamIds st

/-- An id of a destroyed file reference. -/
def deadFref (st : GlkState) (i : Nat) : Prop :=
  1 ≤ i ∧ i < st.frefCounter ∧ i ∉ frefIds st

/-- Registry invariant maintained by create/destroy sequences: ids are unique
and below the allocation counter within each kind, every window owns a live
window-typed stream, and no two windows share an owned stream. -/
def RegInv (st : GlkState) : Prop :=
  (winIds st).Nodup ∧ (streamIds st).Nodup ∧ (frefIds st).Nodup
  ∧ (∀ w ∈ st.windows, w.id < st.winCounter)
  ∧ (∀ s ∈ st.streams, s.id < st.strCounter)
  ∧ (∀ f ∈ st.filerefs, f.id < st.frefCounter)
  ∧ (∀ w ∈ st.windows, ∃ s ∈ st.streams, w.str = some s.id ∧ s.type = 0)
  ∧ (∀ w1 ∈ st.windows, ∀ w2 ∈ st.windows, w1.str = w2.str → w1.id = w2.id)

/-- Registry effect of one call: every id live after the call was live before
or is the freshly allocated counter value, and each counter moves forward by
at most one. -/
def StepReg (st st' : GlkState) : Prop :=
  (∀ i, i ∈ winIds st' → i ∈ winIds st ∨ i = st.winCounter)
  ∧ st.winCounter ≤ st'.winCounter ∧ st'.winCounter ≤ st.winCounter + 1
  ∧ (∀ i, i ∈ streamIds st' → i ∈ streamIds st ∨ i = st.strCounter)
  ∧ st.strCounter ≤ st'.strCounter ∧ st'.strCounter ≤ st.strCounter + 1
  ∧ (∀ i, i ∈ frefIds st' → i ∈ frefIds st ∨ i = st.frefCounter)
  ∧ st.frefCounter ≤ st'.frefCounter ∧ st'.frefCounter ≤ st.frefCounter + 1

/-! Helper lemmas. -/

theorem find_map_upd (l : List Strm) (k : Nat) (f : Strm → Strm)
    (hf : ∀ s, (f s).id = s.id) :
    (l.map (fun s => if s.id == k then f s else s)).find? (fun s => s.id == k) =
      (l.find? (fun s => s.id == k)).map f := by
  rw [List.find?_map]
  have hp : ((fun s : Strm => s.id == k) ∘ (fun s => if s.id == k then f s else s)) =
      (fun s : Strm => s.id == k) := by
    funext s
    by_cases h : s.id = k
    · simp [h, hf]
    · simp [h]
  rw [hp]
  cases hfind : l.find? (fun s => s.id == k) with
  | none => rfl
  | some a =>
    have ha : a.id = k := by simpa using List.find?_some hfind
    simp [ha]

theorem find_map_updW (l : List Window) (k : Nat) (f : Window → Window)
    (hf : ∀ w, (f w).id = w.id) :
    (l.map (fun w => if w.id == k then f w else w)).find? (fun w => w.id == k) =
      (l.find? (fun w => w.id == k)).map f := by
  rw [List.find?_map]
  have hp : ((fun w : Window => w.id == k) ∘ (fun w => if w.id == k then f w else w)) =
      (fun w : Window => w.id == k) := by
    funext w
    by_cases h : w.id = k
    · simp [h, hf]
    · simp [h]
  rw [hp]
  cases hfind : l.find? (fun w => w.id == k) with
  | none => rfl
  | some a =>
    have ha : a.id = k := by simpa using List.find?_some hfind
    simp [ha]

theorem getD_of_get? {l : List (List Nat)} {n : Nat} {a : List Nat}
    (h : l.get? n = some a) : l.getD n [] = a := by
  rw [List.getD_eq_getD_get?, h]
  rfl

/-- C9: every capability selector named by the spec returns its fixed
constant, for every argument value: Unicode, hyperlinks and date/time are
supported (1); sound, graphics, mouse input and timers are unsupported (0).
The embedding `glk_gestalt_ext` is a pure function of selector and argument,
mirroring the source function, which reads no global state. -/
theorem c9_gestalt_constants : ∀ val : Nat,
    glk_gestalt .unicode val = 1 ∧
    glk_gestalt .unicodeNorm val = 1 ∧
    glk_gestalt .hyperlinks val = 1 ∧
    glk_gestalt .hyperlinkInput val = 1 ∧
    glk_gestalt .dateTime val = 1 ∧
    glk_gestalt .sound val = 0 ∧
    glk_gestalt .soundVolume val = 0 ∧
    glk_gestalt .soundNotify val = 0 ∧
    glk_gestalt .soundMusic val = 0 ∧
    glk_gestalt .sound2 val = 0 ∧
    glk_gestalt .graphics val = 0 ∧
    glk_gestalt .drawImage val = 0 ∧
    glk_gestalt .graphicsTransparency val = 0 ∧
    glk_gestalt .graphicsCharInput val = 0 ∧
    glk_gestalt .drawImageScale val = 0 ∧
    glk_gestalt .mouseInput val = 0 ∧
    glk_gestalt .timer val = 0 :=
  fun _ => ⟨rfl, rfl, rfl, rfl, rfl, rfl, rfl, rfl, rfl, rfl, rfl, rfl, rfl, rfl, rfl, rfl, rfl⟩

/-- Position of a stream after an id-preserving in-place update, read back
through `glk_stream_get_position`, for a memory stream. -/
theorem get_position_updStream (st : GlkState) (k : Nat) (s : Strm) (f : Strm → Strm)
    (hf : ∀ s', (f s').id = s'.id)
    (hfind : st.streams.find? (fun s => s.id == k) = some s)
    (ht1 : (f s).type = 1) :
    glk_stream_get_position (updStream st k f) (some k) = (f s).bufptr := by
  have hstreams : (updStream st k f).streams =
      st.streams.map (fun s => if s.id == k then f s else s) := rfl
  simp only [glk_stream_get_position, hstreams, find_map_upd _ _ _ hf, hfind,
    Option.map_some]
  simp [ht1]

/-- C6 (amended): a memory-stream seek computes the target (absolute,
current-relative or end-relative) with 32-bit unsigned wrap-around and then
clamps any pointer above the length down to the length; a target in [0, L]
is reached exactly, a target above L yields L, and a target below zero
wraps to a value above L and therefore also yields L (not 0). -/
theorem c6_seek_clamps (st : GlkState) (k : Nat) (s : Strm) (pos target : Int)
    (mode : Seekmode)
    (hfind : st.streams.find? (fun s => s.id == k) = some s)
    (htype : s.type = 1)
    (hlen : (s.buflen : Int) < 2147483648)
    (hptr : s.bufptr ≤ s.buflen)
    (hlo : -2147483648 ≤ pos) (hhi : pos < 2147483648)
    (htarget : target = match mode with
      | .start => pos
      | .current => (s.bufptr : Int) + pos
      | .seekEnd => (s.buflen : Int) + pos) :
    (0 ≤ target → target ≤ (s.buflen : Int) →
      glk_stream_get_position (glk_stream_set_position st (some k) pos mode) (some k) = target.toNat)
    ∧ ((s.buflen : Int) < target →
      glk_stream_get_position (glk_stream_set_position st (some k) pos mode) (some k) = s.buflen)
    ∧ (target < 0 →
      glk_stream_get_position (glk_stream_set_position st (some k) pos mode) (some k) = s.buflen) := by
  have hb2 : (s.type == 2) = false := by simp [htype]
  have hb1 : (s.type == 1) = true := by simp [htype]
  have hget : glk_stream_get_position (glk_stream_set_position st (some k) pos mode) (some k) =
      (if (target % (4294967296 : Int)).toNat > s.buflen then s.buflen
       else (target % (4294967296 : Int)).toNat) := by
    have hset : glk_stream_set_position st (some k) pos mode =
        updStream st k (fun s' => { s' with bufptr :=
          if (target % (4294967296 : Int)).toNat > s.buflen then s.buflen
          else (target % (4294967296 : Int)).toNat }) := by
      cases mode
      · have ht : target = pos := htarget
        simp only [glk_stream_set_position, hfind, hb2, hb1, ht]
        simp
      · have ht : target = (s.bufptr : Int) + pos := htarget
        simp only [glk_stream_set_position, hfind, hb2, hb1, ht]
        simp
      · have ht : target = (s.buflen : Int) + pos := htarget
        simp only [glk_stream_set_position, hfind, hb2, hb1, ht]
        simp
    rw [hset]
    exact get_position_updStream st k s
      (fun s' => { s' with bufptr :=
        if (target % (4294967296 : Int)).toNat > s.buflen then s.buflen
        else (target % (4294967296 : Int)).toNat })
      (fun s' => rfl) hfind htype
  have hbounds : (-2147483648 : Int) ≤ target ∧ target < 4294967296 := by
    cases mode
    · have ht : target = pos := htarget
      omega
    · have ht : target = (s.bufptr : Int) + pos := htarget
      omega
    · have ht : target = (s.buflen : Int) + pos := htarget
      omega
  rw [hget]
  refine ⟨?_, ?_, ?_⟩
  · intro h0 hle
    have he : target % (4294967296 : Int) = target := Int.emod_eq_of_lt h0 (by omega)
    rw [he, if_neg (by omega)]
  · intro h
    have h0 : (0 : Int) ≤ target := by omega
    have he : target % (4294967296 : Int) = target := Int.emod_eq_of_lt h0 (by omega)
    rw [he, if_pos (by omega)]
  · intro h
    have he : target % (4294967296 : Int) = target + 4294967296 := by omega
    rw [he, if_pos (by omega)]
/-- C6 counterexample: on a memory stream of length 10 at position 0, an
absolute seek to -1 leaves the position at 10 (the wrapped target is clamped
to the length), not at 0 as the claim states. -/
theorem c6_counterexample :
    glk_stream_get_position
      (glk_stream_set_position
        ((glk_stream_open_memory (initState [[1, 2, 3, 4, 5, 6, 7, 8, 9, 10]] [] [])
          (some 0) 10 .readWrite 0).1)
        (some 1) (-1) .start)
      (some 1) = 10 ∧ ((10 : Nat) = 0 → False) := by
  exact ⟨by decide, by decide⟩

/-- C6 witness: an absolute seek to 12 on a length-10 memory stream clamps
the position to 10. -/
theorem c6_seek_clamps_witness :
    glk_stream_get_position
      (glk_stream_set_position
        ((glk_stream_open_memory (initState [[1, 2, 3, 4, 5, 6, 7, 8, 9, 10]] [] [])
          (some 0) 10 .readWrite 0).1)
        (some 1) 12 .start)
      (some 1) = 10 := by
  have h := c6_seek_clamps
    ((glk_stream_open_memory (initState [[1, 2, 3, 4, 5, 6, 7, 8, 9, 10]] [] [])
      (some 0) 10 .readWrite 0).1)
    1
    { id := 1, rock := 0, type := 1, readable := true, writable := true,
      buf := some 0, buf_uni := none, buflen := 10, bufptr := 0, is_unicode := false,
      file := none, win := none, readcount := 0, writecount := 0 }
    12 12 .start (by decide) (by decide) (by decide) (by decide) (by decide) (by decide)
    (by decide)
  exact h.2.1 (by decide)

theorem get?_set_of_get? {α : Type _} : ∀ (l : List α) (i : Nat) (w a : α),
    l.get? i = some w → (l.set i a).get? i = some a
  | [], _, _, _, h => by simp at h
  | _ :: _, 0, _, _, _ => rfl
  | x :: xs, i + 1, w, a, h => by
    simp only [List.set_cons_succ, List.get?_cons_succ] at h ⊢
    exact get?_set_of_get? xs i w a h

/-- C7: when `glk_select` satisfies a pending non-unicode character request,
the delivered event is a character event on that window whose value is the
first byte of the input line, or the Return keycode sentinel when the
stripped line is empty, and the window's pending character flag is cleared. -/
theorem c7_char_delivery (st : GlkState) (i : Nat) (w : Window) (raw : List Nat)
    (rest : List (List Nat))
    (hi : st.windows.findIdx? pendingReq = some i)
    (hw : st.windows.get? i = some w)
    (hcr : w.char_request = true)
    (hlr : w.line_request = false)
    (hstdin : st.stdin = raw :: rest) :
    (glk_select st).2.1.etype = EvType.evCharInput
    ∧ (glk_select st).2.1.win = some w.id
    ∧ (stripNL raw = [] → (glk_select st).2.1.val1 = keycode_Return)
    ∧ (stripNL raw ≠ [] → (glk_select st).2.1.val1 = (stripNL raw).headD 0 % 256)
    ∧ (glk_select st).1.windows.get? i = some { w with char_request := false }
    ∧ (glk_select st).2.2.2 = false := by
  have hsel : glk_select st =
      ({ st with
          stdin := rest
          windows := st.windows.set i { w with char_request := false } },
       ⟨.evCharInput, some w.id,
        if (stripNL raw).length > 0 then (stripNL raw).headD 0 % 256 else keycode_Return, 0⟩,
       [Frame.inputReq 1 w.id w.line_request_uni], false) := by
    simp only [glk_select, hi, hw, hstdin, hlr, hcr]
    simp
  rw [hsel]
  refine ⟨rfl, rfl, ?_, ?_, ?_, rfl⟩
  · intro h
    simp [h]
  · intro h
    have hp : (stripNL raw).length > 0 := List.length_pos.mpr h
    simp [hp]
  · exact get?_set_of_get? _ _ _ _ hw

/-- C7 witness: a character request answered with an empty line delivers the
Return keycode sentinel and clears the flag. -/
theorem c7_char_delivery_witness :
    (glk_select (glk_request_char_event
      ((glk_window_open (initState [] [] [[10]]) none 0 0 3 0).1) (some 1))).2.1.etype =
        EvType.evCharInput
    ∧ (glk_select (glk_request_char_event
      ((glk_window_open (initState [] [] [[10]]) none 0 0 3 0).1) (some 1))).2.1.val1 =
        keycode_Return := by
  have h := c7_char_delivery
    (glk_request_char_event ((glk_window_open (initState [] [] [[10]]) none 0 0 3 0).1) (some 1))
    0
    { id := 1, rock := 0, type := 3, char_request := true, line_request := false,
      char_request_uni := false, line_request_uni := false, line_buffer := none,
      line_buffer_uni := none, line_buflen := 0, str := some 1, echostr := none,
      parent := none, child1 := none, child2 := none }
    [10] [] (by decide) (by decide) (by decide) (by decide) (by decide)
  exact ⟨h.1, h.2.2.1 (by decide)⟩

/-- C10: when the first window with a pending request holds only a unicode
request (both non-unicode flags clear), `glk_select` still emits one input
frame for it and consumes one standard-input line, but delivers no event:
the event stays zeroed, the window list (and so the pending unicode flag)
and all caller buffers are untouched. -/
theorem c10_uni_request_no_delivery (st : GlkState) (i : Nat) (w : Window) (raw : List Nat)
    (rest : List (List Nat))
    (hi : st.windows.findIdx? pendingReq = some i)
    (hw : st.windows.get? i = some w)
    (hcr : w.char_request = false)
    (hlr : w.line_request = false)
    (huni : (w.char_request_uni || w.line_request_uni) = true)
    (hstdin : st.stdin = raw :: rest) :
    glk_select st =
      ({ st with stdin := rest }, noneEvent,
       [Frame.inputReq 1 w.id w.line_request_uni], false) := by
  have _ := huni
  simp only [glk_select, hi, hw, hstdin, hlr, hcr]
  simp [noneEvent]

/-- C10 witness: a window holding only a unicode character request produces
an input frame, eats the line, and delivers nothing. -/
theorem c10_uni_request_no_delivery_witness :
    glk_select (glk_request_char_event_uni
      ((glk_window_open (initState [] [] [[120, 10]]) none 0 0 3 0).1) (some 1)) =
      ({ (glk_request_char_event_uni
          ((glk_window_open (initState [] [] [[120, 10]]) none 0 0 3 0).1) (some 1))
            with stdin := [] },
       noneEvent, [Frame.inputReq 1 1 false], false) := by
  have h := c10_uni_request_no_delivery
    (glk_request_char_event_uni
      ((glk_window_open (initState [] [] [[120, 10]]) none 0 0 3 0).1) (some 1))
    0
    { id := 1, rock := 0, type := 3, char_request := false, line_request := false,
      char_request_uni := true, line_request_uni := false, line_buffer := none,
      line_buffer_uni := none, line_buflen := 0, str := some 1, echostr := none,
      parent := none, child1 := none, child2 := none }
    [120, 10] [] (by decide) (by decide) (by decide) (by decide) (by decide) (by decide)
  exact h

/-- C1 (amended): answering a pending non-unicode line request, `glk_select`
emits exactly one input frame naming the window with kind line before
reading, strips the trailing newline from the line, copies it into the
caller's buffer truncated to one byte less than the buffer capacity (the
next byte holds a NUL terminator), reports the copied length in the event,
and clears the pending line-request flag and the buffer borrow. -/
theorem c1_line_delivery (st : GlkState) (i bid : Nat) (w : Window) (mbuf raw : List Nat)
    (rest : List (List Nat))
    (hi : st.windows.findIdx? pendingReq = some i)
    (hw : st.windows.get? i = some w)
    (hlr : w.line_request = true)
    (hbuf : w.line_buffer = some bid)
    (hmem : st.mem.get? bid = some mbuf)
    (h1 : 1 ≤ w.line_buflen)
    (h2 : w.line_buflen < U32)
    (hstdin : st.stdin = raw :: rest) :
    glk_select st =
      ({ st with
          stdin := rest
          mem := st.mem.set bid
            ((stripNL raw).take (min (stripNL raw).length (w.line_buflen - 1)) ++ [0] ++
              mbuf.drop (min (stripNL raw).length (w.line_buflen - 1) + 1))
          windows := st.windows.set i { w with line_request := false, line_buffer := none } },
       ⟨.evLineInput, some w.id, min (stripNL raw).length (w.line_buflen - 1), 0⟩,
       [Frame.inputReq 1 w.id true], false) := by
  have hlim : (w.line_buflen + (U32 - 1)) % U32 = w.line_buflen - 1 := by
    simp only [U32] at h2 ⊢
    omega
  have hold : st.mem.getD bid [] = mbuf := getD_of_get? hmem
  have hcop : (if (stripNL raw).length > w.line_buflen - 1 then w.line_buflen - 1
      else (stripNL raw).length) = min (stripNL raw).length (w.line_buflen - 1) := by
    by_cases hc : (stripNL raw).length > w.line_buflen - 1
    · simp only [hc, if_true]
      omega
    · simp only [hc, if_false]
      omega
  simp only [glk_select, hi, hw, hstdin, hlr, hbuf, hlim, hold, hcop]
  simp

/-- C1 witness: capacity-4 buffer, line "hello": one line-kind input frame,
"hel" plus NUL in the caller buffer, length 3 reported, flag cleared. -/
theorem c1_line_delivery_witness :
    (glk_select (glk_request_line_event
      ((glk_window_open (initState [[0, 0, 0, 0]] [] [[104, 101, 108, 108, 111, 10]])
        none 0 0 3 0).1) (some 1) (some 0) 4 0)).2.2.1 = [Frame.inputReq 1 1 true]
    ∧ (glk_select (glk_request_line_event
      ((glk_window_open (initState [[0, 0, 0, 0]] [] [[104, 101, 108, 108, 111, 10]])
        none 0 0 3 0).1) (some 1) (some 0) 4 0)).1.mem = [[104, 101, 108, 0]]
    ∧ (glk_select (glk_request_line_event
      ((glk_window_open (initState [[0, 0, 0, 0]] [] [[104, 101, 108, 108, 111, 10]])
        none 0 0 3 0).1) (some 1) (some 0) 4 0)).2.1 =
        ⟨.evLineInput, some 1, 3, 0⟩ := by
  have h := c1_line_delivery
    (glk_request_line_event
      ((glk_window_open (initState [[0, 0, 0, 0]] [] [[104, 101, 108, 108, 111, 10]])
        none 0 0 3 0).1) (some 1) (some 0) 4 0)
    0 0
    ⟨1, 0, 3, false, true, false, false, some 0, none, 4, some 1, none, none, none, none⟩
    [0, 0, 0, 0] [104, 101, 108, 108, 111, 10] []
    (by decide) (by decide) (by decide) (by decide) (by decide) (by decide) (by decide)
    (by decide)
  rw [h]
  exact ⟨by decide, by decide, by decide⟩

/-- C1 counterexample: with buffer capacity 4 and input line "hell" (length
equal to the capacity), the code delivers 3 bytes ("hel") and a NUL, not 4
bytes as "truncated silently to the buffer's capacity" would give. -/
theorem c1_counterexample :
    (glk_select (glk_request_line_event
      ((glk_window_open (initState [[0, 0, 0, 0]] [] [[104, 101, 108, 108, 10]])
        none 0 0 3 0).1) (some 1) (some 0) 4 0)).2.1.val1 = 3
    ∧ (glk_select (glk_request_line_event
      ((glk_window_open (initState [[0, 0, 0, 0]] [] [[104, 101, 108, 108, 10]])
        none 0 0 3 0).1) (some 1) (some 0) 4 0)).1.mem = [[104, 101, 108, 0]]
    ∧ ((glk_select (glk_request_line_event
      ((glk_window_open (initState [[0, 0, 0, 0]] [] [[104, 101, 108, 108, 10]])
        none 0 0 3 0).1) (some 1) (some 0) 4 0)).2.1.val1 = 4 → False) :=
  ⟨by decide, by decide, by decide⟩

theorem hexDigit_bounds (n : Nat) : 48 ≤ hexDigit n ∧ hexDigit n ≤ 87 + n := by
  unfold hexDigit
  split <;> omega

theorem natDigits_mem (n : Nat) : ∀ d ∈ natDigits n, 48 ≤ d ∧ d ≤ 57 := by
  induction n using Nat.strong_induction_on with
  | _ n ih =>
    rw [natDigits]
    split
    · intro d hd
      simp only [List.mem_singleton] at hd
      omega
    · intro d hd
      rw [List.mem_append] at hd
      rcases hd with hd | hd
      · exact ih (n / 10) (Nat.div_lt_self (by omega) (by decide)) d hd
      · simp only [List.mem_singleton] at hd
        omega

theorem natDigits_no_nl (n : Nat) : 10 ∉ natDigits n := by
  intro h
  have := natDigits_mem n 10 h
  omega

theorem escByte_no_nl (c : Nat) : 10 ∉ escByte c := by
  intro hmem
  have h1 := hexDigit_bounds (c / 16)
  have h2 := hexDigit_bounds (c % 16)
  unfold escByte at hmem
  repeat' split at hmem
  all_goals simp_all
  all_goals omega

theorem jsonEscapeBytes_no_nl (s : List Nat) : 10 ∉ jsonEscapeBytes s := by
  intro hmem
  unfold jsonEscapeBytes at hmem
  rcases List.mem_append.mp hmem with h | h
  · rcases List.mem_append.mp h with h | h
    · simp at h
    · rcases List.mem_flatMap.mp h with ⟨x, _, hx⟩
      exact escByte_no_nl x hx
  · simp at h

/-- Every rendered frame is a single line: the newline byte never occurs in
the rendered JSON text (newlines in payloads are escaped). -/
theorem render_no_nl (f : Frame) : 10 ∉ render f := by
  cases f with
  | initF => decide
  | updateCreate i wn wt =>
    intro h
    simp only [render, List.mem_append] at h
    rcases h with ((((((h | h) | h) | h) | h) | h) | h)
    · exact absurd h (by decide)
    · exact natDigits_no_nl _ h
    · exact absurd h (by decide)
    · exact natDigits_no_nl _ h
    · exact absurd h (by decide)
    · exact natDigits_no_nl _ h
    · exact absurd h (by decide)
  | updateClear i =>
    intro h
    simp only [render, List.mem_append] at h
    rcases h with ((h | h) | h)
    · exact absurd h (by decide)
    · exact natDigits_no_nl _ h
    · exact absurd h (by decide)
  | updateText i t =>
    intro h
    simp only [render, List.mem_append] at h
    rcases h with ((((h | h) | h) | h) | h)
    · exact absurd h (by decide)
    · exact natDigits_no_nl _ h
    · exact absurd h (by decide)
    · exact jsonEscapeBytes_no_nl _ h
    · exact absurd h (by decide)
  | inputReq g i line =>
    intro h
    simp only [render, List.mem_append] at h
    rcases h with ((((h | h) | h) | h) | h)
    · exact absurd h (by decide)
    · exact natDigits_no_nl _ h
    · exact absurd h (by decide)
    · exact natDigits_no_nl _ h
    · cases line with
      | true => exact absurd h (by simpa using (by decide : (10 : Nat) ∉ strBytes ",\"type\":\"line\"\x7d]\x7d"))
      | false => exact absurd h (by simpa using (by decide : (10 : Nat) ∉ strBytes ",\"type\":\"char\"\x7d]\x7d"))
  | filerefPrompt u fm =>
    intro h
    simp only [render, List.mem_append] at h
    rcases h with ((((h | h) | h) | h) | h)
    · exact absurd h (by decide)
    · exact natDigits_no_nl _ h
    · exact absurd h (by decide)
    · exact natDigits_no_nl _ h
    · exact absurd h (by decide)
  | exitF => decide

/-- Writing one byte to a window stream: one text frame, write counter bump. -/
theorem put_char_window (st : GlkState) (k wid : Nat) (s : Strm) (ch : Nat)
    (hfind : st.streams.find? (fun s => s.id == k) = some s)
    (hwr : s.writable = true) (ht : s.type = 0) (hwin : s.win = some wid) :
    gli_put_char_to_stream st (some k) ch =
      (updStream st k (fun s => { s with writecount := s.writecount + 1 }),
       [Frame.updateText wid [ch % 256]]) := by
  simp only [gli_put_char_to_stream, hfind, hwr, ht, hwin]
  simp

/-- The byte loop over a window stream emits one text frame per byte. -/
theorem putList_window_frames (cs : List Nat) : ∀ (st : GlkState) (k wid : Nat) (s : Strm),
    st.streams.find? (fun s => s.id == k) = some s →
    s.writable = true → s.type = 0 → s.win = some wid →
    (putList st (some k) cs).2 = cs.map (fun c => Frame.updateText wid [c % 256])
    ∧ (putList st (some k) cs).1.streams.find? (fun s => s.id == k) =
        some { s with writecount := s.writecount + cs.length } := by
  induction cs with
  | nil =>
    intro st k wid s hfind hwr ht hwin
    refine ⟨rfl, ?_⟩
    simpa using hfind
  | cons c cs ih =>
    intro st k wid s hfind hwr ht hwin
    have hput := put_char_window st k wid s c hfind hwr ht hwin
    have hfind1 : (updStream st k (fun s => { s with writecount := s.writecount + 1 })).streams.find?
        (fun s => s.id == k) = some { s with writecount := s.writecount + 1 } := by
      have : (updStream st k (fun s => { s with writecount := s.writecount + 1 })).streams =
          st.streams.map (fun s' => if s'.id == k then { s' with writecount := s'.writecount + 1 } else s') := rfl
      rw [this,
        find_map_upd st.streams k (fun s' => { s' with writecount := s'.writecount + 1 })
          (fun s' => rfl),
        hfind]
      rfl
    have hrec := ih (updStream st k (fun s => { s with writecount := s.writecount + 1 })) k wid
      { s with writecount := s.writecount + 1 } hfind1 hwr ht hwin
    constructor
    · show (putList st (some k) (c :: cs)).2 = _
      simp only [putList, hput]
      rw [hrec.1]
      simp
    · show (putList st (some k) (c :: cs)).1.streams.find? (fun s => s.id == k) = _
      simp only [putList, hput]
      rw [hrec.2]
      have : s.writecount + 1 + cs.length = s.writecount + (cs.length + 1) := by omega
      simp [this]

/-- C8 (amended): a window-creation call and a window-clear call each flush
exactly one single-line JSON frame immediately; a text write is flushed per
character: each byte written to a window stream is emitted immediately as
its own single-line frame, so a multi-character write call such as
`glk_put_string_stream` flushes one frame per character, not one per call. -/
theorem c8_flush_granularity :
    (∀ (st : GlkState) (split : Option Nat) (method size wintype rock : Nat),
      (glk_window_open st split method size wintype rock).2.2 =
        [Frame.updateCreate st.winCounter st.winCounter wintype]
      ∧ (10 : Nat) ∉ render (Frame.updateCreate st.winCounter st.winCounter wintype))
    ∧ (∀ (st : GlkState) (wid : Option Nat) (w : Window), lookupWindow st wid = some w →
      glk_window_clear st wid = [Frame.updateClear w.id]
      ∧ (10 : Nat) ∉ render (Frame.updateClear w.id))
    ∧ (∀ (st : GlkState) (k wid : Nat) (s : Strm) (ch : Nat),
      st.streams.find? (fun s => s.id == k) = some s →
      s.writable = true → s.type = 0 → s.win = some wid →
      (gli_put_char_to_stream st (some k) ch).2 = [Frame.updateText wid [ch % 256]]
      ∧ (10 : Nat) ∉ render (Frame.updateText wid [ch % 256]))
    ∧ (∀ (st : GlkState) (k wid : Nat) (s : Strm) (str : List Nat),
      st.streams.find? (fun s => s.id == k) = some s →
      s.writable = true → s.type = 0 → s.win = some wid →
      (glk_put_string_stream st (some k) str).2 =
        (str.takeWhile (fun c => c != 0)).map (fun c => Frame.updateText wid [c % 256])) := by
  refine ⟨?_, ?_, ?_, ?_⟩
  · intro st split method size wintype rock
    exact ⟨rfl, render_no_nl _⟩
  · intro st wid w hfind
    constructor
    · simp [glk_window_clear, hfind]
    · exact render_no_nl _
  · intro st k wid s ch hfind hwr ht hwin
    constructor
    · rw [put_char_window st k wid s ch hfind hwr ht hwin]
    · exact render_no_nl _
  · intro st k wid s str hfind hwr ht hwin
    exact (putList_window_frames _ st k wid s hfind hwr ht hwin).1

/-- C8 witness: after opening a window (stream id 1), writing the two-byte
string "ab" flushes two frames, one per character. -/
theorem c8_flush_granularity_witness :
    (glk_put_string_stream
      ((glk_window_open (initState [] [] []) none 0 0 3 0).1) (some 1) [97, 98]).2 =
      [Frame.updateText 1 [97], Frame.updateText 1 [98]] := by
  have h := (c8_flush_granularity.2.2.2
    ((glk_window_open (initState [] [] []) none 0 0 3 0).1) 1 1
    { id := 1, rock := 0, type := 0, readable := false, writable := true,
      buf := none, buf_uni := none, buflen := 0, bufptr := 0, is_unicode := false,
      file := none, win := some 1, readcount := 0, writecount := 0 }
    [97, 98] (by decide) (by decide) (by decide) (by decide))
  rw [h]
  decide

/-- C8 counterexample: the two-character write call `glk_put_string_stream`
on a window stream flushes two frames, not exactly one frame for the call. -/
theorem c8_counterexample :
    (glk_put_string_stream
      ((glk_window_open (initState [] [] []) none 0 0 3 0).1) (some 1) [97, 98]).2.length = 2
    ∧ ((glk_put_string_stream
      ((glk_window_open (initState [] [] []) none 0 0 3 0).1) (some 1) [97, 98]).2.length = 1
        → False) :=
  ⟨by decide, by decide⟩

theorem find_updStream (st : GlkState) (k : Nat) (f : Strm → Strm) (s : Strm)
    (hf : ∀ s', (f s').id = s'.id)
    (hfind : st.streams.find? (fun s => s.id == k) = some s) :
    (updStream st k f).streams.find? (fun s => s.id == k) = some (f s) := by
  have h : (updStream st k f).streams =
      st.streams.map (fun s' => if s'.id == k then f s' else s') := rfl
  rw [h, find_map_upd st.streams k f hf, hfind]
  rfl

theorem put_char_mem_lt (st : GlkState) (k bid : Nat) (s : Strm) (m : List Nat) (ch : Nat)
    (hfind : st.streams.find? (fun s => s.id == k) = some s)
    (hwr : s.writable = true) (ht : s.type = 1) (hbuf : s.buf = some bid)
    (hmem : st.mem.get? bid = some m)
    (hlt : s.bufptr < s.buflen) :
    gli_put_char_to_stream st (some k) ch =
      ({ updStream (updStream st k (fun s => { s with writecount := s.writecount + 1 })) k
          (fun s => { s with bufptr := s.bufptr + 1 }) with
          mem := st.mem.set bid (m.set s.bufptr (ch % 256)) }, []) := by
  have hold : st.mem[bid]?.getD [] = m := by
    rw [← List.get?_eq_getElem?, hmem]
    rfl
  simp only [gli_put_char_to_stream, hfind, hwr, ht, hbuf, hlt]
  simp [hold, updStream]

theorem put_char_mem_ge (st : GlkState) (k bid : Nat) (s : Strm) (ch : Nat)
    (hfind : st.streams.find? (fun s => s.id == k) = some s)
    (hwr : s.writable = true) (ht : s.type = 1) (hbuf : s.buf = some bid)
    (hge : ¬ s.bufptr < s.buflen) :
    gli_put_char_to_stream st (some k) ch =
      (updStream st k (fun s => { s with writecount := s.writecount + 1 }), []) := by
  simp only [gli_put_char_to_stream, hfind, hwr, ht, hbuf, hge]
  simp

theorem get_char_mem_lt (st : GlkState) (k bid : Nat) (s : Strm) (m : List Nat)
    (hfind : st.streams.find? (fun s => s.id == k) = some s)
    (hrd : s.readable = true) (ht : s.type = 1) (hbuf : s.buf = some bid)
    (hmem : st.mem.get? bid = some m)
    (hlt : s.bufptr < s.buflen) :
    glk_get_char_stream st (some k) =
      (updStream (updStream st k (fun s => { s with readcount := s.readcount + 1 })) k
        (fun s => { s with bufptr := s.bufptr + 1 }),
       Int.ofNat (m.getD s.bufptr 0 % 256)) := by
  have hold : st.mem[bid]?.getD [] = m := by
    rw [← List.get?_eq_getElem?, hmem]
    rfl
  simp only [glk_get_char_stream, hfind, hrd, ht, hbuf, hlt]
  simp [hold, updStream]

theorem get_char_mem_ge (st : GlkState) (k bid : Nat) (s : Strm)
    (hfind : st.streams.find? (fun s => s.id == k) = some s)
    (hrd : s.readable = true) (ht : s.type = 1) (hbuf : s.buf = some bid)
    (hge : ¬ s.bufptr < s.buflen) :
    glk_get_char_stream st (some k) =
      (updStream st k (fun s => { s with readcount := s.readcount + 1 }), -1) := by
  simp only [glk_get_char_stream, hfind, hrd, ht, hbuf, hge]
  simp

theorem take_set_last (m : List Nat) (p : Nat) (c : Nat) (hp : p < m.length) :
    (m.set p c).take (p + 1) = m.take p ++ [c] := by
  rw [List.set_take, List.take_succ]
  have hg : m[p]? = some m[p] := List.getElem?_eq_getElem hp
  rw [hg]
  have hlen : (m.take p).length = p := by
    rw [List.length_take]
    omega
  rw [List.set_append_right _ _ (by omega)]
  simp [hlen]

theorem putList_mem_stream (cs : List Nat) : ∀ (st : GlkState) (k bid : Nat) (s : Strm)
    (m : List Nat),
    st.streams.find? (fun s => s.id == k) = some s →
    s.writable = true → s.type = 1 → s.buf = some bid →
    st.mem.get? bid = some m → m.length = s.buflen → s.bufptr ≤ s.buflen →
    (putList st (some k) cs).1.streams.find? (fun s => s.id == k) =
        some { s with bufptr := min (s.bufptr + cs.length) s.buflen,
                      writecount := s.writecount + cs.length }
    ∧ (putList st (some k) cs).1.mem.get? bid =
        some (m.take s.bufptr ++ (cs.map (fun c => c % 256)).take (s.buflen - s.bufptr)
              ++ m.drop (min (s.bufptr + cs.length) s.buflen))
    ∧ (putList st (some k) cs).2 = [] := by
  induction cs with
  | nil =>
    intro st k bid s m hfind hwr ht hbuf hmem hlen hptr
    refine ⟨?_, ?_, rfl⟩
    · simpa [Nat.min_eq_left hptr] using hfind
    · simpa [Nat.min_eq_left hptr] using hmem
  | cons c cs ih =>
    intro st k bid s m hfind hwr ht hbuf hmem hlen hptr
    by_cases hlt : s.bufptr < s.buflen
    · have hstep := put_char_mem_lt st k bid s m c hfind hwr ht hbuf hmem hlt
      have hfind1 : (updStream st k (fun s => { s with writecount := s.writecount + 1 })).streams.find?
          (fun s => s.id == k) = some { s with writecount := s.writecount + 1 } :=
        find_updStream st k (fun s => { s with writecount := s.writecount + 1 }) s
          (fun s' => rfl) hfind
      have hfind2 : ((gli_put_char_to_stream st (some k) c).1).streams.find?
          (fun s => s.id == k) =
          some { s with writecount := s.writecount + 1, bufptr := s.bufptr + 1 } := by
        rw [hstep]
        exact find_updStream _ k (fun s => { s with bufptr := s.bufptr + 1 }) _
          (fun s' => rfl) hfind1
      have hmem1 : ((gli_put_char_to_stream st (some k) c).1).mem.get? bid =
          some (m.set s.bufptr (c % 256)) := by
        rw [hstep]
        exact get?_set_of_get? _ _ _ _ hmem
      have hrec := ih (gli_put_char_to_stream st (some k) c).1 k bid
        { s with writecount := s.writecount + 1, bufptr := s.bufptr + 1 }
        (m.set s.bufptr (c % 256)) hfind2 hwr ht hbuf hmem1 (by simpa using hlen)
        (by simpa using hlt)
      have hplen : s.bufptr < m.length := by omega
      refine ⟨?_, ?_, ?_⟩
      · show (putList (gli_put_char_to_stream st (some k) c).1 (some k) cs).1.streams.find?
            (fun s => s.id == k) = _
        rw [hrec.1]
        have e1 : s.bufptr + 1 + cs.length = s.bufptr + (cs.length + 1) := by omega
        have e2 : s.writecount + 1 + cs.length = s.writecount + (cs.length + 1) := by omega
        simp [e1, e2]
      · show (putList (gli_put_char_to_stream st (some k) c).1 (some k) cs).1.mem.get? bid = _
        rw [hrec.2.1]
        have hA : (m.set s.bufptr (c % 256)).take (s.bufptr + 1) = m.take s.bufptr ++ [c % 256] :=
          take_set_last m s.bufptr (c % 256) hplen
        have hq : s.bufptr < min (s.bufptr + 1 + cs.length) s.buflen := by omega
        have hC : (m.set s.bufptr (c % 256)).drop (min (s.bufptr + 1 + cs.length) s.buflen) =
            m.drop (min (s.bufptr + 1 + cs.length) s.buflen) := by
          rw [List.drop_set, if_pos hq]
        have hB : s.buflen - (s.bufptr + 1) = s.buflen - s.bufptr - 1 := by omega
        have hD : s.buflen - s.bufptr = (s.buflen - s.bufptr - 1) + 1 := by omega
        have e1 : s.bufptr + 1 + cs.length = s.bufptr + (cs.length + 1) := by omega
        simp only [hA, hC, hB, e1]
        rw [hD]
        rw [List.drop_set, if_pos (by omega)]
        simp
      · show ((gli_put_char_to_stream st (some k) c).2 ++
            (putList (gli_put_char_to_stream st (some k) c).1 (some k) cs).2) = []
        rw [hrec.2.2, hstep]
        rfl
    · have hpe : s.bufptr = s.buflen := by omega
      have hstep := put_char_mem_ge st k bid s c hfind hwr ht hbuf hlt
      have hfind1 : ((gli_put_char_to_stream st (some k) c).1).streams.find?
          (fun s => s.id == k) = some { s with writecount := s.writecount + 1 } := by
        rw [hstep]
        exact find_updStream st k (fun s => { s with writecount := s.writecount + 1 }) s
          (fun s' => rfl) hfind
      have hmem1 : ((gli_put_char_to_stream st (some k) c).1).mem.get? bid = some m := by
        rw [hstep]
        exact hmem
      have hrec := ih (gli_put_char_to_stream st (some k) c).1 k bid
        { s with writecount := s.writecount + 1 } m hfind1 hwr ht hbuf hmem1 hlen hptr
      refine ⟨?_, ?_, ?_⟩
      · show (putList (gli_put_char_to_stream st (some k) c).1 (some k) cs).1.streams.find?
            (fun s => s.id == k) = _
        rw [hrec.1]
        have e1 : min (s.bufptr + cs.length) s.buflen = min (s.bufptr + (cs.length + 1)) s.buflen := by
          omega
        have e2 : s.writecount + 1 + cs.length = s.writecount + (cs.length + 1) := by omega
        simp [e1, e2]
      · show (putList (gli_put_char_to_stream st (some k) c).1 (some k) cs).1.mem.get? bid = _
        rw [hrec.2.1]
        have e1 : min (s.bufptr + cs.length) s.buflen = min (s.bufptr + (cs.length + 1)) s.buflen := by
          omega
        have e2 : s.buflen - s.bufptr = 0 := by omega
        simp [e1, e2]
      · show ((gli_put_char_to_stream st (some k) c).2 ++
            (putList (gli_put_char_to_stream st (some k) c).1 (some k) cs).2) = []
        rw [hrec.2.2, hstep]
        rfl

theorem getChars_mem_stream (n : Nat) : ∀ (st : GlkState) (k bid : Nat) (s : Strm)
    (m : List Nat),
    st.streams.find? (fun s => s.id == k) = some s →
    s.readable = true → s.type = 1 → s.buf = some bid →
    st.mem.get? bid = some m → m.length = s.buflen → s.bufptr ≤ s.buflen →
    (getChars st (some k) n).1.streams.find? (fun s => s.id == k) =
        some { s with bufptr := min (s.bufptr + n) s.buflen,
                      readcount := s.readcount + n }
    ∧ (getChars st (some k) n).2 =
        ((m.drop s.bufptr).take n).map (fun c => Int.ofNat (c % 256))
          ++ List.replicate (n - (s.buflen - s.bufptr)) (-1) := by
  induction n with
  | zero =>
    intro st k bid s m hfind hrd ht hbuf hmem hlen hptr
    refine ⟨?_, by simp [getChars]⟩
    simpa [Nat.min_eq_left hptr] using hfind
  | succ n ih =>
    intro st k bid s m hfind hrd ht hbuf hmem hlen hptr
    by_cases hlt : s.bufptr < s.buflen
    · have hstep := get_char_mem_lt st k bid s m hfind hrd ht hbuf hmem hlt
      have hfind1 : (updStream st k (fun s => { s with readcount := s.readcount + 1 })).streams.find?
          (fun s => s.id == k) = some { s with readcount := s.readcount + 1 } :=
        find_updStream st k (fun s => { s with readcount := s.readcount + 1 }) s
          (fun s' => rfl) hfind
      have hfind2 : ((glk_get_char_stream st (some k)).1).streams.find?
          (fun s => s.id == k) =
          some { s with readcount := s.readcount + 1, bufptr := s.bufptr + 1 } := by
        rw [hstep]
        exact find_updStream _ k (fun s => { s with bufptr := s.bufptr + 1 }) _
          (fun s' => rfl) hfind1
      have hmem1 : ((glk_get_char_stream st (some k)).1).mem.get? bid = some m := by
        rw [hstep]
        exact hmem
      have hrec := ih (glk_get_char_stream st (some k)).1 k bid
        { s with readcount := s.readcount + 1, bufptr := s.bufptr + 1 } m
        hfind2 hrd ht hbuf hmem1 hlen (by simpa using hlt)
      have hplen : s.bufptr < m.length := by omega
      refine ⟨?_, ?_⟩
      · show (getChars (glk_get_char_stream st (some k)).1 (some k) n).1.streams.find?
            (fun s => s.id == k) = _
        rw [hrec.1]
        have e1 : s.bufptr + 1 + n = s.bufptr + (n + 1) := by omega
        have e2 : s.readcount + 1 + n = s.readcount + (n + 1) := by omega
        simp [e1, e2]
      · show ((glk_get_char_stream st (some k)).2 ::
            (getChars (glk_get_char_stream st (some k)).1 (some k) n).2) = _
        rw [hrec.2, hstep]
        have hdrop : m.drop s.bufptr = m[s.bufptr] :: m.drop (s.bufptr + 1) :=
          List.drop_eq_getElem_cons hplen
        have hget : m.getD s.bufptr 0 = m[s.bufptr] := List.getD_eq_getElem m 0 hplen
        have hrep : n + 1 - (s.buflen - s.bufptr) = n - (s.buflen - (s.bufptr + 1)) := by
          omega
        rw [hdrop, hget, hrep, List.take_succ_cons, List.map_cons]
        simp
    · have hpe : s.bufptr = s.buflen := by omega
      have hstep := get_char_mem_ge st k bid s hfind hrd ht hbuf hlt
      have hfind1 : ((glk_get_char_stream st (some k)).1).streams.find?
          (fun s => s.id == k) = some { s with readcount := s.readcount + 1 } := by
        rw [hstep]
        exact find_updStream st k (fun s => { s with readcount := s.readcount + 1 }) s
          (fun s' => rfl) hfind
      have hmem1 : ((glk_get_char_stream st (some k)).1).mem.get? bid = some m := by
        rw [hstep]
        exact hmem
      have hrec := ih (glk_get_char_stream st (some k)).1 k bid
        { s with readcount := s.readcount + 1 } m hfind1 hrd ht hbuf hmem1 hlen hptr
      refine ⟨?_, ?_⟩
      · show (getChars (glk_get_char_stream st (some k)).1 (some k) n).1.streams.find?
            (fun s => s.id == k) = _
        rw [hrec.1]
        have e1 : min (s.bufptr + n) s.buflen = min (s.bufptr + (n + 1)) s.buflen := by omega
        have e2 : s.readcount + 1 + n = s.readcount + (n + 1) := by omega
        simp [e1, e2]
      · show ((glk_get_char_stream st (some k)).2 ::
            (getChars (glk_get_char_stream st (some k)).1 (some k) n).2) = _
        rw [hrec.2, hstep]
        have hdrop : m.drop s.bufptr = [] := by
          rw [List.drop_eq_nil_iff]
          omega
        have hrep1 : n - (s.buflen - s.bufptr) = n := by omega
        have hrep2 : n + 1 - (s.buflen - s.bufptr) = n + 1 := by omega
        rw [hdrop, hrep1, hrep2]
        simp [List.replicate_succ]

theorem seek_zero_start (st : GlkState) (k : Nat) (s : Strm)
    (hfind : st.streams.find? (fun s => s.id == k) = some s)
    (ht : s.type = 1) :
    glk_stream_set_position st (some k) 0 .start =
      updStream st k (fun s => { s with bufptr := 0 }) := by
  have hb2 : (s.type == 2) = false := by simp [ht]
  have hb1 : (s.type == 1) = true := by simp [ht]
  simp only [glk_stream_set_position, hfind, hb2, hb1]
  simp

/-- C3: on a memory-backed stream of capacity C opened read+write:
writing n ≤ C bytes from position 0 then reading n bytes after seeking back
to 0 returns exactly the bytes written in order; writing n > C bytes stores
only the first C bytes (leaving them uncorrupted), never advances the
cursor past C, and still increments the write counter by n; reading at the
end returns the negative sentinel -1 and does not advance the cursor. -/
theorem c3_mem_stream_rw :
    (∀ (st : GlkState) (k bid : Nat) (s : Strm) (m bs : List Nat),
      st.streams.find? (fun s => s.id == k) = some s →
      s.type = 1 → s.readable = true → s.writable = true → s.buf = some bid →
      st.mem.get? bid = some m → m.length = s.buflen → s.bufptr = 0 →
      bs.length ≤ s.buflen → (∀ c ∈ bs, c < 256) →
      (getChars (glk_stream_set_position (putList st (some k) bs).1 (some k) 0 .start)
        (some k) bs.length).2 = bs.map Int.ofNat)
    ∧ (∀ (st : GlkState) (k bid : Nat) (s : Strm) (m bs : List Nat),
      st.streams.find? (fun s => s.id == k) = some s →
      s.type = 1 → s.writable = true → s.buf = some bid →
      st.mem.get? bid = some m → m.length = s.buflen → s.bufptr = 0 →
      bs.length > s.buflen → (∀ c ∈ bs, c < 256) →
      (putList st (some k) bs).1.mem.get? bid = some (bs.take s.buflen)
      ∧ (putList st (some k) bs).1.streams.find? (fun s => s.id == k) =
          some { s with bufptr := s.buflen, writecount := s.writecount + bs.length })
    ∧ (∀ (st : GlkState) (k bid : Nat) (s : Strm),
      st.streams.find? (fun s => s.id == k) = some s →
      s.type = 1 → s.readable = true → s.buf = some bid →
      ¬ s.bufptr < s.buflen →
      (glk_get_char_stream st (some k)).2 = -1
      ∧ (glk_get_char_stream st (some k)).1.streams.find? (fun s => s.id == k) =
          some { s with readcount := s.readcount + 1 }) := by
  refine ⟨?_, ?_, ?_⟩
  · intro st k bid s m bs hfind ht hrd hwr hbuf hmem hlen hp0 hle h256
    have hput := putList_mem_stream bs st k bid s m hfind hwr ht hbuf hmem hlen (by omega)
    rw [hp0] at hput
    have hminn : min (0 + bs.length) s.buflen = bs.length := by omega
    have hm1 : (putList st (some k) bs).1.mem.get? bid =
        some ((bs.map (fun c => c % 256)) ++ m.drop bs.length) := by
      have h := hput.2.1
      rw [hminn] at h
      simp only [Nat.sub_zero, List.take_zero, List.nil_append] at h
      have htk : (bs.map (fun c => c % 256)).take s.buflen = bs.map (fun c => c % 256) := by
        apply List.take_of_length_le
        simp
        omega
      rw [htk] at h
      exact h
    have hs1 : (putList st (some k) bs).1.streams.find? (fun s => s.id == k) =
        some { s with bufptr := bs.length, writecount := s.writecount + bs.length } := by
      have h := hput.1
      rw [hminn] at h
      exact h
    have hseek : glk_stream_set_position (putList st (some k) bs).1 (some k) 0 .start =
        updStream (putList st (some k) bs).1 k (fun s => { s with bufptr := 0 }) :=
      seek_zero_start _ k _ hs1 ht
    have hs2 : (glk_stream_set_position (putList st (some k) bs).1 (some k) 0 .start).streams.find?
        (fun s => s.id == k) =
        some { s with bufptr := 0, writecount := s.writecount + bs.length } := by
      rw [hseek]
      exact find_updStream _ k (fun s => { s with bufptr := 0 }) _ (fun s' => rfl) hs1
    have hm2 : (glk_stream_set_position (putList st (some k) bs).1 (some k) 0 .start).mem.get? bid =
        some ((bs.map (fun c => c % 256)) ++ m.drop bs.length) := by
      rw [hseek]
      exact hm1
    have hlen2 : ((bs.map (fun c => c % 256)) ++ m.drop bs.length).length = s.buflen := by
      simp
      omega
    have hget := getChars_mem_stream bs.length
      (glk_stream_set_position (putList st (some k) bs).1 (some k) 0 .start) k bid
      { s with bufptr := 0, writecount := s.writecount + bs.length }
      ((bs.map (fun c => c % 256)) ++ m.drop bs.length)
      hs2 hrd ht hbuf hm2 hlen2 (by simp)
    have hv := hget.2
    have htake : (((bs.map (fun c => c % 256)) ++ m.drop bs.length).drop 0).take bs.length =
        bs.map (fun c => c % 256) := by
      rw [List.drop_zero]
      have : bs.length = (bs.map (fun c => c % 256)).length := by simp
      rw [this, List.take_left]
    rw [htake] at hv
    have hrep : bs.length - (s.buflen - 0) = 0 := by omega
    rw [hrep] at hv
    simp only [List.replicate_zero, List.append_nil] at hv
    rw [hv, List.map_map]
    apply List.map_congr_left
    intro c hc
    have : c < 256 := h256 c hc
    simp only [Function.comp_apply]
    have hcc : c % 256 % 256 = c := by omega
    rw [hcc]
  · intro st k bid s m bs hfind ht hwr hbuf hmem hlen hp0 hgt h256
    have hput := putList_mem_stream bs st k bid s m hfind hwr ht hbuf hmem hlen (by omega)
    rw [hp0] at hput
    have hminn : min (0 + bs.length) s.buflen = s.buflen := by omega
    constructor
    · have h := hput.2.1
      rw [hminn] at h
      simp only [Nat.sub_zero, List.take_zero, List.nil_append] at h
      have hdl : m.drop s.buflen = [] := by
        rw [List.drop_eq_nil_iff]
        omega
      have htk : (bs.map (fun c => c % 256)).take s.buflen = bs.take s.buflen := by
        rw [← List.map_take]
        have hcg : ∀ c ∈ bs.take s.buflen, c % 256 = id c := fun c hc =>
          Nat.mod_eq_of_lt (h256 c (List.mem_of_mem_take hc))
        rw [List.map_congr_left hcg, List.map_id]
      rw [hdl, htk, List.append_nil] at h
      exact h
    · have h := hput.1
      rw [hminn] at h
      exact h
  · intro st k bid s hfind ht hrd hbuf hge
    have hstep := get_char_mem_ge st k bid s hfind hrd ht hbuf hge
    refine ⟨by rw [hstep], ?_⟩
    rw [hstep]
    exact find_updStream st k (fun s => { s with readcount := s.readcount + 1 }) s
      (fun s' => rfl) hfind

/-- C3 witness: write [65,66] into a capacity-3 stream, seek to 0, read 2
bytes back; overflow write of 5 bytes into capacity 3 keeps [65,66,67] with
cursor 3; reading a zero-capacity stream yields -1. -/
theorem c3_mem_stream_rw_witness :
    (getChars (glk_stream_set_position
        (putList ((glk_stream_open_memory (initState [[0, 0, 0]] [] []) (some 0) 3 .readWrite 0).1)
          (some 1) [65, 66]).1
        (some 1) 0 .start) (some 1) 2).2 = [(65 : Int), 66]
    ∧ (putList ((glk_stream_open_memory (initState [[0, 0, 0]] [] []) (some 0) 3 .readWrite 0).1)
        (some 1) [65, 66, 67, 68, 69]).1.mem.get? 0 = some [65, 66, 67]
    ∧ (glk_get_char_stream ((glk_stream_open_memory (initState [[]] [] []) (some 0) 0 .readWrite 0).1)
        (some 1)).2 = -1 := by
  refine ⟨?_, ?_, ?_⟩
  · have h := c3_mem_stream_rw.1
      ((glk_stream_open_memory (initState [[0, 0, 0]] [] []) (some 0) 3 .readWrite 0).1)
      1 0 ⟨1, 0, 1, true, true, some 0, none, 3, 0, false, none, none, 0, 0⟩ [0, 0, 0] [65, 66]
      (by decide) (by decide) (by decide) (by decide) (by decide) (by decide) (by decide)
      (by decide) (by decide) (by decide)
    have h' := h
    simp only [List.length_cons, List.length_nil, Nat.zero_add] at h'
    rw [h']
    decide
  · have h := c3_mem_stream_rw.2.1
      ((glk_stream_open_memory (initState [[0, 0, 0]] [] []) (some 0) 3 .readWrite 0).1)
      1 0 ⟨1, 0, 1, true, true, some 0, none, 3, 0, false, none, none, 0, 0⟩ [0, 0, 0]
      [65, 66, 67, 68, 69]
      (by decide) (by decide) (by decide) (by decide) (by decide) (by decide) (by decide)
      (by decide) (by decide)
    rw [h.1]
    decide
  · have h := c3_mem_stream_rw.2.2
      ((glk_stream_open_memory (initState [[]] [] []) (some 0) 0 .readWrite 0).1)
      1 0 ⟨1, 0, 1, true, true, some 0, none, 0, 0, false, none, none, 0, 0⟩
      (by decide) (by decide) (by decide) (by decide) (by decide)
    exact h.1

theorem findIdx?_get? {α : Type _} {p : α → Bool} :
    ∀ {l : List α} {i : Nat}, l.findIdx? p = some i → ∃ w, l.get? i = some w ∧ p w = true := by
  intro l
  induction l with
  | nil => intro i h; simp at h
  | cons x xs ih =>
    intro i h
    rw [List.findIdx?_cons] at h
    by_cases hp : p x
    · rw [if_pos hp] at h
      cases h
      exact ⟨x, rfl, hp⟩
    · rw [if_neg hp, List.findIdx?_succ] at h
      cases hfi : xs.findIdx? p with
      | none => rw [hfi] at h; simp at h
      | some j =>
        rw [hfi] at h
        simp at h
        obtain ⟨w, hw, hpw⟩ := ih hfi
        refine ⟨w, ?_, hpw⟩
        rw [← h]
        simpa using hw

theorem put_char_no_exit (st : GlkState) (sid : Option Nat) (ch : Nat) :
    Frame.exitF ∉ (gli_put_char_to_stream st sid ch).2 := by
  unfold gli_put_char_to_stream
  repeat' split
  all_goals simp

theorem putList_no_exit (cs : List Nat) : ∀ (st : GlkState) (sid : Option Nat),
    Frame.exitF ∉ (putList st sid cs).2 := by
  induction cs with
  | nil =>
    intro st sid
    simp [putList]
  | cons c cs ih =>
    intro st sid hmem
    rcases List.mem_append.mp hmem with h | h
    · exact put_char_no_exit st sid c h
    · exact ih _ sid h

theorem select_exit_spec (st : GlkState) :
    ((glk_select st).2.2.2 = false → Frame.exitF ∉ (glk_select st).2.2.1)
    ∧ ((glk_select st).2.2.2 = true →
        (glk_select st).2.2.1.getLast? = some Frame.exitF
        ∧ (glk_select st).2.2.1.count Frame.exitF = 1) := by
  unfold glk_select
  repeat' split
  all_goals simp

theorem step_exit_spec (st : GlkState) (op : Op) :
    ((step st op).2.2 = false → Frame.exitF ∉ (step st op).2.1)
    ∧ ((step st op).2.2 = true →
        (step st op).2.1.getLast? = some Frame.exitF
        ∧ (step st op).2.1.count Frame.exitF = 1) := by
  cases op
  case windowClear wid =>
    refine ⟨fun _ => ?_, fun h => by simp [step] at h⟩
    show Frame.exitF ∉ glk_window_clear st wid
    unfold glk_window_clear
    split <;> simp
  case putChar sid ch =>
    refine ⟨fun _ => ?_, fun h => by simp [step] at h⟩
    exact put_char_no_exit st sid ch
  case putString sid s =>
    refine ⟨fun _ => ?_, fun h => by simp [step] at h⟩
    exact putList_no_exit _ st sid
  case putBuffer sid buf len =>
    refine ⟨fun _ => ?_, fun h => by simp [step] at h⟩
    exact putList_no_exit _ st sid
  case filerefCreateByPrompt usage fmode rock =>
    refine ⟨fun _ => ?_, fun h => by simp [step] at h⟩
    show Frame.exitF ∉ (glk_fileref_create_by_prompt st usage fmode rock).2.2
    unfold glk_fileref_create_by_prompt
    split <;> simp
  case select => exact select_exit_spec st
  case exitCall =>
    refine ⟨fun h => by simp [step, glk_exit] at h, fun _ => ?_⟩
    exact ⟨rfl, by simp [step, glk_exit]⟩
  all_goals
    exact ⟨fun _ => by simp [step, glk_window_open], fun h => by simp [step] at h⟩

theorem run_exit_spec (ops : List Op) : ∀ st : GlkState,
    (runTerm st ops = false → Frame.exitF ∉ runFrames st ops)
    ∧ (runTerm st ops = true →
        (runFrames st ops).getLast? = some Frame.exitF
        ∧ (runFrames st ops).count Frame.exitF = 1) := by
  induction ops with
  | nil =>
    intro st
    exact ⟨fun _ => by simp [runFrames, run], fun h => by simp [runTerm, run] at h⟩
  | cons op ops ih =>
    intro st
    have hstep := step_exit_spec st op
    by_cases ht : (step st op).2.2 = true
    · have hrf : runFrames st (op :: ops) = (step st op).2.1 := by
        simp [runFrames, run, ht]
      have hrt : runTerm st (op :: ops) = true := by
        simp [runTerm, run, ht]
      refine ⟨fun h => by rw [hrt] at h; simp at h, fun _ => ?_⟩
      rw [hrf]
      exact hstep.2 ht
    · have htf : (step st op).2.2 = false := by simpa using ht
      have hrf : runFrames st (op :: ops) = (step st op).2.1 ++ runFrames (step st op).1 ops := by
        simp [runFrames, run, htf]
      have hrt : runTerm st (op :: ops) = runTerm (step st op).1 ops := by
        simp [runTerm, run, htf]
      have ihs := ih (step st op).1
      constructor
      · intro h hmem
        rw [hrf] at hmem
        rcases List.mem_append.mp hmem with hm | hm
        · exact hstep.1 htf hm
        · exact ihs.1 (by rw [← hrt]; exact h) hm
      · intro h
        rw [hrt] at h
        have htail := ihs.2 h
        have hne : runFrames (step st op).1 ops ≠ [] := by
          intro hnil
          rw [hnil] at htail
          simp at htail
        constructor
        · rw [hrf]
          rw [List.getLast?_append_of_ne_nil _ hne]
          exact htail.1
        · rw [hrf, List.count_append]
          rw [List.count_eq_zero.mpr (hstep.1 htf), htail.2]

/-- C2: end-of-input during a blocking wait emits exactly one exit frame,
as the last frame, and terminates the process; and in every execution of
the process (any call sequence from a fresh state, with the startup and
shutdown wrappers), the whole output trace contains exactly one exit frame
and it is the final frame — no frame of any kind follows it. -/
theorem c2_exit_terminal :
    (∀ (st : GlkState) (i : Nat), st.windows.findIdx? pendingReq = some i → st.stdin = [] →
      (glk_select st).2.2.2 = true
      ∧ (glk_select st).2.2.1.count Frame.exitF = 1
      ∧ (glk_select st).2.2.1.getLast? = some Frame.exitF)
    ∧ (∀ (bufs ubufs stdinL : List (List Nat)) (ops : List Op),
      (processTrace bufs ubufs stdinL ops).count Frame.exitF = 1
      ∧ (processTrace bufs ubufs stdinL ops).getLast? = some Frame.exitF) := by
  constructor
  · intro st i hi hstdin
    obtain ⟨w, hw, hpw⟩ := findIdx?_get? hi
    have hsel : glk_select st = (st, noneEvent,
        [Frame.inputReq 1 w.id (w.line_request || w.line_request_uni), Frame.exitF], true) := by
      simp only [glk_select, hi, hw, hstdin]
    rw [hsel]
    refine ⟨rfl, by simp, rfl⟩
  · intro bufs ubufs stdinL ops
    have h := run_exit_spec ops (initState bufs ubufs stdinL)
    unfold processTrace
    by_cases ht : runTerm (initState bufs ubufs stdinL) ops = true
    · have hT := h.2 ht
      rw [if_pos ht, List.append_nil]
      have hne : runFrames (initState bufs ubufs stdinL) ops ≠ [] := by
        intro hnil
        rw [hnil] at hT
        simp at hT
      constructor
      · rw [List.count_cons_of_ne (by simp), hT.2]
      · rw [show Frame.initF :: runFrames (initState bufs ubufs stdinL) ops =
            [Frame.initF] ++ runFrames (initState bufs ubufs stdinL) ops from rfl]
        rw [List.getLast?_append_of_ne_nil _ hne]
        exact hT.1
    · have htf : runTerm (initState bufs ubufs stdinL) ops = false := by simpa using ht
      rw [if_neg ht]
      constructor
      · rw [List.count_cons_of_ne (by simp), List.count_append,
          List.count_eq_zero.mpr (h.1 htf)]
        simp
      · rw [show Frame.initF :: (runFrames (initState bufs ubufs stdinL) ops ++ [Frame.exitF]) =
            [Frame.initF] ++ (runFrames (initState bufs ubufs stdinL) ops ++ [Frame.exitF]) from rfl]
        rw [List.getLast?_append_of_ne_nil _ (by simp),
          List.getLast?_append_of_ne_nil _ (by simp)]
        rfl

/-- C2 witness: a pending request with closed standard input terminates with
the exit frame last; a trivial complete execution emits exactly one exit
frame, as its last frame. -/
theorem c2_exit_terminal_witness :
    ((glk_select (glk_request_char_event
        ((glk_window_open (initState [] [] []) none 0 0 3 0).1) (some 1))).2.2.2 = true
      ∧ (glk_select (glk_request_char_event
        ((glk_window_open (initState [] [] []) none 0 0 3 0).1) (some 1))).2.2.1.count
          Frame.exitF = 1
      ∧ (glk_select (glk_request_char_event
        ((glk_window_open (initState [] [] []) none 0 0 3 0).1) (some 1))).2.2.1.getLast? =
          some Frame.exitF)
    ∧ ((processTrace [] [] [] []).count Frame.exitF = 1
      ∧ (processTrace [] [] [] []).getLast? = some Frame.exitF) :=
  ⟨c2_exit_terminal.1 _ 0 (by decide) (by decide), c2_exit_terminal.2 [] [] [] []⟩

theorem streamIds_updStream (st : GlkState) (k : Nat) (f : Strm → Strm)
    (hf : ∀ s, (f s).id = s.id) :
    streamIds (updStream st k f) = streamIds st := by
  show (st.streams.map (fun s => if s.id == k then f s else s)).map (fun s => s.id) = _
  rw [List.map_map]
  apply List.map_congr_left
  intro s _
  by_cases h : s.id = k <;> simp [h, hf]

theorem winIds_updWindow (st : GlkState) (k : Nat) (f : Window → Window)
    (hf : ∀ w, (f w).id = w.id) :
    winIds (updWindow st k f) = winIds st := by
  show (st.windows.map (fun w => if w.id == k then f w else w)).map (fun w => w.id) = _
  rw [List.map_map]
  apply List.map_congr_left
  intro w _
  by_cases h : w.id = k <;> simp [h, hf]

theorem mem_map_eraseP_subset {α β : Type _} (l : List α) (p : α → Bool) (f : α → β) (i : β)
    (h : i ∈ (l.eraseP p).map f) : i ∈ l.map f := by
  obtain ⟨s, hs, rfl⟩ := List.mem_map.mp h
  exact List.mem_map_of_mem _ (List.mem_of_mem_eraseP hs)

theorem mem_map_set_subset {α β : Type _} (l : List α) (idx : Nat) (w w' : α) (f : α → β)
    (hg : l.get? idx = some w) (hid : f w' = f w) :
    ∀ i, i ∈ (l.set idx w').map f → i ∈ l.map f := by
  intro i hi
  obtain ⟨x, hx, rfl⟩ := List.mem_map.mp hi
  rcases List.mem_or_eq_of_mem_set hx with h | h
  · exact List.mem_map_of_mem _ h
  · subst h
    rw [hid]
    exact List.mem_map_of_mem _ (List.get?_mem hg)

theorem stream_close_reg (st : GlkState) (sid : Option Nat) :
    (∀ i, i ∈ streamIds (glk_stream_close st sid).1 → i ∈ streamIds st)
    ∧ (glk_stream_close st sid).1.windows = st.windows
    ∧ (glk_stream_close st sid).1.filerefs = st.filerefs
    ∧ (glk_stream_close st sid).1.winCounter = st.winCounter
    ∧ (glk_stream_close st sid).1.strCounter = st.strCounter
    ∧ (glk_stream_close st sid).1.frefCounter = st.frefCounter := by
  unfold glk_stream_close
  repeat' split
  all_goals refine ⟨?_, rfl, rfl, rfl, rfl, rfl⟩
  all_goals intro i hi
  all_goals first
    | exact hi
    | exact mem_map_eraseP_subset _ _ _ _ hi

theorem window_close_isSome (st : GlkState) (i : Nat) (w : Window)
    (hfw : st.windows.find? (fun w => w.id == i) = some w) :
    ∃ r, glk_window_close st (some i) = some r := by
  simp only [glk_window_close, hfw]
  exact ⟨_, rfl⟩

theorem window_close_reg (st : GlkState) (wid : Option Nat)
    (r : GlkState × Option (Nat × Nat)) (hr : glk_window_close st wid = some r) :
    (∀ i, i ∈ streamIds r.1 → i ∈ streamIds st)
    ∧ (∀ i, i ∈ winIds r.1 → i ∈ winIds st)
    ∧ r.1.filerefs = st.filerefs
    ∧ r.1.winCounter = st.winCounter
    ∧ r.1.strCounter = st.strCounter
    ∧ r.1.frefCounter = st.frefCounter := by
  cases wid with
  | none =>
    simp only [glk_window_close, Option.some_inj] at hr
    subst hr
    exact ⟨fun i hi => hi, fun i hi => hi, rfl, rfl, rfl, rfl⟩
  | some j =>
    cases hfw : st.windows.find? (fun w => w.id == j) with
    | none =>
      rw [show glk_window_close st (some j) = none by simp [glk_window_close, hfw]] at hr
      exact absurd hr (by simp)
    | some w =>
      cases hwstr : w.str with
      | none =>
        simp only [glk_window_close, hfw, hwstr, Option.some_inj] at hr
        have hstreams : r.1.streams = st.streams := by
          rw [← hr]
          split <;> rfl
        have hwindows : r.1.windows = st.windows.eraseP (fun w => w.id == j) := by
          rw [← hr]
          split <;> rfl
        have hfr : r.1.filerefs = st.filerefs := by
          rw [← hr]
          split <;> rfl
        have hc1 : r.1.winCounter = st.winCounter := by
          rw [← hr]
          split <;> rfl
        have hc2 : r.1.strCounter = st.strCounter := by
          rw [← hr]
          split <;> rfl
        have hc3 : r.1.frefCounter = st.frefCounter := by
          rw [← hr]
          split <;> rfl
        refine ⟨?_, ?_, hfr, hc1, hc2, hc3⟩
        · intro i hi
          have heq : streamIds r.1 = streamIds st := by
            unfold streamIds
            rw [hstreams]
          rwa [heq] at hi
        · intro i hi
          have heq : winIds r.1 =
              (st.windows.eraseP (fun w => w.id == j)).map (fun w => w.id) := by
            unfold winIds
            rw [hwindows]
          rw [heq] at hi
          exact mem_map_eraseP_subset _ _ _ _ hi
      | some sid =>
        simp only [glk_window_close, hfw, hwstr, Option.some_inj] at hr
        have hsc := stream_close_reg (updStream st sid (fun s => { s with win := none }))
          (some sid)
        have hstreams : r.1.streams =
            (glk_stream_close (updStream st sid (fun s => { s with win := none }))
              (some sid)).1.streams := by
          rw [← hr]
          split <;> rfl
        have hwindows : r.1.windows =
            ((glk_stream_close (updStream st sid (fun s => { s with win := none }))
              (some sid)).1.windows).eraseP (fun w => w.id == j) := by
          rw [← hr]
          split <;> rfl
        have hfr : r.1.filerefs =
            (glk_stream_close (updStream st sid (fun s => { s with win := none }))
              (some sid)).1.filerefs := by
          rw [← hr]
          split <;> rfl
        have hc1 : r.1.winCounter =
            (glk_stream_close (updStream st sid (fun s => { s with win := none }))
              (some sid)).1.winCounter := by
          rw [← hr]
          split <;> rfl
        have hc2 : r.1.strCounter =
            (glk_stream_close (updStream st sid (fun s => { s with win := none }))
              (some sid)).1.strCounter := by
          rw [← hr]
          split <;> rfl
        have hc3 : r.1.frefCounter =
            (glk_stream_close (updStream st sid (fun s => { s with win := none }))
              (some sid)).1.frefCounter := by
          rw [← hr]
          split <;> rfl
        refine ⟨?_, ?_, ?_, ?_, ?_, ?_⟩
        · intro i hi
          have h1 : i ∈ streamIds (glk_stream_close
              (updStream st sid (fun s => { s with win := none })) (some sid)).1 := by
            unfold streamIds at hi ⊢
            rwa [hstreams] at hi
          have h2 := hsc.1 i h1
          rwa [streamIds_updStream st sid (fun s => { s with win := none }) (fun s' => rfl)] at h2
        · intro i hi
          have h1 : i ∈ ((glk_stream_close (updStream st sid (fun s => { s with win := none }))
              (some sid)).1.windows).map (fun w => w.id) := by
            apply mem_map_eraseP_subset _ (fun w => w.id == j)
            unfold winIds at hi
            rwa [hwindows] at hi
          rw [hsc.2.1] at h1
          exact h1
        · rw [hfr, hsc.2.2.1]
          rfl
        · rw [hc1, hsc.2.2.2.1]
          rfl
        · rw [hc2, hsc.2.2.2.2.1]
          rfl
        · rw [hc3, hsc.2.2.2.2.2]
          rfl

theorem streamIds_updStream2 (st : GlkState) (k k' : Nat) (f g : Strm → Strm)
    (hf : ∀ s, (f s).id = s.id) (hg : ∀ s, (g s).id = s.id) :
    streamIds (updStream (updStream st k f) k' g) = streamIds st :=
  (streamIds_updStream (updStream st k f) k' g hg).trans (streamIds_updStream st k f hf)

theorem put_char_reg (st : GlkState) (sid : Option Nat) (ch : Nat) :
    winIds (gli_put_char_to_stream st sid ch).1 = winIds st
    ∧ streamIds (gli_put_char_to_stream st sid ch).1 = streamIds st
    ∧ (gli_put_char_to_stream st sid ch).1.filerefs = st.filerefs
    ∧ (gli_put_char_to_stream st sid ch).1.winCounter = st.winCounter
    ∧ (gli_put_char_to_stream st sid ch).1.strCounter = st.strCounter
    ∧ (gli_put_char_to_stream st sid ch).1.frefCounter = st.frefCounter := by
  unfold gli_put_char_to_stream
  repeat' split
  all_goals refine ⟨rfl, ?_, rfl, rfl, rfl, rfl⟩
  all_goals first
    | rfl
    | exact streamIds_updStream _ _ (fun s => { s with writecount := s.writecount + 1 })
        (fun s' => rfl)
    | exact streamIds_updStream2 _ _ _
        (fun s => { s with writecount := s.writecount + 1 })
        (fun s => { s with bufptr := s.bufptr + 1 }) (fun s' => rfl) (fun s' => rfl)

theorem putList_reg (cs : List Nat) : ∀ (st : GlkState) (sid : Option Nat),
    winIds (putList st sid cs).1 = winIds st
    ∧ streamIds (putList st sid cs).1 = streamIds st
    ∧ (putList st sid cs).1.filerefs = st.filerefs
    ∧ (putList st sid cs).1.winCounter = st.winCounter
    ∧ (putList st sid cs).1.strCounter = st.strCounter
    ∧ (putList st sid cs).1.frefCounter = st.frefCounter := by
  induction cs with
  | nil => intro st sid; exact ⟨rfl, rfl, rfl, rfl, rfl, rfl⟩
  | cons c cs ih =>
    intro st sid
    have h1 := put_char_reg st sid c
    have h2 := ih (gli_put_char_to_stream st sid c).1 sid
    exact ⟨h2.1.trans h1.1, h2.2.1.trans h1.2.1, h2.2.2.1.trans h1.2.2.1,
      h2.2.2.2.1.trans h1.2.2.2.1, h2.2.2.2.2.1.trans h1.2.2.2.2.1,
      h2.2.2.2.2.2.trans h1.2.2.2.2.2⟩

theorem get_char_reg (st : GlkState) (sid : Option Nat) :
    winIds (glk_get_char_stream st sid).1 = winIds st
    ∧ streamIds (glk_get_char_stream st sid).1 = streamIds st
    ∧ (glk_get_char_stream st sid).1.filerefs = st.filerefs
    ∧ (glk_get_char_stream st sid).1.winCounter = st.winCounter
    ∧ (glk_get_char_stream st sid).1.strCounter = st.strCounter
    ∧ (glk_get_char_stream st sid).1.frefCounter = st.frefCounter := by
  unfold glk_get_char_stream
  repeat' split
  all_goals refine ⟨rfl, ?_, rfl, rfl, rfl, rfl⟩
  all_goals first
    | rfl
    | exact streamIds_updStream _ _ (fun s => { s with readcount := s.readcount + 1 })
        (fun s' => rfl)
    | exact streamIds_updStream2 _ _ _
        (fun s => { s with readcount := s.readcount + 1 })
        (fun s => { s with bufptr := s.bufptr + 1 }) (fun s' => rfl) (fun s' => rfl)

theorem set_position_reg (st : GlkState) (sid : Option Nat) (pos : Int) (mode : Seekmode) :
    winIds (glk_stream_set_position st sid pos mode) = winIds st
    ∧ streamIds (glk_stream_set_position st sid pos mode) = streamIds st
    ∧ (glk_stream_set_position st sid pos mode).filerefs = st.filerefs
    ∧ (glk_stream_set_position st sid pos mode).winCounter = st.winCounter
    ∧ (glk_stream_set_position st sid pos mode).strCounter = st.strCounter
    ∧ (glk_stream_set_position st sid pos mode).frefCounter = st.frefCounter := by
  unfold glk_stream_set_position
  repeat' split
  all_goals refine ⟨rfl, ?_, rfl, rfl, rfl, rfl⟩
  all_goals first
    | rfl
    | exact streamIds_updStream _ _ (fun s => { s with bufptr := _ }) (fun s' => rfl)

theorem select_reg (st : GlkState) :
    (∀ i, i ∈ winIds (glk_select st).1 → i ∈ winIds st)
    ∧ streamIds (glk_select st).1 = streamIds st
    ∧ (glk_select st).1.filerefs = st.filerefs
    ∧ (glk_select st).1.winCounter = st.winCounter
    ∧ (glk_select st).1.strCounter = st.strCounter
    ∧ (glk_select st).1.frefCounter = st.frefCounter := by
  unfold glk_select
  repeat' split
  all_goals refine ⟨?_, rfl, rfl, rfl, rfl, rfl⟩
  all_goals intro i hi
  all_goals first
    | exact hi
    | (rename st.windows.get? _ = some _ => hg
       refine mem_map_set_subset st.windows _ _ _ _ hg ?_ _ hi
       rfl)

theorem window_open_spec (st : GlkState) (split : Option Nat) (method size wintype rock : Nat) :
    (glk_window_open st split method size wintype rock).1.windows =
      { id := st.winCounter, rock := rock, type := wintype,
        char_request := false, line_request := false, char_request_uni := false,
        line_request_uni := false, line_buffer := none, line_buffer_uni := none,
        line_buflen := 0, str := some st.strCounter, echostr := none,
        parent := none, child1 := none, child2 := none } :: st.windows
    ∧ (glk_window_open st split method size wintype rock).1.streams =
      { id := st.strCounter, rock := 0, type := 0, readable := false, writable := true,
        buf := none, buf_uni := none, buflen := 0, bufptr := 0, is_unicode := false,
        file := none, win := some st.winCounter, readcount := 0, writecount := 0 } :: st.streams
    ∧ (glk_window_open st split method size wintype rock).1.filerefs = st.filerefs
    ∧ (glk_window_open st split method size wintype rock).1.winCounter = (st.winCounter + 1) % U32
    ∧ (glk_window_open st split method size wintype rock).1.strCounter = (st.strCounter + 1) % U32
    ∧ (glk_window_open st split method size wintype rock).1.frefCounter = st.frefCounter
    ∧ (glk_window_open st split method size wintype rock).2.1 = st.winCounter := by
  refine ⟨?_, ?_, ?_, ?_, ?_, ?_, ?_⟩ <;>
    first
      | rfl
      | (simp only [glk_window_open, gli_stream_open_window, gli_stream_new]
         split <;> rfl)

theorem stream_open_memory_spec (st : GlkState) (bid : Option Nat) (buflen : Nat)
    (fmode : Filemode) (rock : Nat) :
    (glk_stream_open_memory st bid buflen fmode rock).1.streams =
      { id := st.strCounter, rock := rock, type := 1,
        readable := (fmode == Filemode.read || fmode == Filemode.readWrite),
        writable := (fmode == Filemode.write || fmode == Filemode.readWrite),
        buf := bid, buf_uni := none, buflen := buflen, bufptr := 0, is_unicode := false,
        file := none, win := none, readcount := 0, writecount := 0 } :: st.streams
    ∧ (glk_stream_open_memory st bid buflen fmode rock).1.windows = st.windows
    ∧ (glk_stream_open_memory st bid buflen fmode rock).1.filerefs = st.filerefs
    ∧ (glk_stream_open_memory st bid buflen fmode rock).1.winCounter = st.winCounter
    ∧ (glk_stream_open_memory st bid buflen fmode rock).1.strCounter = (st.strCounter + 1) % U32
    ∧ (glk_stream_open_memory st bid buflen fmode rock).1.frefCounter = st.frefCounter
    ∧ (glk_stream_open_memory st bid buflen fmode rock).2 = st.strCounter :=
  ⟨rfl, rfl, rfl, rfl, rfl, rfl, rfl⟩

theorem fileref_new_spec (st : GlkState) (filename : List Nat) (usage rock : Nat) :
    (gli_fileref_new st filename usage rock).1.filerefs =
      { id := st.frefCounter, rock := rock, filename := filename, usage := usage,
        textmode := (usage &&& fileusage_TextMode) != 0 } :: st.filerefs
    ∧ (gli_fileref_new st filename usage rock).1.windows = st.windows
    ∧ (gli_fileref_new st filename usage rock).1.streams = st.streams
    ∧ (gli_fileref_new st filename usage rock).1.winCounter = st.winCounter
    ∧ (gli_fileref_new st filename usage rock).1.strCounter = st.strCounter
    ∧ (gli_fileref_new st filename usage rock).1.frefCounter = (st.frefCounter + 1) % U32
    ∧ (gli_fileref_new st filename usage rock).2 = st.frefCounter :=
  ⟨rfl, rfl, rfl, rfl, rfl, rfl, rfl⟩

theorem fileref_prompt_reg (st : GlkState) (usage fmode rock : Nat) :
    (∀ i, i ∈ frefIds (glk_fileref_create_by_prompt st usage fmode rock).1 →
      i ∈ frefIds st ∨ i = st.frefCounter)
    ∧ (glk_fileref_create_by_prompt st usage fmode rock).1.windows = st.windows
    ∧ (glk_fileref_create_by_prompt st usage fmode rock).1.streams = st.streams
    ∧ (glk_fileref_create_by_prompt st usage fmode rock).1.winCounter = st.winCounter
    ∧ (glk_fileref_create_by_prompt st usage fmode rock).1.strCounter = st.strCounter
    ∧ (st.frefCounter ≤ (glk_fileref_create_by_prompt st usage fmode rock).1.frefCounter
        ∨ (glk_fileref_create_by_prompt st usage fmode rock).1.frefCounter =
            (st.frefCounter + 1) % U32)
    ∧ ((glk_fileref_create_by_prompt st usage fmode rock).1.frefCounter = st.frefCounter
        ∨ (glk_fileref_create_by_prompt st usage fmode rock).1.frefCounter =
            (st.frefCounter + 1) % U32) := by
  unfold glk_fileref_create_by_prompt
  split
  · exact ⟨fun i hi => Or.inl hi, rfl, rfl, rfl, rfl, Or.inl (Nat.le_refl _), Or.inl rfl⟩
  · refine ⟨?_, rfl, rfl, rfl, rfl, Or.inr rfl, Or.inr rfl⟩
    intro i hi
    unfold frefIds at hi
    simp only [gli_fileref_new] at hi
    rcases List.mem_map.mp hi with ⟨f, hf, rfl⟩
    rcases List.mem_cons.mp hf with h | h
    · right
      rw [h]
    · left
      exact List.mem_map_of_mem _ h

theorem stepReg_refl (st : GlkState) : StepReg st st :=
  ⟨fun i hi => Or.inl hi, Nat.le_refl _, Nat.le_succ _, fun i hi => Or.inl hi,
   Nat.le_refl _, Nat.le_succ _, fun i hi => Or.inl hi, Nat.le_refl _, Nat.le_succ _⟩

theorem stepReg_of_parts (st st' : GlkState)
    (hw : ∀ i, i ∈ winIds st' → i ∈ winIds st)
    (hs : ∀ i, i ∈ streamIds st' → i ∈ streamIds st)
    (hf : ∀ i, i ∈ frefIds st' → i ∈ frefIds st)
    (hcw : st'.winCounter = st.winCounter) (hcs : st'.strCounter = st.strCounter)
    (hcf : st'.frefCounter = st.frefCounter) : StepReg st st' :=
  ⟨fun i hi => Or.inl (hw i hi), hcw.ge, by omega, fun i hi => Or.inl (hs i hi),
   hcs.ge, by omega, fun i hi => Or.inl (hf i hi), hcf.ge, by omega⟩

theorem step_reg (st : GlkState) (op : Op)
    (hwb : st.winCounter + 1 < U32) (hsb : st.strCounter + 1 < U32)
    (hfb : st.frefCounter + 1 < U32) :
    StepReg st (step st op).1 := by
  cases op
  case windowOpen split method size wintype rock =>
    show StepReg st (glk_window_open st split method size wintype rock).1
    obtain ⟨h1, h2, h3, h4, h5, h6, -⟩ := window_open_spec st split method size wintype rock
    rw [Nat.mod_eq_of_lt hwb] at h4
    rw [Nat.mod_eq_of_lt hsb] at h5
    refine ⟨?_, by omega, by omega, ?_, by omega, by omega, ?_, by omega, by omega⟩
    · intro i hi
      unfold winIds at hi
      rw [h1, List.map_cons] at hi
      rcases List.mem_cons.mp hi with h | h
      · exact Or.inr h
      · exact Or.inl h
    · intro i hi
      unfold streamIds at hi
      rw [h2, List.map_cons] at hi
      rcases List.mem_cons.mp hi with h | h
      · exact Or.inr h
      · exact Or.inl h
    · intro i hi
      unfold frefIds at hi ⊢
      rw [h3] at hi
      exact Or.inl hi
  case windowClose wid =>
    cases hr : glk_window_close st wid with
    | none =>
      have hstep : (step st (Op.windowClose wid)).1 = st := by
        simp only [step, hr]
      rw [hstep]
      exact stepReg_refl st
    | some r =>
      have hstep : (step st (Op.windowClose wid)).1 = r.1 := by
        simp only [step, hr]
      rw [hstep]
      obtain ⟨hs, hw, hf, h1, h2, h3⟩ := window_close_reg st wid r hr
      exact stepReg_of_parts st _ hw hs
        (fun i hi => by unfold frefIds at hi ⊢; rwa [hf] at hi) h1 h2 h3
  case windowClear wid =>
    exact stepReg_refl st
  case streamOpenMemory bid buflen fmode rock =>
    show StepReg st (glk_stream_open_memory st bid buflen fmode rock).1
    obtain ⟨h1, h2, h3, h4, h5, h6, -⟩ := stream_open_memory_spec st bid buflen fmode rock
    rw [Nat.mod_eq_of_lt hsb] at h5
    refine ⟨?_, by omega, by omega, ?_, by omega, by omega, ?_, by omega, by omega⟩
    · intro i hi
      unfold winIds at hi ⊢
      rw [h2] at hi
      exact Or.inl hi
    · intro i hi
      unfold streamIds at hi
      rw [h1, List.map_cons] at hi
      rcases List.mem_cons.mp hi with h | h
      · exact Or.inr h
      · exact Or.inl h
    · intro i hi
      unfold frefIds at hi ⊢
      rw [h3] at hi
      exact Or.inl hi
  case streamClose sid =>
    show StepReg st (glk_stream_close st sid).1
    obtain ⟨hs, hw, hf, h1, h2, h3⟩ := stream_close_reg st sid
    exact stepReg_of_parts st _
      (fun i hi => by unfold winIds at hi ⊢; rwa [hw] at hi) hs
      (fun i hi => by unfold frefIds at hi ⊢; rwa [hf] at hi) h1 h2 h3
  case streamSetPosition sid pos mode =>
    show StepReg st (glk_stream_set_position st sid pos mode)
    obtain ⟨hw, hs, hf, h1, h2, h3⟩ := set_position_reg st sid pos mode
    exact stepReg_of_parts st _ (fun i hi => hw ▸ hi) (fun i hi => hs ▸ hi)
      (fun i hi => by unfold frefIds at hi ⊢; rwa [hf] at hi) h1 h2 h3
  case streamSetCurrent sid =>
    exact stepReg_of_parts st _ (fun i hi => hi) (fun i hi => hi) (fun i hi => hi) rfl rfl rfl
  case setWindow wid =>
    show StepReg st (glk_set_window st wid)
    unfold glk_set_window
    split <;>
      exact stepReg_of_parts st _ (fun i hi => hi) (fun i hi => hi) (fun i hi => hi) rfl rfl rfl
  case putChar sid ch =>
    show StepReg st (gli_put_char_to_stream st sid ch).1
    obtain ⟨hw, hs, hf, h1, h2, h3⟩ := put_char_reg st sid ch
    exact stepReg_of_parts st _ (fun i hi => hw ▸ hi) (fun i hi => hs ▸ hi)
      (fun i hi => by unfold frefIds at hi ⊢; rwa [hf] at hi) h1 h2 h3
  case putString sid s =>
    show StepReg st (putList st sid (s.takeWhile (fun c => c != 0))).1
    obtain ⟨hw, hs, hf, h1, h2, h3⟩ := putList_reg (s.takeWhile (fun c => c != 0)) st sid
    exact stepReg_of_parts st _ (fun i hi => hw ▸ hi) (fun i hi => hs ▸ hi)
      (fun i hi => by unfold frefIds at hi ⊢; rwa [hf] at hi) h1 h2 h3
  case putBuffer sid buf len =>
    show StepReg st (putList st sid (buf.take len)).1
    obtain ⟨hw, hs, hf, h1, h2, h3⟩ := putList_reg (buf.take len) st sid
    exact stepReg_of_parts st _ (fun i hi => hw ▸ hi) (fun i hi => hs ▸ hi)
      (fun i hi => by unfold frefIds at hi ⊢; rwa [hf] at hi) h1 h2 h3
  case getChar sid =>
    show StepReg st (glk_get_char_stream st sid).1
    obtain ⟨hw, hs, hf, h1, h2, h3⟩ := get_char_reg st sid
    exact stepReg_of_parts st _ (fun i hi => hw ▸ hi) (fun i hi => hs ▸ hi)
      (fun i hi => by unfold frefIds at hi ⊢; rwa [hf] at hi) h1 h2 h3
  case requestLineEvent wid bid maxlen initlen =>
    show StepReg st (glk_request_line_event st wid bid maxlen initlen)
    unfold glk_request_line_event
    cases wid with
    | none => exact stepReg_refl st
    | some i =>
      exact stepReg_of_parts st _
        (fun j hj => (winIds_updWindow st i
          (fun w => { w with line_request := true, line_buffer := bid, line_buflen := maxlen })
          (fun w => rfl)) ▸ hj)
        (fun j hj => hj) (fun j hj => hj) rfl rfl rfl
  case requestCharEvent wid =>
    show StepReg st (glk_request_char_event st wid)
    unfold glk_request_char_event
    cases wid with
    | none => exact stepReg_refl st
    | some i =>
      exact stepReg_of_parts st _
        (fun j hj => (winIds_updWindow st i
          (fun w => { w with char_request := true }) (fun w => rfl)) ▸ hj)
        (fun j hj => hj) (fun j hj => hj) rfl rfl rfl
  case requestLineEventUni wid bid maxlen initlen =>
    show StepReg st (glk_request_line_event_uni st wid bid maxlen initlen)
    unfold glk_request_line_event_uni
    cases wid with
    | none => exact stepReg_refl st
    | some i =>
      exact stepReg_of_parts st _
        (fun j hj => (winIds_updWindow st i
          (fun w => { w with line_request_uni := true, line_buffer_uni := bid, line_buflen := maxlen })
          (fun w => rfl)) ▸ hj)
        (fun j hj => hj) (fun j hj => hj) rfl rfl rfl
  case requestCharEventUni wid =>
    show StepReg st (glk_request_char_event_uni st wid)
    unfold glk_request_char_event_uni
    cases wid with
    | none => exact stepReg_refl st
    | some i =>
      exact stepReg_of_parts st _
        (fun j hj => (winIds_updWindow st i
          (fun w => { w with char_request_uni := true }) (fun w => rfl)) ▸ hj)
        (fun j hj => hj) (fun j hj => hj) rfl rfl rfl
  case cancelLineEvent wid =>
    show StepReg st (glk_cancel_line_event st wid).1
    unfold glk_cancel_line_event
    cases wid with
    | none => exact stepReg_refl st
    | some i =>
      exact stepReg_of_parts st _
        (fun j hj => (winIds_updWindow st i
          (fun w => { w with line_request := false, line_buffer := none })
          (fun w => rfl)) ▸ hj)
        (fun j hj => hj) (fun j hj => hj) rfl rfl rfl
  case cancelCharEvent wid =>
    show StepReg st (glk_cancel_char_event st wid)
    unfold glk_cancel_char_event
    cases wid with
    | none => exact stepReg_refl st
    | some i =>
      exact stepReg_of_parts st _
        (fun j hj => (winIds_updWindow st i
          (fun w => { w with char_request := false }) (fun w => rfl)) ▸ hj)
        (fun j hj => hj) (fun j hj => hj) rfl rfl rfl
  case filerefCreateByName usage name rock =>
    show StepReg st (glk_fileref_create_by_name st usage name rock).1
    cases name with
    | none => exact stepReg_refl st
    | some nm =>
      show StepReg st (gli_fileref_new st nm usage rock).1
      obtain ⟨h1, h2, h3, h4, h5, h6, -⟩ := fileref_new_spec st nm usage rock
      rw [Nat.mod_eq_of_lt hfb] at h6
      refine ⟨?_, by omega, by omega, ?_, by omega, by omega, ?_, by omega, by omega⟩
      · intro i hi
        unfold winIds at hi ⊢
        rw [h2] at hi
        exact Or.inl hi
      · intro i hi
        unfold streamIds at hi ⊢
        rw [h3] at hi
        exact Or.inl hi
      · intro i hi
        unfold frefIds at hi
        rw [h1, List.map_cons] at hi
        rcases List.mem_cons.mp hi with h | h
        · exact Or.inr h
        · exact Or.inl h
  case filerefCreateTemp usage rock =>
    show StepReg st (gli_fileref_new st (strBytes "/tmp/glktmp_" ++ natDigits st.frefCounter) usage rock).1
    obtain ⟨h1, h2, h3, h4, h5, h6, -⟩ :=
      fileref_new_spec st (strBytes "/tmp/glktmp_" ++ natDigits st.frefCounter) usage rock
    rw [Nat.mod_eq_of_lt hfb] at h6
    refine ⟨?_, by omega, by omega, ?_, by omega, by omega, ?_, by omega, by omega⟩
    · intro i hi
      unfold winIds at hi ⊢
      rw [h2] at hi
      exact Or.inl hi
    · intro i hi
      unfold streamIds at hi ⊢
      rw [h3] at hi
      exact Or.inl hi
    · intro i hi
      unfold frefIds at hi
      rw [h1, List.map_cons] at hi
      rcases List.mem_cons.mp hi with h | h
      · exact Or.inr h
      · exact Or.inl h
  case filerefCreateByPrompt usage fmode rock =>
    show StepReg st (glk_fileref_create_by_prompt st usage fmode rock).1
    obtain ⟨h1, h2, h3, h4, h5, -, h6⟩ := fileref_prompt_reg st usage fmode rock
    rw [Nat.mod_eq_of_lt hfb] at h6
    refine ⟨?_, by omega, by omega, ?_, by omega, by omega, h1, by omega, by omega⟩
    · intro i hi
      unfold winIds at hi ⊢
      rw [h2] at hi
      exact Or.inl hi
    · intro i hi
      unfold streamIds at hi ⊢
      rw [h3] at hi
      exact Or.inl hi
  case filerefDestroy fid =>
    show StepReg st (glk_fileref_destroy st fid)
    unfold glk_fileref_destroy
    cases fid with
    | none => exact stepReg_refl st
    | some k =>
      exact stepReg_of_parts st _ (fun i hi => hi) (fun i hi => hi)
        (fun i hi => mem_map_eraseP_subset _ _ _ _ hi) rfl rfl rfl
  case select =>
    show StepReg st (glk_select st).1
    obtain ⟨hw, hs, hf, h1, h2, h3⟩ := select_reg st
    exact stepReg_of_parts st _ hw (fun i hi => hs ▸ hi)
      (fun i hi => by unfold frefIds at hi ⊢; rwa [hf] at hi) h1 h2 h3
  case selectPoll =>
    exact stepReg_refl st
  case exitCall =>
    exact stepReg_refl st

theorem dead_mono (st st' : GlkState) (h : StepReg st st') (i : Nat) :
    (deadWin st i → deadWin st' i) ∧ (deadStr st i → deadStr st' i)
    ∧ (deadFref st i → deadFref st' i) := by
  obtain ⟨hw, hw1, hw2, hs, hs1, hs2, hf, hf1, hf2⟩ := h
  refine ⟨?_, ?_, ?_⟩
  · rintro ⟨h1, h2, h3⟩
    refine ⟨h1, by omega, fun hmem => ?_⟩
    rcases hw i hmem with h | h
    · exact h3 h
    · omega
  · rintro ⟨h1, h2, h3⟩
    refine ⟨h1, by omega, fun hmem => ?_⟩
    rcases hs i hmem with h | h
    · exact h3 h
    · omega
  · rintro ⟨h1, h2, h3⟩
    refine ⟨h1, by omega, fun hmem => ?_⟩
    rcases hf i hmem with h | h
    · exact h3 h
    · omega

theorem run_reg_dead (ops : List Op) : ∀ (st : GlkState) (i : Nat),
    st.winCounter + ops.length < U32 → st.strCounter + ops.length < U32 →
    st.frefCounter + ops.length < U32 →
    (deadWin st i → deadWin (runState st ops) i)
    ∧ (deadStr st i → deadStr (runState st ops) i)
    ∧ (deadFref st i → deadFref (runState st ops) i) := by
  induction ops with
  | nil => exact fun st i _ _ _ => ⟨id, id, id⟩
  | cons op ops ih =>
    intro st i hw hs hf
    simp only [List.length_cons] at hw hs hf
    have hreg := step_reg st op (by omega) (by omega) (by omega)
    have hrun : runState st (op :: ops) =
        if (step st op).2.2 then (step st op).1 else runState (step st op).1 ops := by
      simp only [runState, run]
      split <;> rfl
    have hdm := dead_mono st (step st op).1 hreg i
    by_cases ht : (step st op).2.2
    · rw [hrun, if_pos ht]
      exact hdm
    · rw [hrun, if_neg ht]
      obtain ⟨-, -, huw, -, -, hus, -, -, huf⟩ := hreg
      have hih := ih (step st op).1 i (by omega) (by omega) (by omega)
      exact ⟨fun hd => hih.1 (hdm.1 hd), fun hd => hih.2.1 (hdm.2.1 hd),
        fun hd => hih.2.2 (hdm.2.2 hd)⟩

theorem map_id_erase {α : Type _} (f : α → Nat) (j : Nat) (l : List α) :
    (l.eraseP (fun x => f x == j)).map f = (l.map f).erase j := by
  induction l with
  | nil => rfl
  | cons a l ih =>
    by_cases h : f a = j
    · simp [List.eraseP_cons, List.erase_cons, h]
    · simp [List.eraseP_cons, List.erase_cons, h, ih]

theorem nextAfterStr_mem (i j : Nat) : ∀ (l : List Strm),
    nextAfterStr l i = some j → j ∈ l.map (fun s => s.id) := by
  intro l
  induction l with
  | nil => intro h; exact absurd h (by simp [nextAfterStr])
  | cons s rest ih =>
    intro h
    unfold nextAfterStr at h
    by_cases hs : (s.id == i) = true
    · rw [if_pos hs] at h
      cases hr : rest.head? with
      | none => rw [hr] at h; simp at h
      | some s' =>
        rw [hr] at h
        simp at h
        subst h
        exact List.mem_cons_of_mem _
          (List.mem_map_of_mem _ (List.mem_of_mem_head? (by simp [hr])))
    · rw [if_neg hs] at h
      exact List.mem_cons_of_mem _ (ih h)

theorem stream_iterate_mem (st : GlkState) (x : Option Nat) (j : Nat)
    (h : glk_stream_iterate st x = some j) : j ∈ streamIds st := by
  unfold glk_stream_iterate at h
  cases x with
  | none =>
    cases hr : st.streams.head? with
    | none => rw [hr] at h; simp at h
    | some s' =>
      rw [hr] at h
      simp at h
      subst h
      exact List.mem_map_of_mem _ (List.mem_of_mem_head? (by simp [hr]))
  | some k => exact nextAfterStr_mem k j st.streams h

theorem window_close_absent (st : GlkState) (j : Nat) (h : j ∉ winIds st) :
    glk_window_close st (some j) = none := by
  have hf : st.windows.find? (fun w => w.id == j) = none := by
    rw [List.find?_eq_none]
    intro w hw hbeq
    apply h
    have hwj : w.id = j := by simpa using hbeq
    exact hwj ▸ List.mem_map_of_mem _ hw
  simp [glk_window_close, hf]

theorem window_close_cascade (st : GlkState) (i sid : Nat) (w : Window) (s : Strm)
    (hfw : st.windows.find? (fun w => w.id == i) = some w)
    (hwstr : w.str = some sid)
    (hfs : st.streams.find? (fun s => s.id == sid) = some s)
    (r : GlkState × Option (Nat × Nat)) (hr : glk_window_close st (some i) = some r) :
    streamIds r.1 = (streamIds st).erase sid
    ∧ winIds r.1 = (winIds st).erase i
    ∧ r.2 = some (s.readcount, s.writecount)
    ∧ r.1.winCounter = st.winCounter
    ∧ r.1.strCounter = st.strCounter
    ∧ r.1.frefCounter = st.frefCounter
    ∧ r.1.windows = st.windows.eraseP (fun w => w.id == i)
    ∧ r.1.streams =
        ((updStream st sid (fun s => { s with win := none })).streams).eraseP
          (fun s => s.id == sid)
    ∧ r.1.filerefs = st.filerefs := by
  have hfind2 : (updStream st sid (fun s => { s with win := none })).streams.find?
      (fun s => s.id == sid) = some { s with win := none } :=
    find_updStream st sid _ s (fun s' => rfl) hfs
  simp only [glk_window_close, hfw, hwstr, hfs, Option.some_inj] at hr
  have hstreams1 : r.1.streams =
      (glk_stream_close (updStream st sid (fun s => { s with win := none }))
        (some sid)).1.streams := by
    rw [← hr]
    split <;> rfl
  have hclose : (glk_stream_close (updStream st sid (fun s => { s with win := none }))
      (some sid)).1.streams =
      (updStream st sid (fun s => { s with win := none })).streams.eraseP
        (fun s => s.id == sid) := by
    simp only [glk_stream_close, hfind2]
    split <;> rfl
  have hwindows : r.1.windows =
      ((glk_stream_close (updStream st sid (fun s => { s with win := none }))
        (some sid)).1.windows).eraseP (fun w => w.id == i) := by
    rw [← hr]
    split <;> rfl
  have hwinU : (glk_stream_close (updStream st sid (fun s => { s with win := none }))
      (some sid)).1.windows = st.windows :=
    (stream_close_reg (updStream st sid (fun s => { s with win := none })) (some sid)).2.1
  have hres : r.2 = some (s.readcount, s.writecount) := by
    rw [← hr]
  have hcS := stream_close_reg (updStream st sid (fun s => { s with win := none })) (some sid)
  have hc1 : r.1.winCounter = st.winCounter := by
    have h1 : r.1.winCounter =
        (glk_stream_close (updStream st sid (fun s => { s with win := none }))
          (some sid)).1.winCounter := by
      rw [← hr]
      split <;> rfl
    exact h1.trans hcS.2.2.2.1
  have hc2 : r.1.strCounter = st.strCounter := by
    have h1 : r.1.strCounter =
        (glk_stream_close (updStream st sid (fun s => { s with win := none }))
          (some sid)).1.strCounter := by
      rw [← hr]
      split <;> rfl
    exact h1.trans hcS.2.2.2.2.1
  have hc3 : r.1.frefCounter = st.frefCounter := by
    have h1 : r.1.frefCounter =
        (glk_stream_close (updStream st sid (fun s => { s with win := none }))
          (some sid)).1.frefCounter := by
      rw [← hr]
      split <;> rfl
    exact h1.trans hcS.2.2.2.2.2
  have hfl : r.1.filerefs = st.filerefs := by
    have h1 : r.1.filerefs =
        (glk_stream_close (updStream st sid (fun s => { s with win := none }))
          (some sid)).1.filerefs := by
      rw [← hr]
      split <;> rfl
    exact h1.trans hcS.2.2.1
  refine ⟨?_, ?_, hres, hc1, hc2, hc3, hwindows.trans (by rw [hwinU]),
    hstreams1.trans hclose, hfl⟩
  · calc streamIds r.1
        = ((updStream st sid (fun s => { s with win := none })).streams.eraseP
            (fun s => s.id == sid)).map (fun s => s.id) := by
          unfold streamIds
          rw [hstreams1, hclose]
      _ = ((updStream st sid (fun s => { s with win := none })).streams.map
            (fun s => s.id)).erase sid := map_id_erase _ sid _
      _ = (streamIds st).erase sid := by
          rw [show (updStream st sid (fun s => { s with win := none })).streams.map
              (fun s => s.id) = streamIds (updStream st sid (fun s => { s with win := none }))
              from rfl]
          rw [streamIds_updStream st sid (fun s => { s with win := none }) (fun s' => rfl)]
  · calc winIds r.1
        = (st.windows.eraseP (fun w => w.id == i)).map (fun w => w.id) := by
          unfold winIds
          rw [hwindows, hwinU]
      _ = (winIds st).erase i := map_id_erase _ i _

/-- C5 (corrected): closing a live window cascades to its owned stream exactly
once, and only window-to-stream.  If window `i` is live with owned stream
`sid` (each id live exactly once), `glk_window_close` removes exactly one
stream-registry entry (id `sid`) and one window entry (id `i`), reporting that
stream's counters, and `glk_stream_close` never modifies the window registry
(no stream-to-window cascade).  After any further call sequence that keeps the
id counters below 2^32, `glk_stream_iterate` never returns `sid` again.  But
only a `NULL` handle is a safe no-op: the source tests nothing except `NULL`,
so a second close of the same, already-freed handle dereferences freed memory
and frees it again — that call has no defined result (`none`), not the no-op
the original claim states. -/
theorem c5_window_close (st : GlkState) (i sid : Nat) (w : Window) (s : Strm)
    (hfw : st.windows.find? (fun w => w.id == i) = some w)
    (hwstr : w.str = some sid)
    (hfs : st.streams.find? (fun s => s.id == sid) = some s)
    (hwone : (winIds st).count i = 1)
    (hsone : (streamIds st).count sid = 1)
    (hsid1 : 1 ≤ sid) (hsid2 : sid < st.strCounter) :
    (glk_window_close st (some i)).map (fun r => streamIds r.1) =
      some ((streamIds st).erase sid)
    ∧ (glk_window_close st (some i)).map (fun r => winIds r.1) =
      some ((winIds st).erase i)
    ∧ (glk_window_close st (some i)).map (fun r => r.2) =
      some (some (s.readcount, s.writecount))
    ∧ (∀ (st' : GlkState) (x : Option Nat), (glk_stream_close st' x).1.windows = st'.windows)
    ∧ glk_window_close st none = some (st, none)
    ∧ (glk_window_close st (some i)).bind (fun r => glk_window_close r.1 (some i)) = none
    ∧ (∀ (r : GlkState × Option (Nat × Nat)), glk_window_close st (some i) = some r →
        ∀ (ops : List Op) (x : Option Nat),
          r.1.winCounter + ops.length < U32 →
          r.1.strCounter + ops.length < U32 →
          r.1.frefCounter + ops.length < U32 →
          glk_stream_iterate (runState r.1 ops) x ≠ some sid) := by
  obtain ⟨r0, hr0⟩ := window_close_isSome st i w hfw
  obtain ⟨hstr, hwin, hres, hc1, hc2, hc3, -, -, -⟩ :=
    window_close_cascade st i sid w s hfw hwstr hfs r0 hr0
  have hinow : i ∉ winIds r0.1 := by
    rw [hwin]
    intro hmem
    have hcnt : ((winIds st).erase i).count i = (winIds st).count i - 1 :=
      List.count_erase_self i (winIds st)
    rw [hwone] at hcnt
    exact absurd hcnt (by simpa using List.count_pos_iff.mpr hmem |>.ne.symm)
  have hsnow : sid ∉ streamIds r0.1 := by
    rw [hstr]
    intro hmem
    have hcnt : ((streamIds st).erase sid).count sid = (streamIds st).count sid - 1 :=
      List.count_erase_self sid (streamIds st)
    rw [hsone] at hcnt
    exact absurd hcnt (by simpa using List.count_pos_iff.mpr hmem |>.ne.symm)
  refine ⟨?_, ?_, ?_, ?_, rfl, ?_, ?_⟩
  · rw [hr0]
    exact congrArg some hstr
  · rw [hr0]
    exact congrArg some hwin
  · rw [hr0]
    exact congrArg some hres
  · intro st' x
    cases x with
    | none => rfl
    | some k => exact (stream_close_reg st' (some k)).2.1
  · rw [hr0]
    exact window_close_absent r0.1 i hinow
  · intro r hr ops x hb1 hb2 hb3 hit
    rw [hr0] at hr
    have hrr : r0 = r := by simpa using hr
    subst hrr
    have hdead : deadStr r0.1 sid := ⟨hsid1, by rw [hc2]; exact hsid2, hsnow⟩
    have hdead2 := (run_reg_dead ops r0.1 sid hb1 hb2 hb3).2.1 hdead
    exact hdead2.2.2 (stream_iterate_mem _ x sid hit)

/-- C5 counterexample: the claim's "a subsequent close attempt on the same
already-closed window is a safe no-op" conjunct fails.  Open a window (id 1)
and close it: the first close has a defined result, but a second close of the
same handle — `glk_window_close` has no liveness or magic-number check, only
the `NULL` test — dereferences the freed window and frees it again, so the
chained call has no defined result at all, rather than leaving the state
untouched. -/
theorem c5_counterexample :
    (glk_window_close (glk_window_open (initState [] [] []) none 0 0 3 0).1
        (some 1)).isSome = true
    ∧ (glk_window_close (glk_window_open (initState [] [] []) none 0 0 3 0).1
        (some 1)).bind (fun r => glk_window_close r.1 (some 1)) = none :=
  ⟨rfl, rfl⟩

theorem c5_window_close_witness :
    (glk_window_close (glk_window_open (initState [] [] []) none 0 0 3 0).1 (some 1)).map
        (fun r => streamIds r.1) =
      some ((streamIds (glk_window_open (initState [] [] []) none 0 0 3 0).1).erase 1)
    ∧ (glk_window_close (glk_window_open (initState [] [] []) none 0 0 3 0).1 (some 1)).bind
        (fun r => glk_window_close r.1 (some 1)) = none := by
  have h := c5_window_close (glk_window_open (initState [] [] []) none 0 0 3 0).1 1 1
    { id := 1, rock := 0, type := 3, char_request := false, line_request := false,
      char_request_uni := false, line_request_uni := false, line_buffer := none,
      line_buffer_uni := none, line_buflen := 0, str := some 1, echostr := none,
      parent := none, child1 := none, child2 := none }
    { id := 1, rock := 0, type := 0, readable := false, writable := true, buf := none,
      buf_uni := none, buflen := 0, bufptr := 0, is_unicode := false, file := none,
      win := some 1, readcount := 0, writecount := 0 }
    (by decide) (by decide) (by decide) (by decide) (by decide) (by decide) (by decide)
  exact ⟨h.1, h.2.2.2.2.2.1⟩

theorem find?_eq_of_nodup_mem {α : Type _} (f : α → Nat) (a : α) : ∀ (l : List α),
    (l.map f).Nodup → a ∈ l → l.find? (fun x => f x == f a) = some a := by
  intro l
  induction l with
  | nil => intro _ ha; exact absurd ha (List.not_mem_nil a)
  | cons b l ih =>
    intro hnd ha
    rw [List.map_cons, List.nodup_cons] at hnd
    by_cases hb : f b = f a
    · have hab : a = b := by
        rcases List.mem_cons.mp ha with h | h
        · exact h
        · exact absurd (hb ▸ List.mem_map_of_mem f h) hnd.1
      rw [List.find?_cons_of_pos _ (by simp [hb]), hab]
    · have ha' : a ∈ l := by
        rcases List.mem_cons.mp ha with h | h
        · exact absurd (h ▸ rfl) hb
        · exact h
      rw [List.find?_cons_of_neg _ (by simp [hb])]
      exact ih hnd.2 ha'

theorem not_match_of_mem_eraseP {α : Type _} (f : α → Nat) (j : Nat) (l : List α)
    (hnd : (l.map f).Nodup) (x : α) (hx : x ∈ l.eraseP (fun y => f y == j)) : f x ≠ j := by
  intro hfx
  have hmem : f x ∈ (l.eraseP (fun y => f y == j)).map f := List.mem_map_of_mem f hx
  rw [map_id_erase f j l] at hmem
  exact ((List.Nodup.mem_erase_iff hnd).mp hmem).1 hfx

theorem mem_eraseP_of_mem_of_neg {α : Type _} (p : α → Bool) (a : α) : ∀ (l : List α),
    a ∈ l → p a = false → a ∈ l.eraseP p := by
  intro l
  induction l with
  | nil => intro h _; exact absurd h (List.not_mem_nil a)
  | cons b l ih =>
    intro ha hpa
    rw [List.eraseP_cons]
    cases hpb : p b with
    | true =>
      simp only [cond_true]
      rcases List.mem_cons.mp ha with h | h
      · rw [h] at hpa; rw [hpa] at hpb; exact absurd hpb (by simp)
      · exact h
    | false =>
      simp only [cond_false]
      rcases List.mem_cons.mp ha with h | h
      · exact h ▸ List.mem_cons_self b _
      · exact List.mem_cons_of_mem _ (ih h hpa)

theorem regInv_windowOpen (st : GlkState) (split : Option Nat)
    (method size wintype rock : Nat) (h : RegInv st)
    (hwb : st.winCounter + 1 < U32) (hsb : st.strCounter + 1 < U32) :
    RegInv (glk_window_open st split method size wintype rock).1 := by
  obtain ⟨hNW, hNS, hNF, hBW, hBS, hBF, hOWN, hINJ⟩ := h
  obtain ⟨h1, h2, h3, h4, h5, h6, -⟩ := window_open_spec st split method size wintype rock
  rw [Nat.mod_eq_of_lt hwb] at h4
  rw [Nat.mod_eq_of_lt hsb] at h5
  refine ⟨?_, ?_, ?_, ?_, ?_, ?_, ?_, ?_⟩
  · unfold winIds
    rw [h1, List.map_cons, List.nodup_cons]
    refine ⟨fun hm => ?_, hNW⟩
    obtain ⟨w0, hw0, hid⟩ := List.mem_map.mp hm
    have hid' : w0.id = st.winCounter := hid
    exact absurd hid' (Nat.ne_of_lt (hBW w0 hw0))
  · unfold streamIds
    rw [h2, List.map_cons, List.nodup_cons]
    refine ⟨fun hm => ?_, hNS⟩
    obtain ⟨s0, hs0, hid⟩ := List.mem_map.mp hm
    have hid' : s0.id = st.strCounter := hid
    exact absurd hid' (Nat.ne_of_lt (hBS s0 hs0))
  · unfold frefIds
    rw [h3]
    exact hNF
  · rw [h1, h4]
    intro w hw
    rcases List.mem_cons.mp hw with hcase | hcase
    · rw [hcase]
      exact Nat.lt_succ_self st.winCounter
    · exact Nat.lt_succ_of_lt (hBW w hcase)
  · rw [h2, h5]
    intro s hs
    rcases List.mem_cons.mp hs with hcase | hcase
    · rw [hcase]
      exact Nat.lt_succ_self st.strCounter
    · exact Nat.lt_succ_of_lt (hBS s hcase)
  · rw [h3, h6]
    exact hBF
  · rw [h1, h2]
    intro w hw
    rcases List.mem_cons.mp hw with hcase | hcase
    · refine ⟨_, List.mem_cons_self _ _, ?_, rfl⟩
      rw [hcase]
    · obtain ⟨s0, hs0, hstr, hty⟩ := hOWN w hcase
      exact ⟨s0, List.mem_cons_of_mem _ hs0, hstr, hty⟩
  · rw [h1]
    intro w1 hw1 w2 hw2 hstr
    rcases List.mem_cons.mp hw1 with hc1 | hc1 <;> rcases List.mem_cons.mp hw2 with hc2 | hc2
    · rw [hc1, hc2]
    · obtain ⟨s0, hs0, hstr0, -⟩ := hOWN w2 hc2
      rw [hc1] at hstr
      rw [hstr0] at hstr
      have : st.strCounter = s0.id := by simpa using hstr
      exact absurd this.symm (Nat.ne_of_lt (hBS s0 hs0))
    · obtain ⟨s0, hs0, hstr0, -⟩ := hOWN w1 hc1
      rw [hc2] at hstr
      rw [hstr0] at hstr
      have : s0.id = st.strCounter := by simpa using hstr
      exact absurd this (Nat.ne_of_lt (hBS s0 hs0))
    · exact hINJ w1 hc1 w2 hc2 hstr

theorem regInv_streamOpenMemory (st : GlkState) (bid : Option Nat) (buflen : Nat)
    (fmode : Filemode) (rock : Nat) (h : RegInv st) (hsb : st.strCounter + 1 < U32) :
    RegInv (glk_stream_open_memory st bid buflen fmode rock).1 := by
  obtain ⟨hNW, hNS, hNF, hBW, hBS, hBF, hOWN, hINJ⟩ := h
  obtain ⟨h1, h2, h3, h4, h5, h6, -⟩ := stream_open_memory_spec st bid buflen fmode rock
  rw [Nat.mod_eq_of_lt hsb] at h5
  refine ⟨?_, ?_, ?_, ?_, ?_, ?_, ?_, ?_⟩
  · unfold winIds
    rw [h2]
    exact hNW
  · unfold streamIds
    rw [h1, List.map_cons, List.nodup_cons]
    refine ⟨fun hm => ?_, hNS⟩
    obtain ⟨s0, hs0, hid⟩ := List.mem_map.mp hm
    have hid' : s0.id = st.strCounter := hid
    exact absurd hid' (Nat.ne_of_lt (hBS s0 hs0))
  · unfold frefIds
    rw [h3]
    exact hNF
  · rw [h2, h4]
    exact hBW
  · rw [h1, h5]
    intro s hs
    rcases List.mem_cons.mp hs with hcase | hcase
    · rw [hcase]
      exact Nat.lt_succ_self st.strCounter
    · exact Nat.lt_succ_of_lt (hBS s hcase)
  · rw [h3, h6]
    exact hBF
  · rw [h2, h1]
    intro w hw
    obtain ⟨s0, hs0, hstr, hty⟩ := hOWN w hw
    exact ⟨s0, List.mem_cons_of_mem _ hs0, hstr, hty⟩
  · rw [h2]
    exact hINJ

theorem regInv_filerefNew (st : GlkState) (nm : List Nat) (usage rock : Nat)
    (h : RegInv st) (hfb : st.frefCounter + 1 < U32) :
    RegInv (gli_fileref_new st nm usage rock).1 := by
  obtain ⟨hNW, hNS, hNF, hBW, hBS, hBF, hOWN, hINJ⟩ := h
  obtain ⟨h1, h2, h3, h4, h5, h6, -⟩ := fileref_new_spec st nm usage rock
  rw [Nat.mod_eq_of_lt hfb] at h6
  refine ⟨?_, ?_, ?_, ?_, ?_, ?_, ?_, ?_⟩
  · unfold winIds
    rw [h2]
    exact hNW
  · unfold streamIds
    rw [h3]
    exact hNS
  · unfold frefIds
    rw [h1, List.map_cons, List.nodup_cons]
    refine ⟨fun hm => ?_, hNF⟩
    obtain ⟨f0, hf0, hid⟩ := List.mem_map.mp hm
    have hid' : f0.id = st.frefCounter := hid
    exact absurd hid' (Nat.ne_of_lt (hBF f0 hf0))
  · rw [h2, h4]
    exact hBW
  · rw [h3, h5]
    exact hBS
  · rw [h1, h6]
    intro f hf
    rcases List.mem_cons.mp hf with hcase | hcase
    · rw [hcase]
      exact Nat.lt_succ_self st.frefCounter
    · exact Nat.lt_succ_of_lt (hBF f hcase)
  · rw [h2, h3]
    exact hOWN
  · rw [h2]
    exact hINJ

theorem stream_close_lists (st : GlkState) (k : Nat) (s : Strm)
    (hfs : st.streams.find? (fun s => s.id == k) = some s) :
    (glk_stream_close st (some k)).1.streams = st.streams.eraseP (fun s => s.id == k)
    ∧ (glk_stream_close st (some k)).1.windows = st.windows
    ∧ (glk_stream_close st (some k)).1.filerefs = st.filerefs
    ∧ (glk_stream_close st (some k)).1.winCounter = st.winCounter
    ∧ (glk_stream_close st (some k)).1.strCounter = st.strCounter
    ∧ (glk_stream_close st (some k)).1.frefCounter = st.frefCounter := by
  refine ⟨?_, ?_, ?_, ?_, ?_, ?_⟩ <;>
    (simp only [glk_stream_close, hfs]
     split <;> rfl)

theorem regInv_streamClose (st : GlkState) (k : Nat) (s : Strm)
    (hfs : st.streams.find? (fun s => s.id == k) = some s)
    (hty : s.type ≠ 0) (h : RegInv st) :
    RegInv (glk_stream_close st (some k)).1
    ∧ (glk_stream_close st (some k)).1.streams.length + 1 = st.streams.length := by
  obtain ⟨hNW, hNS, hNF, hBW, hBS, hBF, hOWN, hINJ⟩ := h
  obtain ⟨hS, hW, hF, hc1, hc2, hc3⟩ := stream_close_lists st k s hfs
  have hsk : s.id = k := by simpa using List.find?_some hfs
  have hmem : s ∈ st.streams := List.mem_of_find?_eq_some hfs
  have hkid : k ∈ streamIds st := hsk ▸ List.mem_map_of_mem _ hmem
  have hids : streamIds (glk_stream_close st (some k)).1 = (streamIds st).erase k := by
    unfold streamIds
    rw [hS]
    exact map_id_erase _ k _
  constructor
  · refine ⟨?_, ?_, ?_, ?_, ?_, ?_, ?_, ?_⟩
    · unfold winIds
      rw [hW]
      exact hNW
    · rw [hids]
      exact hNS.erase k
    · unfold frefIds
      rw [hF]
      exact hNF
    · rw [hW, hc1]
      exact hBW
    · rw [hS, hc2]
      intro x hx
      exact hBS x (List.mem_of_mem_eraseP hx)
    · rw [hF, hc3]
      exact hBF
    · rw [hW, hS]
      intro w hw
      obtain ⟨s2, hs2, hstr, hty2⟩ := hOWN w hw
      have hne : s2.id ≠ k := by
        intro heq
        have hfind2 : st.streams.find? (fun x => x.id == s2.id) = some s2 :=
          find?_eq_of_nodup_mem (fun x => x.id) s2 st.streams
            (show (st.streams.map (fun x => x.id)).Nodup from hNS) hs2
        rw [heq] at hfind2
        rw [hfs] at hfind2
        cases hfind2
        exact hty hty2
      refine ⟨s2, ?_, hstr, hty2⟩
      exact mem_eraseP_of_mem_of_neg _ s2 st.streams hs2 (by simp [hne])
    · rw [hW]
      exact hINJ
  · have hlen : (streamIds (glk_stream_close st (some k)).1).length + 1 =
        (streamIds st).length := by
      rw [hids]
      rw [List.length_erase_of_mem hkid]
      have : 0 < (streamIds st).length := List.length_pos_of_mem hkid
      omega
    unfold streamIds at hlen
    simpa using hlen

theorem regInv_windowClose (st : GlkState) (i : Nat) (h : RegInv st)
    (hany : st.windows.any (fun w => w.id == i) = true) :
    RegInv (step st (Op.windowClose (some i))).1
    ∧ (step st (Op.windowClose (some i))).1.windows.length + 1 = st.windows.length
    ∧ (step st (Op.windowClose (some i))).1.streams.length + 1 = st.streams.length
    ∧ (step st (Op.windowClose (some i))).1.filerefs = st.filerefs
    ∧ (step st (Op.windowClose (some i))).1.winCounter = st.winCounter
    ∧ (step st (Op.windowClose (some i))).1.strCounter = st.strCounter
    ∧ (step st (Op.windowClose (some i))).1.frefCounter = st.frefCounter := by
  obtain ⟨hNW, hNS, hNF, hBW, hBS, hBF, hOWN, hINJ⟩ := h
  have hex : (st.windows.find? (fun w => w.id == i)).isSome := by
    rw [List.find?_isSome]
    simpa using hany
  cases hfw : st.windows.find? (fun w => w.id == i) with
  | none => rw [hfw] at hex; exact absurd hex (by simp)
  | some w =>
  have hwid : w.id = i := by simpa using List.find?_some hfw
  have hwmem : w ∈ st.windows := List.mem_of_find?_eq_some hfw
  obtain ⟨s, hsmem, hwstr, hsty⟩ := hOWN w hwmem
  have hfs : st.streams.find? (fun x => x.id == s.id) = some s :=
    find?_eq_of_nodup_mem (fun x => x.id) s st.streams
      (show (st.streams.map (fun x => x.id)).Nodup from hNS) hsmem
  obtain ⟨r0, hr0⟩ := window_close_isSome st i w hfw
  obtain ⟨hstr, hwin, hres, hc1, hc2, hc3, hWL, hSL, hFL⟩ :=
    window_close_cascade st i s.id w s hfw hwstr hfs r0 hr0
  have hstep : (step st (Op.windowClose (some i))).1 = r0.1 := by
    simp only [step, hr0]
  rw [hstep]
  have hiid : i ∈ winIds st := hwid ▸ List.mem_map_of_mem _ hwmem
  have hsid : s.id ∈ streamIds st := List.mem_map_of_mem _ hsmem
  refine ⟨⟨?_, ?_, ?_, ?_, ?_, ?_, ?_, ?_⟩, ?_, ?_, hFL, hc1, hc2, hc3⟩
  · rw [hwin]
    exact hNW.erase i
  · rw [hstr]
    exact hNS.erase s.id
  · unfold frefIds
    rw [hFL]
    exact hNF
  · rw [hWL, hc1]
    intro x hx
    exact hBW x (List.mem_of_mem_eraseP hx)
  · rw [hSL, hc2]
    intro x hx
    have hx' : x ∈ (updStream st s.id (fun y => { y with win := none })).streams :=
      List.mem_of_mem_eraseP hx
    obtain ⟨s0, hs0, heq⟩ := List.mem_map.mp hx'
    have hxid : x.id = s0.id := by
      rw [← heq]
      split <;> rfl
    rw [hxid]
    exact hBS s0 hs0
  · rw [hFL, hc3]
    exact hBF
  · rw [hWL, hSL]
    intro w2 hw2
    have hw2mem : w2 ∈ st.windows := List.mem_of_mem_eraseP hw2
    obtain ⟨s2, hs2, hstr2, hty2⟩ := hOWN w2 hw2mem
    have hw2ne : w2.id ≠ i :=
      not_match_of_mem_eraseP (fun y => y.id) i st.windows
        (show (st.windows.map (fun y => y.id)).Nodup from hNW) w2 hw2
    have hne : s2.id ≠ s.id := by
      intro heq
      have : w2.str = w.str := by rw [hstr2, hwstr, heq]
      exact hw2ne ((hINJ w2 hw2mem w hwmem this).trans hwid)
    refine ⟨s2, ?_, hstr2, hty2⟩
    have hgs2 : (if s2.id == s.id then { s2 with win := none } else s2) = s2 := by
      simp [hne]
    have hs2' : s2 ∈ (updStream st s.id (fun y => { y with win := none })).streams :=
      List.mem_map.mpr ⟨s2, hs2, hgs2⟩
    exact mem_eraseP_of_mem_of_neg _ s2 _ hs2' (by simp [hne])
  · rw [hWL]
    intro w1 hw1 w2 hw2 heq
    exact hINJ w1 (List.mem_of_mem_eraseP hw1) w2 (List.mem_of_mem_eraseP hw2) heq
  · have hlen : (winIds r0.1).length + 1 =
        (winIds st).length := by
      rw [hwin, List.length_erase_of_mem hiid]
      have : 0 < (winIds st).length := List.length_pos_of_mem hiid
      omega
    unfold winIds at hlen
    simpa using hlen
  · have hlen : (streamIds r0.1).length + 1 =
        (streamIds st).length := by
      rw [hstr, List.length_erase_of_mem hsid]
      have : 0 < (streamIds st).length := List.length_pos_of_mem hsid
      omega
    unfold streamIds at hlen
    simpa using hlen

theorem regInv_filerefDestroy (st : GlkState) (k : Nat) (h : RegInv st)
    (hany : st.filerefs.any (fun f => f.id == k) = true) :
    RegInv (glk_fileref_destroy st (some k))
    ∧ (glk_fileref_destroy st (some k)).filerefs.length + 1 = st.filerefs.length := by
  obtain ⟨hNW, hNS, hNF, hBW, hBS, hBF, hOWN, hINJ⟩ := h
  have hkid : k ∈ frefIds st := by
    rw [List.any_eq_true] at hany
    obtain ⟨f, hf, hbeq⟩ := hany
    have : f.id = k := by simpa using hbeq
    exact this ▸ List.mem_map_of_mem _ hf
  have hids : frefIds (glk_fileref_destroy st (some k)) = (frefIds st).erase k := by
    unfold frefIds glk_fileref_destroy
    exact map_id_erase _ k _
  constructor
  · refine ⟨hNW, hNS, ?_, hBW, hBS, ?_, hOWN, hINJ⟩
    · rw [hids]
      exact hNF.erase k
    · intro f hf
      exact hBF f (List.mem_of_mem_eraseP hf)
  · have hlen : (frefIds (glk_fileref_destroy st (some k))).length + 1 =
        (frefIds st).length := by
      rw [hids, List.length_erase_of_mem hkid]
      have : 0 < (frefIds st).length := List.length_pos_of_mem hkid
      omega
    unfold frefIds at hlen
    simpa using hlen

theorem run_cd_spec (ops : List Op) : ∀ (st : GlkState),
    wfCD st ops = true → RegInv st →
    st.winCounter + ops.length < U32 →
    st.strCounter + ops.length < U32 →
    st.frefCounter + ops.length < U32 →
    RegInv (runState st ops)
    ∧ (runState st ops).windows.length + countWC ops = st.windows.length + countWO ops
    ∧ (runState st ops).streams.length + countWC ops + countSC ops
        = st.streams.length + countWO ops + countMO ops
    ∧ (runState st ops).filerefs.length + countFD ops = st.filerefs.length + countFC ops
    ∧ (runState st ops).winCounter = st.winCounter + countWO ops
    ∧ (runState st ops).strCounter = st.strCounter + countWO ops + countMO ops
    ∧ (runState st ops).frefCounter = st.frefCounter + countFC ops
    ∧ createdWinIds st ops = List.range' st.winCounter (countWO ops)
    ∧ createdStrIds st ops = List.range' st.strCounter (countWO ops + countMO ops)
    ∧ createdFrefIds st ops = List.range' st.frefCounter (countFC ops)
    ∧ runTerm st ops = false := by
  induction ops with
  | nil =>
    intro st hwf hinv _ _ _
    exact ⟨hinv, rfl, rfl, rfl, rfl, rfl, rfl, rfl, rfl, rfl, rfl⟩
  | cons op ops ih =>
    intro st hwf hinv hbw hbs hbf
    simp only [List.length_cons] at hbw hbs hbf
    cases op
    case windowOpen split method size wintype rock =>
      simp only [wfCD, Bool.true_and] at hwf
      have hterm : (step st (Op.windowOpen split method size wintype rock)).2.2 = false := rfl
      have hrun : runState st (Op.windowOpen split method size wintype rock :: ops) =
          runState (step st (Op.windowOpen split method size wintype rock)).1 ops := by
        simp [runState, run, hterm]
      have hrt : runTerm st (Op.windowOpen split method size wintype rock :: ops) =
          runTerm (step st (Op.windowOpen split method size wintype rock)).1 ops := by
        simp [runTerm, run, hterm]
      obtain ⟨h1, h2, h3, h4, h5, h6, -⟩ := window_open_spec st split method size wintype rock
      rw [Nat.mod_eq_of_lt (show st.winCounter + 1 < U32 by omega)] at h4
      rw [Nat.mod_eq_of_lt (show st.strCounter + 1 < U32 by omega)] at h5
      have hinv' : RegInv (step st (Op.windowOpen split method size wintype rock)).1 :=
        regInv_windowOpen st split method size wintype rock hinv (by omega) (by omega)
      have hc4 : (step st (Op.windowOpen split method size wintype rock)).1.winCounter =
          st.winCounter + 1 := h4
      have hc5 : (step st (Op.windowOpen split method size wintype rock)).1.strCounter =
          st.strCounter + 1 := h5
      have hc6 : (step st (Op.windowOpen split method size wintype rock)).1.frefCounter =
          st.frefCounter := h6
      have hih := ih (step st (Op.windowOpen split method size wintype rock)).1 hwf hinv'
        (by omega) (by omega) (by omega)
      have hlenW : (step st (Op.windowOpen split method size wintype rock)).1.windows.length =
          st.windows.length + 1 := by
        rw [show (step st (Op.windowOpen split method size wintype rock)).1.windows =
          _ from h1]
        simp
      have hlenS : (step st (Op.windowOpen split method size wintype rock)).1.streams.length =
          st.streams.length + 1 := by
        rw [show (step st (Op.windowOpen split method size wintype rock)).1.streams =
          _ from h2]
        simp
      have hlenF : (step st (Op.windowOpen split method size wintype rock)).1.filerefs.length =
          st.filerefs.length := by
        rw [show (step st (Op.windowOpen split method size wintype rock)).1.filerefs =
          st.filerefs from h3]
      have hWO : countWO (Op.windowOpen split method size wintype rock :: ops) =
          countWO ops + 1 := by simp [countWO, List.countP_cons]
      have hWC : countWC (Op.windowOpen split method size wintype rock :: ops) =
          countWC ops := by simp [countWC, List.countP_cons]
      have hMO : countMO (Op.windowOpen split method size wintype rock :: ops) =
          countMO ops := by simp [countMO, List.countP_cons]
      have hSC : countSC (Op.windowOpen split method size wintype rock :: ops) =
          countSC ops := by simp [countSC, List.countP_cons]
      have hFC : countFC (Op.windowOpen split method size wintype rock :: ops) =
          countFC ops := by simp [countFC, List.countP_cons]
      have hFD : countFD (Op.windowOpen split method size wintype rock :: ops) =
          countFD ops := by simp [countFD, List.countP_cons]
      obtain ⟨ha, hb, hc, hd, he, hf, hg, hcw, hcs, hcf, hrt'⟩ := hih
      refine ⟨?_, ?_, ?_, ?_, ?_, ?_, ?_, ?_, ?_, ?_, ?_⟩
      · rw [hrun]; exact ha
      · rw [hrun, hWC, hWO]; omega
      · rw [hrun, hWC, hSC, hWO, hMO]; omega
      · rw [hrun, hFD, hFC]; omega
      · rw [hrun, hWO]; omega
      · rw [hrun, hWO, hMO]; omega
      · rw [hrun, hFC]; omega
      · have hcr : createdWinIds st (Op.windowOpen split method size wintype rock :: ops) =
            st.winCounter ::
              createdWinIds (step st (Op.windowOpen split method size wintype rock)).1 ops := by
          simp [createdWinIds, hterm]
        rw [hcr, hcw, hc4, hWO]
        rfl
      · have hcr : createdStrIds st (Op.windowOpen split method size wintype rock :: ops) =
            st.strCounter ::
              createdStrIds (step st (Op.windowOpen split method size wintype rock)).1 ops := by
          simp [createdStrIds, hterm]
        rw [hcr, hcs, hc5, hWO, hMO]
        have : countWO ops + 1 + countMO ops = (countWO ops + countMO ops) + 1 := by omega
        rw [this]
        rfl
      · have hcr : createdFrefIds st (Op.windowOpen split method size wintype rock :: ops) =
            createdFrefIds (step st (Op.windowOpen split method size wintype rock)).1 ops := by
          simp [createdFrefIds, hterm]
        rw [hcr, hcf, hc6, hFC]
      · rw [hrt]; exact hrt'
    case streamOpenMemory bid buflen fmode rock =>
      simp only [wfCD, Bool.true_and] at hwf
      have hterm : (step st (Op.streamOpenMemory bid buflen fmode rock)).2.2 = false := rfl
      have hrun : runState st (Op.streamOpenMemory bid buflen fmode rock :: ops) =
          runState (step st (Op.streamOpenMemory bid buflen fmode rock)).1 ops := by
        simp [runState, run, hterm]
      have hrt : runTerm st (Op.streamOpenMemory bid buflen fmode rock :: ops) =
          runTerm (step st (Op.streamOpenMemory bid buflen fmode rock)).1 ops := by
        simp [runTerm, run, hterm]
      obtain ⟨h1, h2, h3, h4, h5, h6, -⟩ := stream_open_memory_spec st bid buflen fmode rock
      rw [Nat.mod_eq_of_lt (show st.strCounter + 1 < U32 by omega)] at h5
      have hinv' : RegInv (step st (Op.streamOpenMemory bid buflen fmode rock)).1 :=
        regInv_streamOpenMemory st bid buflen fmode rock hinv (by omega)
      have hc4 : (step st (Op.streamOpenMemory bid buflen fmode rock)).1.winCounter =
          st.winCounter := h4
      have hc5 : (step st (Op.streamOpenMemory bid buflen fmode rock)).1.strCounter =
          st.strCounter + 1 := h5
      have hc6 : (step st (Op.streamOpenMemory bid buflen fmode rock)).1.frefCounter =
          st.frefCounter := h6
      have hih := ih (step st (Op.streamOpenMemory bid buflen fmode rock)).1 hwf hinv'
        (by omega) (by omega) (by omega)
      have hlenW : (step st (Op.streamOpenMemory bid buflen fmode rock)).1.windows.length =
          st.windows.length := by
        rw [show (step st (Op.streamOpenMemory bid buflen fmode rock)).1.windows =
          st.windows from h2]
      have hlenS : (step st (Op.streamOpenMemory bid buflen fmode rock)).1.streams.length =
          st.streams.length + 1 := by
        rw [show (step st (Op.streamOpenMemory bid buflen fmode rock)).1.streams =
          _ from h1]
        simp
      have hlenF : (step st (Op.streamOpenMemory bid buflen fmode rock)).1.filerefs.length =
          st.filerefs.length := by
        rw [show (step st (Op.streamOpenMemory bid buflen fmode rock)).1.filerefs =
          st.filerefs from h3]
      have hWO : countWO (Op.streamOpenMemory bid buflen fmode rock :: ops) =
          countWO ops := by simp [countWO, List.countP_cons]
      have hWC : countWC (Op.streamOpenMemory bid buflen fmode rock :: ops) =
          countWC ops := by simp [countWC, List.countP_cons]
      have hMO : countMO (Op.streamOpenMemory bid buflen fmode rock :: ops) =
          countMO ops + 1 := by simp [countMO, List.countP_cons]
      have hSC : countSC (Op.streamOpenMemory bid buflen fmode rock :: ops) =
          countSC ops := by simp [countSC, List.countP_cons]
      have hFC : countFC (Op.streamOpenMemory bid buflen fmode rock :: ops) =
          countFC ops := by simp [countFC, List.countP_cons]
      have hFD : countFD (Op.streamOpenMemory bid buflen fmode rock :: ops) =
          countFD ops := by simp [countFD, List.countP_cons]
      obtain ⟨ha, hb, hc, hd, he, hf, hg, hcw, hcs, hcf, hrt2⟩ := hih
      refine ⟨?_, ?_, ?_, ?_, ?_, ?_, ?_, ?_, ?_, ?_, ?_⟩
      · rw [hrun]; exact ha
      · rw [hrun, hWC, hWO]; omega
      · rw [hrun, hWC, hSC, hWO, hMO]; omega
      · rw [hrun, hFD, hFC]; omega
      · rw [hrun, hWO]; omega
      · rw [hrun, hWO, hMO]; omega
      · rw [hrun, hFC]; omega
      · have hcr : createdWinIds st (Op.streamOpenMemory bid buflen fmode rock :: ops) =
            createdWinIds (step st (Op.streamOpenMemory bid buflen fmode rock)).1 ops := by
          simp [createdWinIds, hterm]
        rw [hcr, hcw, hc4, hWO]
      · have hcr : createdStrIds st (Op.streamOpenMemory bid buflen fmode rock :: ops) =
            st.strCounter ::
              createdStrIds (step st (Op.streamOpenMemory bid buflen fmode rock)).1 ops := by
          simp [createdStrIds, hterm]
        rw [hcr, hcs, hc5, hWO, hMO]
        have harr : countWO ops + (countMO ops + 1) = (countWO ops + countMO ops) + 1 := by
          omega
        rw [harr]
        rfl
      · have hcr : createdFrefIds st (Op.streamOpenMemory bid buflen fmode rock :: ops) =
            createdFrefIds (step st (Op.streamOpenMemory bid buflen fmode rock)).1 ops := by
          simp [createdFrefIds, hterm]
        rw [hcr, hcf, hc6, hFC]
      · rw [hrt]; exact hrt2
    case windowClose wid =>
      cases wid with
      | none => simp [wfCD] at hwf
      | some i =>
        simp only [wfCD, Bool.and_eq_true] at hwf
        obtain ⟨hok, hwf⟩ := hwf
        have hterm : (step st (Op.windowClose (some i))).2.2 = false := rfl
        have hrun : runState st (Op.windowClose (some i) :: ops) =
            runState (step st (Op.windowClose (some i))).1 ops := by
          simp [runState, run, hterm]
        have hrt : runTerm st (Op.windowClose (some i) :: ops) =
            runTerm (step st (Op.windowClose (some i))).1 ops := by
          simp [runTerm, run, hterm]
        obtain ⟨hinv', hlw, hls, hlf, hc1, hc2, hc3⟩ := regInv_windowClose st i hinv hok
        have hinv2 : RegInv (step st (Op.windowClose (some i))).1 := hinv'
        have hc1' : (step st (Op.windowClose (some i))).1.winCounter = st.winCounter := hc1
        have hc2' : (step st (Op.windowClose (some i))).1.strCounter = st.strCounter := hc2
        have hc3' : (step st (Op.windowClose (some i))).1.frefCounter = st.frefCounter := hc3
        have hlw' : (step st (Op.windowClose (some i))).1.windows.length + 1 =
            st.windows.length := hlw
        have hls' : (step st (Op.windowClose (some i))).1.streams.length + 1 =
            st.streams.length := hls
        have hlf' : (step st (Op.windowClose (some i))).1.filerefs.length =
            st.filerefs.length := by
          rw [show (step st (Op.windowClose (some i))).1.filerefs = st.filerefs from hlf]
        have hih := ih (step st (Op.windowClose (some i))).1 hwf hinv2
          (by omega) (by omega) (by omega)
        have hWO : countWO (Op.windowClose (some i) :: ops) = countWO ops := by
          simp [countWO, List.countP_cons]
        have hWC : countWC (Op.windowClose (some i) :: ops) = countWC ops + 1 := by
          simp [countWC, List.countP_cons]
        have hMO : countMO (Op.windowClose (some i) :: ops) = countMO ops := by
          simp [countMO, List.countP_cons]
        have hSC : countSC (Op.windowClose (some i) :: ops) = countSC ops := by
          simp [countSC, List.countP_cons]
        have hFC : countFC (Op.windowClose (some i) :: ops) = countFC ops := by
          simp [countFC, List.countP_cons]
        have hFD : countFD (Op.windowClose (some i) :: ops) = countFD ops := by
          simp [countFD, List.countP_cons]
        obtain ⟨ha, hb, hc, hd, he, hf, hg, hcw, hcs, hcf, hrt2⟩ := hih
        refine ⟨?_, ?_, ?_, ?_, ?_, ?_, ?_, ?_, ?_, ?_, ?_⟩
        · rw [hrun]; exact ha
        · rw [hrun, hWC, hWO]; omega
        · rw [hrun, hWC, hSC, hWO, hMO]; omega
        · rw [hrun, hFD, hFC]; omega
        · rw [hrun, hWO]; omega
        · rw [hrun, hWO, hMO]; omega
        · rw [hrun, hFC]; omega
        · have hcr : createdWinIds st (Op.windowClose (some i) :: ops) =
              createdWinIds (step st (Op.windowClose (some i))).1 ops := by
            simp [createdWinIds, hterm]
          rw [hcr, hcw, hc1', hWO]
        · have hcr : createdStrIds st (Op.windowClose (some i) :: ops) =
              createdStrIds (step st (Op.windowClose (some i))).1 ops := by
            simp [createdStrIds, hterm]
          rw [hcr, hcs, hc2', hWO, hMO]
        · have hcr : createdFrefIds st (Op.windowClose (some i) :: ops) =
              createdFrefIds (step st (Op.windowClose (some i))).1 ops := by
            simp [createdFrefIds, hterm]
          rw [hcr, hcf, hc3', hFC]
        · rw [hrt]; exact hrt2
    case streamClose sid =>
      cases sid with
      | none => simp [wfCD] at hwf
      | some k =>
        simp only [wfCD, Bool.and_eq_true] at hwf
        obtain ⟨hok, hwf⟩ := hwf
        cases hfs : st.streams.find? (fun s => s.id == k) with
        | none => rw [hfs] at hok; simp at hok
        | some s =>
          rw [hfs] at hok
          have hty : s.type ≠ 0 := by simpa using hok
          have hterm : (step st (Op.streamClose (some k))).2.2 = false := rfl
          have hrun : runState st (Op.streamClose (some k) :: ops) =
              runState (step st (Op.streamClose (some k))).1 ops := by
            simp [runState, run, hterm]
          have hrt : runTerm st (Op.streamClose (some k) :: ops) =
              runTerm (step st (Op.streamClose (some k))).1 ops := by
            simp [runTerm, run, hterm]
          obtain ⟨hinv', hls⟩ := regInv_streamClose st k s hfs hty hinv
          obtain ⟨hS, hW, hF, hc1, hc2, hc3⟩ := stream_close_lists st k s hfs
          have hinv2 : RegInv (step st (Op.streamClose (some k))).1 := hinv'
          have hc1' : (step st (Op.streamClose (some k))).1.winCounter = st.winCounter := hc1
          have hc2' : (step st (Op.streamClose (some k))).1.strCounter = st.strCounter := hc2
          have hc3' : (step st (Op.streamClose (some k))).1.frefCounter = st.frefCounter := hc3
          have hls' : (step st (Op.streamClose (some k))).1.streams.length + 1 =
              st.streams.length := hls
          have hlw' : (step st (Op.streamClose (some k))).1.windows.length =
              st.windows.length := by
            rw [show (step st (Op.streamClose (some k))).1.windows = st.windows from hW]
          have hlf' : (step st (Op.streamClose (some k))).1.filerefs.length =
              st.filerefs.length := by
            rw [show (step st (Op.streamClose (some k))).1.filerefs = st.filerefs from hF]
          have hih := ih (step st (Op.streamClose (some k))).1 hwf hinv2
            (by omega) (by omega) (by omega)
          have hWO : countWO (Op.streamClose (some k) :: ops) = countWO ops := by
            simp [countWO, List.countP_cons]
          have hWC : countWC (Op.streamClose (some k) :: ops) = countWC ops := by
            simp [countWC, List.countP_cons]
          have hMO : countMO (Op.streamClose (some k) :: ops) = countMO ops := by
            simp [countMO, List.countP_cons]
          have hSC : countSC (Op.streamClose (some k) :: ops) = countSC ops + 1 := by
            simp [countSC, List.countP_cons]
          have hFC : countFC (Op.streamClose (some k) :: ops) = countFC ops := by
            simp [countFC, List.countP_cons]
          have hFD : countFD (Op.streamClose (some k) :: ops) = countFD ops := by
            simp [countFD, List.countP_cons]
          obtain ⟨ha, hb, hc, hd, he, hf, hg, hcw, hcs, hcf, hrt2⟩ := hih
          refine ⟨?_, ?_, ?_, ?_, ?_, ?_, ?_, ?_, ?_, ?_, ?_⟩
          · rw [hrun]; exact ha
          · rw [hrun, hWC, hWO]; omega
          · rw [hrun, hWC, hSC, hWO, hMO]; omega
          · rw [hrun, hFD, hFC]; omega
          · rw [hrun, hWO]; omega
          · rw [hrun, hWO, hMO]; omega
          · rw [hrun, hFC]; omega
          · have hcr : createdWinIds st (Op.streamClose (some k) :: ops) =
                createdWinIds (step st (Op.streamClose (some k))).1 ops := by
              simp [createdWinIds, hterm]
            rw [hcr, hcw, hc1', hWO]
          · have hcr : createdStrIds st (Op.streamClose (some k) :: ops) =
                createdStrIds (step st (Op.streamClose (some k))).1 ops := by
              simp [createdStrIds, hterm]
            rw [hcr, hcs, hc2', hWO, hMO]
          · have hcr : createdFrefIds st (Op.streamClose (some k) :: ops) =
                createdFrefIds (step st (Op.streamClose (some k))).1 ops := by
              simp [createdFrefIds, hterm]
            rw [hcr, hcf, hc3', hFC]
          · rw [hrt]; exact hrt2
    case filerefCreateByName usage name rock =>
      cases name with
      | none => simp [wfCD] at hwf
      | some nm =>
        simp only [wfCD, Option.isSome_some, Bool.true_and] at hwf
        have hterm : (step st (Op.filerefCreateByName usage (some nm) rock)).2.2 = false := rfl
        have hrun : runState st (Op.filerefCreateByName usage (some nm) rock :: ops) =
            runState (step st (Op.filerefCreateByName usage (some nm) rock)).1 ops := by
          simp [runState, run, hterm]
        have hrt : runTerm st (Op.filerefCreateByName usage (some nm) rock :: ops) =
            runTerm (step st (Op.filerefCreateByName usage (some nm) rock)).1 ops := by
          simp [runTerm, run, hterm]
        obtain ⟨h1, h2, h3, h4, h5, h6, -⟩ := fileref_new_spec st nm usage rock
        rw [Nat.mod_eq_of_lt (show st.frefCounter + 1 < U32 by omega)] at h6
        have hinv' : RegInv (step st (Op.filerefCreateByName usage (some nm) rock)).1 :=
          regInv_filerefNew st nm usage rock hinv (by omega)
        have hc4 : (step st (Op.filerefCreateByName usage (some nm) rock)).1.winCounter =
            st.winCounter := h4
        have hc5 : (step st (Op.filerefCreateByName usage (some nm) rock)).1.strCounter =
            st.strCounter := h5
        have hc6 : (step st (Op.filerefCreateByName usage (some nm) rock)).1.frefCounter =
            st.frefCounter + 1 := h6
        have hih := ih (step st (Op.filerefCreateByName usage (some nm) rock)).1 hwf hinv'
          (by omega) (by omega) (by omega)
        have hlenW : (step st (Op.filerefCreateByName usage (some nm) rock)).1.windows.length =
            st.windows.length := by
          rw [show (step st (Op.filerefCreateByName usage (some nm) rock)).1.windows =
            st.windows from h2]
        have hlenS : (step st (Op.filerefCreateByName usage (some nm) rock)).1.streams.length =
            st.streams.length := by
          rw [show (step st (Op.filerefCreateByName usage (some nm) rock)).1.streams =
            st.streams from h3]
        have hlenF : (step st (Op.filerefCreateByName usage (some nm) rock)).1.filerefs.length =
            st.filerefs.length + 1 := by
          rw [show (step st (Op.filerefCreateByName usage (some nm) rock)).1.filerefs =
            _ from h1]
          simp
        have hWO : countWO (Op.filerefCreateByName usage (some nm) rock :: ops) =
            countWO ops := by simp [countWO, List.countP_cons]
        have hWC : countWC (Op.filerefCreateByName usage (some nm) rock :: ops) =
            countWC ops := by simp [countWC, List.countP_cons]
        have hMO : countMO (Op.filerefCreateByName usage (some nm) rock :: ops) =
            countMO ops := by simp [countMO, List.countP_cons]
        have hSC : countSC (Op.filerefCreateByName usage (some nm) rock :: ops) =
            countSC ops := by simp [countSC, List.countP_cons]
        have hFC : countFC (Op.filerefCreateByName usage (some nm) rock :: ops) =
            countFC ops + 1 := by simp [countFC, List.countP_cons]
        have hFD : countFD (Op.filerefCreateByName usage (some nm) rock :: ops) =
            countFD ops := by simp [countFD, List.countP_cons]
        obtain ⟨ha, hb, hc, hd, he, hf, hg, hcw, hcs, hcf, hrt2⟩ := hih
        refine ⟨?_, ?_, ?_, ?_, ?_, ?_, ?_, ?_, ?_, ?_, ?_⟩
        · rw [hrun]; exact ha
        · rw [hrun, hWC, hWO]; omega
        · rw [hrun, hWC, hSC, hWO, hMO]; omega
        · rw [hrun, hFD, hFC]; omega
        · rw [hrun, hWO]; omega
        · rw [hrun, hWO, hMO]; omega
        · rw [hrun, hFC]; omega
        · have hcr : createdWinIds st (Op.filerefCreateByName usage (some nm) rock :: ops) =
              createdWinIds (step st (Op.filerefCreateByName usage (some nm) rock)).1 ops := by
            simp [createdWinIds, hterm]
          rw [hcr, hcw, hc4, hWO]
        · have hcr : createdStrIds st (Op.filerefCreateByName usage (some nm) rock :: ops) =
              createdStrIds (step st (Op.filerefCreateByName usage (some nm) rock)).1 ops := by
            simp [createdStrIds, hterm]
          rw [hcr, hcs, hc5, hWO, hMO]
        · have hcr : createdFrefIds st (Op.filerefCreateByName usage (some nm) rock :: ops) =
              st.frefCounter ::
                createdFrefIds (step st (Op.filerefCreateByName usage (some nm) rock)).1 ops := by
            simp [createdFrefIds, hterm]
          rw [hcr, hcf, hc6, hFC]
          rfl
        · rw [hrt]; exact hrt2
    case filerefCreateTemp usage rock =>
      simp only [wfCD, Bool.true_and] at hwf
      have hterm : (step st (Op.filerefCreateTemp usage rock)).2.2 = false := rfl
      have hrun : runState st (Op.filerefCreateTemp usage rock :: ops) =
          runState (step st (Op.filerefCreateTemp usage rock)).1 ops := by
        simp [runState, run, hterm]
      have hrt : runTerm st (Op.filerefCreateTemp usage rock :: ops) =
          runTerm (step st (Op.filerefCreateTemp usage rock)).1 ops := by
        simp [runTerm, run, hterm]
      obtain ⟨h1, h2, h3, h4, h5, h6, -⟩ :=
        fileref_new_spec st (strBytes "/tmp/glktmp_" ++ natDigits st.frefCounter) usage rock
      rw [Nat.mod_eq_of_lt (show st.frefCounter + 1 < U32 by omega)] at h6
      have hinv' : RegInv (step st (Op.filerefCreateTemp usage rock)).1 :=
        regInv_filerefNew st (strBytes "/tmp/glktmp_" ++ natDigits st.frefCounter) usage rock
          hinv (by omega)
      have hc4 : (step st (Op.filerefCreateTemp usage rock)).1.winCounter =
          st.winCounter := h4
      have hc5 : (step st (Op.filerefCreateTemp usage rock)).1.strCounter =
          st.strCounter := h5
      have hc6 : (step st (Op.filerefCreateTemp usage rock)).1.frefCounter =
          st.frefCounter + 1 := h6
      have hih := ih (step st (Op.filerefCreateTemp usage rock)).1 hwf hinv'
        (by omega) (by omega) (by omega)
      have hlenW : (step st (Op.filerefCreateTemp usage rock)).1.windows.length =
          st.windows.length := by
        rw [show (step st (Op.filerefCreateTemp usage rock)).1.windows =
          st.windows from h2]
      have hlenS : (step st (Op.filerefCreateTemp usage rock)).1.streams.length =
          st.streams.length := by
        rw [show (step st (Op.filerefCreateTemp usage rock)).1.streams =
          st.streams from h3]
      have hlenF : (step st (Op.filerefCreateTemp usage rock)).1.filerefs.length =
          st.filerefs.length + 1 := by
        rw [show (step st (Op.filerefCreateTemp usage rock)).1.filerefs = _ from h1]
        simp
      have hWO : countWO (Op.filerefCreateTemp usage rock :: ops) =
          countWO ops := by simp [countWO, List.countP_cons]
      have hWC : countWC (Op.filerefCreateTemp usage rock :: ops) =
          countWC ops := by simp [countWC, List.countP_cons]
      have hMO : countMO (Op.filerefCreateTemp usage rock :: ops) =
          countMO ops := by simp [countMO, List.countP_cons]
      have hSC : countSC (Op.filerefCreateTemp usage rock :: ops) =
          countSC ops := by simp [countSC, List.countP_cons]
      have hFC : countFC (Op.filerefCreateTemp usage rock :: ops) =
          countFC ops + 1 := by simp [countFC, List.countP_cons]
      have hFD : countFD (Op.filerefCreateTemp usage rock :: ops) =
          countFD ops := by simp [countFD, List.countP_cons]
      obtain ⟨ha, hb, hc, hd, he, hf, hg, hcw, hcs, hcf, hrt2⟩ := hih
      refine ⟨?_, ?_, ?_, ?_, ?_, ?_, ?_, ?_, ?_, ?_, ?_⟩
      · rw [hrun]; exact ha
      · rw [hrun, hWC, hWO]; omega
      · rw [hrun, hWC, hSC, hWO, hMO]; omega
      · rw [hrun, hFD, hFC]; omega
      · rw [hrun, hWO]; omega
      · rw [hrun, hWO, hMO]; omega
      · rw [hrun, hFC]; omega
      · have hcr : createdWinIds st (Op.filerefCreateTemp usage rock :: ops) =
            createdWinIds (step st (Op.filerefCreateTemp usage rock)).1 ops := by
          simp [createdWinIds, hterm]
        rw [hcr, hcw, hc4, hWO]
      · have hcr : createdStrIds st (Op.filerefCreateTemp usage rock :: ops) =
            createdStrIds (step st (Op.filerefCreateTemp usage rock)).1 ops := by
          simp [createdStrIds, hterm]
        rw [hcr, hcs, hc5, hWO, hMO]
      · have hcr : createdFrefIds st (Op.filerefCreateTemp usage rock :: ops) =
            st.frefCounter ::
              createdFrefIds (step st (Op.filerefCreateTemp usage rock)).1 ops := by
          simp [createdFrefIds, hterm]
        rw [hcr, hcf, hc6, hFC]
        rfl
      · rw [hrt]; exact hrt2
    case filerefDestroy fid =>
      cases fid with
      | none => simp [wfCD] at hwf
      | some k =>
        simp only [wfCD, Bool.and_eq_true] at hwf
        obtain ⟨hok, hwf⟩ := hwf
        have hterm : (step st (Op.filerefDestroy (some k))).2.2 = false := rfl
        have hrun : runState st (Op.filerefDestroy (some k) :: ops) =
            runState (step st (Op.filerefDestroy (some k))).1 ops := by
          simp [runState, run, hterm]
        have hrt : runTerm st (Op.filerefDestroy (some k) :: ops) =
            runTerm (step st (Op.filerefDestroy (some k))).1 ops := by
          simp [runTerm, run, hterm]
        obtain ⟨hinv', hlf⟩ := regInv_filerefDestroy st k hinv hok
        have hinv2 : RegInv (step st (Op.filerefDestroy (some k))).1 := hinv'
        have hlf' : (step st (Op.filerefDestroy (some k))).1.filerefs.length + 1 =
            st.filerefs.length := hlf
        have hlw' : (step st (Op.filerefDestroy (some k))).1.windows.length =
            st.windows.length := rfl
        have hls' : (step st (Op.filerefDestroy (some k))).1.streams.length =
            st.streams.length := rfl
        have hc1' : (step st (Op.filerefDestroy (some k))).1.winCounter = st.winCounter := rfl
        have hc2' : (step st (Op.filerefDestroy (some k))).1.strCounter = st.strCounter := rfl
        have hc3' : (step st (Op.filerefDestroy (some k))).1.frefCounter = st.frefCounter := rfl
        have hih := ih (step st (Op.filerefDestroy (some k))).1 hwf hinv2
          (by omega) (by omega) (by omega)
        have hWO : countWO (Op.filerefDestroy (some k) :: ops) = countWO ops := by
          simp [countWO, List.countP_cons]
        have hWC : countWC (Op.filerefDestroy (some k) :: ops) = countWC ops := by
          simp [countWC, List.countP_cons]
        have hMO : countMO (Op.filerefDestroy (some k) :: ops) = countMO ops := by
          simp [countMO, List.countP_cons]
        have hSC : countSC (Op.filerefDestroy (some k) :: ops) = countSC ops := by
          simp [countSC, List.countP_cons]
        have hFC : countFC (Op.filerefDestroy (some k) :: ops) = countFC ops := by
          simp [countFC, List.countP_cons]
        have hFD : countFD (Op.filerefDestroy (some k) :: ops) = countFD ops + 1 := by
          simp [countFD, List.countP_cons]
        obtain ⟨ha, hb, hc, hd, he, hf, hg, hcw, hcs, hcf, hrt2⟩ := hih
        refine ⟨?_, ?_, ?_, ?_, ?_, ?_, ?_, ?_, ?_, ?_, ?_⟩
        · rw [hrun]; exact ha
        · rw [hrun, hWC, hWO]; omega
        · rw [hrun, hWC, hSC, hWO, hMO]; omega
        · rw [hrun, hFD, hFC]; omega
        · rw [hrun, hWO]; omega
        · rw [hrun, hWO, hMO]; omega
        · rw [hrun, hFC]; omega
        · have hcr : createdWinIds st (Op.filerefDestroy (some k) :: ops) =
              createdWinIds (step st (Op.filerefDestroy (some k))).1 ops := by
            simp [createdWinIds, hterm]
          rw [hcr, hcw, hc1', hWO]
        · have hcr : createdStrIds st (Op.filerefDestroy (some k) :: ops) =
              createdStrIds (step st (Op.filerefDestroy (some k))).1 ops := by
            simp [createdStrIds, hterm]
          rw [hcr, hcs, hc2', hWO, hMO]
        · have hcr : createdFrefIds st (Op.filerefDestroy (some k) :: ops) =
              createdFrefIds (step st (Op.filerefDestroy (some k))).1 ops := by
            simp [createdFrefIds, hterm]
          rw [hcr, hcf, hc3', hFC]
        · rw [hrt]; exact hrt2
    all_goals simp [wfCD] at hwf

theorem run_append (p q : List Op) : ∀ (st : GlkState), runTerm st p = false →
    runState st (p ++ q) = runState (runState st p) q := by
  induction p with
  | nil => intro st _; rfl
  | cons op p ihp =>
    intro st hterm
    by_cases ht : (step st op).2.2
    · exfalso
      have hq : runTerm st (op :: p) = true := by simp [runTerm, run, ht]
      rw [hq] at hterm
      exact absurd hterm (by simp)
    · have h1 : runState st ((op :: p) ++ q) = runState (step st op).1 (p ++ q) := by
        simp [runState, run, ht]
      have h2 : runState st (op :: p) = runState (step st op).1 p := by
        simp [runState, run, ht]
      have h3 : runTerm st (op :: p) = runTerm (step st op).1 p := by
        simp [runTerm, run, ht]
      rw [h1, h2, ihp _ (h3 ▸ hterm)]

theorem wfCD_split (p q : List Op) : ∀ (st : GlkState), wfCD st (p ++ q) = true →
    wfCD st p = true ∧ (runTerm st p = false → wfCD (runState st p) q = true) := by
  induction p with
  | nil =>
    intro st h
    exact ⟨rfl, fun _ => h⟩
  | cons op p ihp =>
    intro st h
    simp only [List.cons_append, wfCD, Bool.and_eq_true] at h ⊢
    obtain ⟨hok, hrest⟩ := h
    obtain ⟨hp, hq⟩ := ihp (step st op).1 hrest
    refine ⟨⟨hok, hp⟩, ?_⟩
    intro hterm
    by_cases ht : (step st op).2.2
    · exfalso
      have hq2 : runTerm st (op :: p) = true := by simp [runTerm, run, ht]
      rw [hq2] at hterm
      exact absurd hterm (by simp)
    · have h2 : runState st (op :: p) = runState (step st op).1 p := by
        simp [runState, run, ht]
      have h3 : runTerm st (op :: p) = runTerm (step st op).1 p := by
        simp [runTerm, run, ht]
      rw [h2]
      exact hq (h3 ▸ hterm)

theorem pairwise_lt_range'_one (n : Nat) : ∀ (s : Nat),
    List.Pairwise (fun a b => a < b) (List.range' s n) := by
  induction n with
  | zero => intro s; exact List.Pairwise.nil
  | succ m ihn =>
    intro s
    rw [show List.range' s (m + 1) = s :: List.range' (s + 1) m from rfl]
    refine List.Pairwise.cons ?_ (ihn (s + 1))
    intro b hb
    have := List.mem_range'_1.mp hb
    omega

theorem countWOMO_le (p : List Op) : countWO p + countMO p ≤ p.length := by
  induction p with
  | nil => exact Nat.le_refl 0
  | cons op p ih =>
    unfold countWO countMO at *
    rw [List.countP_cons, List.countP_cons, List.length_cons]
    cases op <;> simp <;> omega

/-- C4: over any well-formed sequence of create and destroy calls (each destroy
names a live object of its kind) that fits in the 32-bit id space, for every
object kind the number of live objects afterwards is creates minus destroys
(stated additively: live + destroys = creates, so destroys never exceed
creates); the ids live at the end are pairwise distinct; the ids are assigned
consecutively from 1 in strictly increasing order over the process lifetime;
and an id whose object was destroyed after some prefix of the sequence is
still dead at the end — it is never reassigned to a later-created live
object. -/
theorem c4_registry (bufs ubufs stdinL : List (List Nat)) (ops : List Op)
    (hwf : wfCD (initState bufs ubufs stdinL) ops = true)
    (hlen : ops.length < 4294967295) :
    ((runState (initState bufs ubufs stdinL) ops).windows.length + countWC ops = countWO ops
      ∧ (runState (initState bufs ubufs stdinL) ops).streams.length + countWC ops + countSC ops
          = countWO ops + countMO ops
      ∧ (runState (initState bufs ubufs stdinL) ops).filerefs.length + countFD ops
          = countFC ops)
    ∧ ((winIds (runState (initState bufs ubufs stdinL) ops)).Nodup
      ∧ (streamIds (runState (initState bufs ubufs stdinL) ops)).Nodup
      ∧ (frefIds (runState (initState bufs ubufs stdinL) ops)).Nodup)
    ∧ (createdWinIds (initState bufs ubufs stdinL) ops = List.range' 1 (countWO ops)
      ∧ createdStrIds (initState bufs ubufs stdinL) ops =
          List.range' 1 (countWO ops + countMO ops)
      ∧ createdFrefIds (initState bufs ubufs stdinL) ops = List.range' 1 (countFC ops))
    ∧ (List.Pairwise (fun a b => a < b) (createdWinIds (initState bufs ubufs stdinL) ops)
      ∧ List.Pairwise (fun a b => a < b) (createdStrIds (initState bufs ubufs stdinL) ops)
      ∧ List.Pairwise (fun a b => a < b) (createdFrefIds (initState bufs ubufs stdinL) ops))
    ∧ (∀ (p q : List Op), ops = p ++ q →
        (∀ i, deadWin (runState (initState bufs ubufs stdinL) p) i →
          deadWin (runState (initState bufs ubufs stdinL) ops) i)
        ∧ (∀ i, deadStr (runState (initState bufs ubufs stdinL) p) i →
          deadStr (runState (initState bufs ubufs stdinL) ops) i)
        ∧ (∀ i, deadFref (runState (initState bufs ubufs stdinL) p) i →
          deadFref (runState (initState bufs ubufs stdinL) ops) i)) := by
  have hU : U32 = 4294967296 := rfl
  have hinv0 : RegInv (initState bufs ubufs stdinL) := by
    refine ⟨?_, ?_, ?_, ?_, ?_, ?_, ?_, ?_⟩ <;>
      simp [winIds, streamIds, frefIds, initState]
  have hmain := run_cd_spec ops (initState bufs ubufs stdinL) hwf hinv0
    (by show 1 + ops.length < U32; omega)
    (by show 1 + ops.length < U32; omega)
    (by show 1 + ops.length < U32; omega)
  obtain ⟨hinvF, hb, hc, hd, he, hf, hg, hcw, hcs, hcf, -⟩ := hmain
  refine ⟨⟨?_, ?_, ?_⟩, ⟨hinvF.1, hinvF.2.1, hinvF.2.2.1⟩, ⟨hcw, hcs, hcf⟩,
    ⟨?_, ?_, ?_⟩, ?_⟩
  · simpa [initState] using hb
  · simpa [initState] using hc
  · simpa [initState] using hd
  · rw [hcw]; exact pairwise_lt_range'_one (countWO ops) 1
  · rw [hcs]; exact pairwise_lt_range'_one (countWO ops + countMO ops) 1
  · rw [hcf]; exact pairwise_lt_range'_one (countFC ops) 1
  · intro p q hpq
    have hlenpq : p.length + q.length = ops.length := by
      rw [hpq, List.length_append]
    have hsplit := wfCD_split p q (initState bufs ubufs stdinL) (hpq ▸ hwf)
    have hp := run_cd_spec p (initState bufs ubufs stdinL) hsplit.1 hinv0
      (by show 1 + p.length < U32; omega)
      (by show 1 + p.length < U32; omega)
      (by show 1 + p.length < U32; omega)
    obtain ⟨-, -, -, -, hpw, hps, hpf, -, -, -, hptermF⟩ := hp
    have happ : runState (initState bufs ubufs stdinL) ops =
        runState (runState (initState bufs ubufs stdinL) p) q := by
      rw [hpq]
      exact run_append p q (initState bufs ubufs stdinL) hptermF
    have hwob : countWO p ≤ p.length := List.countP_le_length _
    have hmob : countWO p + countMO p ≤ p.length := countWOMO_le p
    have hfcb : countFC p ≤ p.length := List.countP_le_length _
    have hq := run_reg_dead q (runState (initState bufs ubufs stdinL) p)
    rw [show (initState bufs ubufs stdinL).winCounter = 1 from rfl] at hpw
    rw [show (initState bufs ubufs stdinL).strCounter = 1 from rfl] at hps
    rw [show (initState bufs ubufs stdinL).frefCounter = 1 from rfl] at hpf
    refine ⟨?_, ?_, ?_⟩ <;> intro i hd2
    · rw [happ]
      exact (hq i (by omega) (by omega) (by omega)).1 hd2
    · rw [happ]
      exact (hq i (by omega) (by omega) (by omega)).2.1 hd2
    · rw [happ]
      exact (hq i (by omega) (by omega) (by omega)).2.2 hd2

theorem c4_registry_witness :
    (runState (initState [] [] [])
        [Op.windowOpen none 0 0 3 0, Op.streamOpenMemory none 10 Filemode.write 0,
         Op.filerefCreateTemp 0 0, Op.windowClose (some 1), Op.streamClose (some 2),
         Op.filerefDestroy (some 1)]).windows.length
      + countWC [Op.windowOpen none 0 0 3 0, Op.streamOpenMemory none 10 Filemode.write 0,
         Op.filerefCreateTemp 0 0, Op.windowClose (some 1), Op.streamClose (some 2),
         Op.filerefDestroy (some 1)]
      = countWO [Op.windowOpen none 0 0 3 0, Op.streamOpenMemory none 10 Filemode.write 0,
         Op.filerefCreateTemp 0 0, Op.windowClose (some 1), Op.streamClose (some 2),
         Op.filerefDestroy (some 1)]
    ∧ createdStrIds (initState [] [] [])
        [Op.windowOpen none 0 0 3 0, Op.streamOpenMemory none 10 Filemode.write 0,
         Op.filerefCreateTemp 0 0, Op.windowClose (some 1), Op.streamClose (some 2),
         Op.filerefDestroy (some 1)] =
      List.range' 1
        (countWO [Op.windowOpen none 0 0 3 0, Op.streamOpenMemory none 10 Filemode.write 0,
           Op.filerefCreateTemp 0 0, Op.windowClose (some 1), Op.streamClose (some 2),
           Op.filerefDestroy (some 1)]
         + countMO [Op.windowOpen none 0 0 3 0, Op.streamOpenMemory none 10 Filemode.write 0,
           Op.filerefCreateTemp 0 0, Op.windowClose (some 1), Op.streamClose (some 2),
           Op.filerefDestroy (some 1)]) := by
  have h := c4_registry [] [] []
    [Op.windowOpen none 0 0 3 0, Op.streamOpenMemory none 10 Filemode.write 0,
     Op.filerefCreateTemp 0 0, Op.windowClose (some 1), Op.streamClose (some 2),
     Op.filerefDestroy (some 1)] (by decide) (by decide)
  exact ⟨h.1.1, h.2.2.1.2.1⟩
